import Mathlib

/-!
# CC2 tile rotation (CC2Edit `BigTileWidget`)

A shallow embedding of the tile rotation code of `src/CC2Edit/TileWidgets.cpp`
(`rol4`, `ror4`, `BigTileWidget::rotateLeft`, `BigTileWidget::rotateRight`).

Machine integers are natural numbers with explicit reductions: `uint8_t` values
are taken modulo `2^8` where a conversion happens, `uint32_t` arithmetic is taken
modulo `2^32`.  The class `cc2::Tile` and the enumerations of `cc2::TileModifier`
are declared in a header that is not among the sources; what the code needs of
them is modelled below and marked as such.
-/

namespace cc2

/-! ## Data model -/

/-- Enumerators of `cc2::Tile::Type`, in the order of the `case` labels of
`CC2ETileset::drawAt` (the labels that are commented out there included),
one enumerator for every label. -/
inductive TileType where
  | Floor | Wall | Ice | Ice_NE | Ice_SE | Ice_SW
  | Ice_NW | Water | Fire | Force_N | Force_E | Force_S
  | Force_W | ToggleWall | ToggleFloor | Teleport_Red | Teleport_Blue | Teleport_Yellow
  | Teleport_Green | Exit | Slime | MirrorPlayer | Player | DirtBlock
  | Walker | Ship | IceBlock | UNUSED_Barrier_S | UNUSED_Barrier_E | UNUSED_Barrier_SE
  | Gravel | ToggleButton | TankButton | BlueTank | Door_Red | Door_Blue
  | Door_Yellow | Door_Green | Key_Red | Key_Blue | Key_Yellow | Key_Green
  | Chip | ExtraChip | Socket | PopUpWall | AppearingWall | InvisWall
  | BlueWall | BlueFloor | Dirt | Ant | Centipede | Ball
  | Blob | AngryTeeth | FireBox | CloneButton | TrapButton | IceCleats
  | MagnoShoes | FireShoes | Flippers | ToolThief | RedBomb | UNUSED_41
  | Trap | UNUSED_Cloner | Cloner | Clue | Force_Rand | AreaCtlButton
  | RevolvDoor_SW | RevolvDoor_NW | RevolvDoor_NE | RevolvDoor_SE | TimeBonus | ToggleClock
  | Transformer | TrainTracks | SteelWall | TimeBomb | Helmet | UNUSED_53
  | UNUSED_54 | UNUSED_55 | MirrorPlayer2 | Player2 | TimidTeeth | UNUSED_Explosion
  | HikingBoots | MaleOnly | FemaleOnly | LogicGate | UNUSED_5d | LogicSwitch
  | FlameJet_Off | FlameJet_On | FlameJetButton | Lightning | YellowTank | YellowTankCtrl
  | UNUSED_67 | BowlingBall | Rover | TimePenalty | StyledFloor | UNUSED_6c
  | PanelCanopy | UNUSED_6e | RRSign | StyledWall | AsciiGlyph | LSwitchFloor
  | LSwitchWall | UNUSED_74 | UNUSED_75 | UNUSED_79 | Flag10 | Flag100
  | Flag1000 | StayUpGWall | PopDownGWall | Disallow | Flag2x | DirBlock
  | FloorMimic | GreenBomb | GreenChip | UNUSED_85 | UNUSED_86 | RevLogicButton
  | Switch_Off | Switch_On | KeyThief | Ghost | SteelFoil | Turtle
  | Eye | Bribe | SpeedShoes | UNUSED_91 | Hook
  deriving DecidableEq, Repr

/-- Modelled from the spec: the enumerator `cc2::Tile::LogicButton`, which the tile palette
of `BigTileWidget` names and whose declaration is not among the sources.  The spec counts
the buttons tied to logic among the wire-bearing types.  The labels of `drawAt` name every
tile code once, with `LogicSwitch` at the code of the logic button; the palette names
`LogicButton` and never `LogicSwitch`; and no sprite is named after `LogicButton`.  It is
taken to be the enumerator that `drawAt` names `LogicSwitch`. -/
def TileType.LogicButton : TileType := .LogicSwitch

/-- Modelled from the spec: the value type `cc2::Tile` (section 3 of the spec), whose
class declaration is not among the sources.  `direction` is the numeric value of the
`cc2::Tile::Direction` stored in the tile (North = 0, East = 1, South = 2, West = 3;
any other value is an invalid direction, which the renderer handles in its `default`
branches); `modifier` is the 32-bit modifier, `tileFlags` the flag byte and `lower`
the optional lower layer. -/
structure Tile where
  type : TileType
  direction : Nat
  modifier : Nat
  tileFlags : Nat
  lower : Option Tile

/-- Modelled from the spec: the direction value `cc2::Tile::North`, first in the ordered
cycle North, East, South, West. -/
def Tile.North : Nat := 0

/-- Modelled from the spec: the direction value `cc2::Tile::East`, second in the ordered
cycle North, East, South, West. -/
def Tile.East : Nat := 1

/-- Modelled from the spec: the direction value `cc2::Tile::South`, third in the ordered
cycle North, East, South, West. -/
def Tile.South : Nat := 2

/-- Modelled from the spec: the direction value `cc2::Tile::West`, fourth in the ordered
cycle North, East, South, West. -/
def Tile.West : Nat := 3

/-- A tile whose fields fit their machine types: a `uint32_t` modifier and a
`uint8_t` flag byte. -/
def Tile.WellFormed (t : Tile) : Prop :=
  t.modifier < 2 ^ 32 ∧ t.tileFlags < 2 ^ 8

instance (t : Tile) : Decidable t.WellFormed := by
  unfold Tile.WellFormed; infer_instance

/-- Modelled from the spec: the types that declare a direction, which
`cc2::Tile::haveDirection()` tests (the function is defined outside the sources).  They are
the direction-bearing and the arrow-decorated types of section 4.2 of the spec, exactly the
types that the palette of `BigTileWidget` constructs with a direction and that `drawAt`
renders by direction. -/
def TileType.haveDirection (ty : TileType) : Bool :=
  match ty with
  | .Player | .Player2 | .MirrorPlayer | .MirrorPlayer2 | .IceBlock | .DirtBlock
  | .YellowTank | .Ant | .Ship | .Ball | .AngryTeeth | .Blob | .Ghost | .BlueTank
  | .Centipede | .FireBox | .Walker | .TimidTeeth | .Rover | .FloorMimic => true
  | _ => false

/-- Modelled from the spec: `cc2::Tile::haveDirection()`, whether the type of the tile
declares a direction. -/
def Tile.haveDirection (t : Tile) : Bool := t.type.haveDirection

/-- Modelled from the spec: `cc2::Tile::setDirection`, which stores a direction. -/
def Tile.setDirection (t : Tile) (d : Nat) : Tile := { t with direction := d }

/-- Modelled from the spec: `cc2::Tile::setModifier`, which stores a 32-bit modifier. -/
def Tile.setModifier (t : Tile) (m : Nat) : Tile := { t with modifier := m % 2 ^ 32 }

/-- Modelled from the spec: `cc2::Tile::setTileFlags`, which stores a flag byte. -/
def Tile.setTileFlags (t : Tile) (f : Nat) : Tile := { t with tileFlags := f % 2 ^ 8 }

/-- Modelled from the spec: `cc2::Tile::set(type)`, which retypes the tile in place
(the type-cycle rules of section 4.3 of the spec move a tile between distinct types). -/
def Tile.set (t : Tile) (ty : TileType) : Tile := { t with type := ty }

/-- Modelled from the spec: the enumerators of `cc2::TileModifier` that the rotation
code and the renderer read.  Their declarations are not among the sources, so their values
are parameters of the embedding. -/
structure TileModifier where
  Track_NS : Nat
  Track_WE : Nat
  CounterGate_0 : Nat
  CounterGate_9 : Nat
  CounterGate_1 : Nat
  CounterGate_2 : Nat
  CounterGate_3 : Nat
  CounterGate_4 : Nat
  CounterGate_5 : Nat
  CounterGate_6 : Nat
  CounterGate_7 : Nat
  CounterGate_8 : Nat
  Inverter_N : Nat
  Inverter_E : Nat
  Inverter_S : Nat
  Inverter_W : Nat
  AndGate_N : Nat
  AndGate_E : Nat
  AndGate_S : Nat
  AndGate_W : Nat
  OrGate_N : Nat
  OrGate_E : Nat
  OrGate_S : Nat
  OrGate_W : Nat
  XorGate_N : Nat
  XorGate_E : Nat
  XorGate_S : Nat
  XorGate_W : Nat
  LatchGateCW_N : Nat
  LatchGateCW_E : Nat
  LatchGateCW_S : Nat
  LatchGateCW_W : Nat
  NandGate_N : Nat
  NandGate_E : Nat
  NandGate_S : Nat
  NandGate_W : Nat
  LatchGateCCW_N : Nat
  LatchGateCCW_E : Nat
  LatchGateCCW_S : Nat
  LatchGateCCW_W : Nat
  CamoTheme : Nat
  PinkDotsTheme : Nat
  YellowBrickTheme : Nat
  BlueTheme : Nat
  GlyphMIN : Nat
  GlyphMAX : Nat
  deriving DecidableEq, Repr

/-- The values the CC2 map format gives these enumerators; used to evaluate the
definitions on concrete tiles. -/
def TileModifier.cc2Format : TileModifier :=
  { Track_NS := 0x20, Track_WE := 0x10, CounterGate_0 := 0x1e, CounterGate_9 := 0x27,
    CounterGate_1 := 0x1f, CounterGate_2 := 0x20, CounterGate_3 := 0x21, CounterGate_4 := 0x22,
    CounterGate_5 := 0x23, CounterGate_6 := 0x24, CounterGate_7 := 0x25, CounterGate_8 := 0x26,
    Inverter_N := 0x00, Inverter_E := 0x01, Inverter_S := 0x02, Inverter_W := 0x03,
    AndGate_N := 0x04, AndGate_E := 0x05, AndGate_S := 0x06, AndGate_W := 0x07,
    OrGate_N := 0x08, OrGate_E := 0x09, OrGate_S := 0x0a, OrGate_W := 0x0b,
    XorGate_N := 0x0c, XorGate_E := 0x0d, XorGate_S := 0x0e, XorGate_W := 0x0f,
    LatchGateCW_N := 0x10, LatchGateCW_E := 0x11, LatchGateCW_S := 0x12, LatchGateCW_W := 0x13,
    NandGate_N := 0x14, NandGate_E := 0x15, NandGate_S := 0x16, NandGate_W := 0x17,
    LatchGateCCW_N := 0x40, LatchGateCCW_E := 0x41, LatchGateCCW_S := 0x42,
    LatchGateCCW_W := 0x43,
    CamoTheme := 0, PinkDotsTheme := 1, YellowBrickTheme := 2, BlueTheme := 3,
    GlyphMIN := 0x1c, GlyphMAX := 0x5f }

/-! ## Machine arithmetic -/

/-- Bitwise complement of a value converted to `uint32_t` (the C++ `~x` of an `int`
operand once it meets a `uint32_t` operand). -/
def not32 (x : Nat) : Nat := 2 ^ 32 - 1 - x % 2 ^ 32

/-! ## `rol4` and `ror4` -/

/-- The function `rol4` of `TileWidgets.cpp`; the argument is a `uint8_t`. -/
def rol4 (bits : Nat) : Nat :=
  let rbits := ((bits &&& 0x0f) <<< 1) % 2 ^ 8
  let rbits := if bits &&& 0x08 ≠ 0 then (rbits &&& 0x0f) ||| 0x01 else rbits
  ((bits &&& 0xf0) ||| rbits) % 2 ^ 8

/-- The function `ror4` of `TileWidgets.cpp`; the argument is a `uint8_t`. -/
def ror4 (bits : Nat) : Nat :=
  let rbits := (bits &&& 0x0f) >>> 1
  let rbits := if bits &&& 0x01 ≠ 0 then rbits ||| 0x08 else rbits
  ((bits &&& 0xf0) ||| rbits) % 2 ^ 8

/-! ## The rotation engine -/

/-- The body of the loop of `BigTileWidget::rotateLeft`, applied to one tile. -/
def rotateLeftTile (M : TileModifier) (tile : Tile) : Tile :=
  let tile := if tile.haveDirection then tile.setDirection ((tile.direction + 3) % 4) else tile
  match tile.type with
  | .Floor =>
    let wires := ror4 (tile.modifier % 2 ^ 8) &&& 0x0f
    let wires := (wires ||| (wires <<< 4)) % 2 ^ 8
    tile.setModifier ((tile.modifier &&& not32 0xff) ||| wires)
  | .PanelCanopy | .DirBlock => tile.setTileFlags (ror4 (tile.tileFlags % 2 ^ 8))
  | .StyledFloor | .StyledWall => tile.setModifier ((tile.modifier + 3) % 2 ^ 32 % 4)
  | .Cloner => tile.setModifier (ror4 (tile.modifier % 2 ^ 8))
  | .Ice_NE => tile.set .Ice_NW
  | .Ice_SE => tile.set .Ice_NE
  | .Ice_SW => tile.set .Ice_SE
  | .Ice_NW => tile.set .Ice_SW
  | .Force_N => tile.set .Force_W
  | .Force_E => tile.set .Force_N
  | .Force_S => tile.set .Force_E
  | .Force_W => tile.set .Force_S
  | .RevolvDoor_SW => tile.set .RevolvDoor_SE
  | .RevolvDoor_NW => tile.set .RevolvDoor_SW
  | .RevolvDoor_NE => tile.set .RevolvDoor_NW
  | .RevolvDoor_SE => tile.set .RevolvDoor_NE
  | .TrainTracks =>
    let track := ror4 (tile.modifier % 2 ^ 8)
    let track :=
      if track &&& M.Track_NS ≠ 0 then (track &&& not32 M.Track_NS) ||| M.Track_WE
      else if track &&& M.Track_WE ≠ 0 then (track &&& not32 M.Track_WE) ||| M.Track_NS
      else track
    tile.setModifier track
  | .Switch_Off => tile.set .Switch_On
  | .Switch_On => tile.set .Switch_Off
  | .LogicGate =>
    if M.CounterGate_0 ≤ tile.modifier ∧ tile.modifier ≤ M.CounterGate_9 then
      tile.setModifier (((tile.modifier - M.CounterGate_0) + 9) % 2 ^ 32 % 10 + M.CounterGate_0)
    else
      tile.setModifier (((tile.modifier + 3) % 2 ^ 32 % 4) ||| (tile.modifier &&& not32 0x03))
  | _ => tile

/-- The body of the loop of `BigTileWidget::rotateRight`, applied to one tile. -/
def rotateRightTile (M : TileModifier) (tile : Tile) : Tile :=
  let tile := if tile.haveDirection then tile.setDirection ((tile.direction + 1) % 4) else tile
  match tile.type with
  | .Floor =>
    let wires := rol4 (tile.modifier % 2 ^ 8) &&& 0x0f
    let wires := (wires ||| (wires <<< 4)) % 2 ^ 8
    tile.setModifier ((tile.modifier &&& not32 0xff) ||| wires)
  | .PanelCanopy | .DirBlock => tile.setTileFlags (rol4 (tile.tileFlags % 2 ^ 8))
  | .StyledFloor | .StyledWall => tile.setModifier ((tile.modifier + 1) % 2 ^ 32 % 4)
  | .Cloner => tile.setModifier (rol4 (tile.modifier % 2 ^ 8))
  | .Ice_NE => tile.set .Ice_SE
  | .Ice_SE => tile.set .Ice_SW
  | .Ice_SW => tile.set .Ice_NW
  | .Ice_NW => tile.set .Ice_NE
  | .Force_N => tile.set .Force_E
  | .Force_E => tile.set .Force_S
  | .Force_S => tile.set .Force_W
  | .Force_W => tile.set .Force_N
  | .RevolvDoor_SW => tile.set .RevolvDoor_NW
  | .RevolvDoor_NW => tile.set .RevolvDoor_NE
  | .RevolvDoor_NE => tile.set .RevolvDoor_SE
  | .RevolvDoor_SE => tile.set .RevolvDoor_SW
  | .TrainTracks =>
    let track := rol4 (tile.modifier % 2 ^ 8)
    let track :=
      if track &&& M.Track_NS ≠ 0 then (track &&& not32 M.Track_NS) ||| M.Track_WE
      else if track &&& M.Track_WE ≠ 0 then (track &&& not32 M.Track_WE) ||| M.Track_NS
      else track
    tile.setModifier track
  | .Switch_Off => tile.set .Switch_On
  | .Switch_On => tile.set .Switch_Off
  | .LogicGate =>
    if M.CounterGate_0 ≤ tile.modifier ∧ tile.modifier ≤ M.CounterGate_9 then
      tile.setModifier (((tile.modifier - M.CounterGate_0) + 1) % 2 ^ 32 % 10 + M.CounterGate_0)
    else
      tile.setModifier (((tile.modifier + 1) % 2 ^ 32 % 4) ||| (tile.modifier &&& not32 0x03))
  | _ => tile

/-- The function `BigTileWidget::rotateLeft`: every tile of the tile list is rotated. -/
def rotateLeft (M : TileModifier) (tileList : List Tile) : List Tile :=
  tileList.map (rotateLeftTile M)

/-- The function `BigTileWidget::rotateRight`: every tile of the tile list is rotated. -/
def rotateRight (M : TileModifier) (tileList : List Tile) : List Tile :=
  tileList.map (rotateRightTile M)

/-! ## Reference functions for the claims -/

/-- Circular rotation of a 4-bit value by one position to the left: every bit moves one
position up and bit 3 wraps to bit 0. -/
def nibbleRotl (n : Nat) : Nat := 2 * n % 16 + n / 8

/-- Circular rotation of a 4-bit value by one position to the right: every bit moves one
position down and bit 0 wraps to bit 3. -/
def nibbleRotr (n : Nat) : Nat := n / 2 + 8 * (n % 2)

/-- The value `v` with bit `i` cleared. -/
def clearBit (v i : Nat) : Nat := if v.testBit i then v - 2 ^ i else v

/-- The value `v` with bit `i` set. -/
def setBit (v i : Nat) : Nat := if v.testBit i then v else v + 2 ^ i

/-- The exchange of the train-track rule as the spec words it, for `Track_NS` the bit at
position `ns` and `Track_WE` the bit at position `we`: clear the NS bit and set the WE bit
if `v` has the NS bit, otherwise clear the WE bit and set the NS bit if `v` has the WE bit,
otherwise `v`. -/
def trackSwap (ns we v : Nat) : Nat :=
  if v.testBit ns then setBit (clearBit v ns) we
  else if v.testBit we then setBit (clearBit v we) ns
  else v

/-! ## Rotation-normal tiles -/

/-- A modifier in the counter range `[CounterGate_0, CounterGate_9]`, the test of the
`LogicGate` case of the rotation code. -/
def TileModifier.isCounter (M : TileModifier) (m : Nat) : Prop :=
  M.CounterGate_0 ≤ m ∧ m ≤ M.CounterGate_9

instance (M : TileModifier) (m : Nat) : Decidable (M.isCounter m) := by
  unfold TileModifier.isCounter; infer_instance

/-- The assumptions on the enumerators under which the round-trip statements are proved:
`Track_NS` and `Track_WE` are distinct single bits of the high nibble of the track byte, and
`CounterGate_0 .. CounterGate_9` are ten consecutive 32-bit values. -/
def TileModifier.Valid (M : TileModifier) : Prop :=
  M.Track_NS ∈ [0x10, 0x20, 0x40, 0x80] ∧ M.Track_WE ∈ [0x10, 0x20, 0x40, 0x80] ∧
    M.Track_NS ≠ M.Track_WE ∧
    M.CounterGate_9 = M.CounterGate_0 + 9 ∧ M.CounterGate_9 < 2 ^ 32

instance (M : TileModifier) : Decidable M.Valid := by
  unfold TileModifier.Valid; infer_instance

/-- The tiles on which a rotation loses no information: a tile that has a direction faces
North, East, South or West; a Floor tile has equal wire and tunnel nibbles; a themed tile
has a theme in `0..3`; a Cloner or TrainTracks mask fits in one byte, and a track mask does
not have both `Track_NS` and `Track_WE`; a LogicGate modifier is a counter value, or none of
the four values that share its bits 2..31 is a counter value. -/
def Tile.RotationNormal (M : TileModifier) (t : Tile) : Prop :=
  (t.haveDirection = true → t.direction < 4) ∧
    match t.type with
    | .Floor => t.modifier / 16 % 16 = t.modifier % 16
    | .StyledFloor | .StyledWall => t.modifier < 4
    | .Cloner => t.modifier < 2 ^ 8
    | .TrainTracks =>
      t.modifier < 2 ^ 8 ∧ ¬ (t.modifier &&& M.Track_NS ≠ 0 ∧ t.modifier &&& M.Track_WE ≠ 0)
    | .LogicGate =>
      M.isCounter t.modifier ∨ ∀ k, k < 4 → ¬ M.isCounter (4 * (t.modifier / 4) + k)
    | _ => True

/-! ## Byte-level steps of the rotation rules -/

/-- The types whose rotation rule rewrites the modifier or the flags. -/
def TileType.hasFieldRule (ty : TileType) : Bool :=
  match ty with
  | .Floor | .PanelCanopy | .DirBlock | .StyledFloor | .StyledWall | .Cloner | .TrainTracks
  | .LogicGate => true
  | _ => false

/-- The type that `rotateRight` gives a tile of type `ty`. -/
def TileType.rotatedRight (ty : TileType) : TileType :=
  match ty with
  | .Ice_NE => .Ice_SE
  | .Ice_SE => .Ice_SW
  | .Ice_SW => .Ice_NW
  | .Ice_NW => .Ice_NE
  | .Force_N => .Force_E
  | .Force_E => .Force_S
  | .Force_S => .Force_W
  | .Force_W => .Force_N
  | .RevolvDoor_SW => .RevolvDoor_NW
  | .RevolvDoor_NW => .RevolvDoor_NE
  | .RevolvDoor_NE => .RevolvDoor_SE
  | .RevolvDoor_SE => .RevolvDoor_SW
  | .Switch_Off => .Switch_On
  | .Switch_On => .Switch_Off
  | ty => ty

/-- The type that `rotateLeft` gives a tile of type `ty`. -/
def TileType.rotatedLeft (ty : TileType) : TileType :=
  match ty with
  | .Ice_NE => .Ice_NW
  | .Ice_SE => .Ice_NE
  | .Ice_SW => .Ice_SE
  | .Ice_NW => .Ice_SW
  | .Force_N => .Force_W
  | .Force_E => .Force_N
  | .Force_S => .Force_E
  | .Force_W => .Force_S
  | .RevolvDoor_SW => .RevolvDoor_SE
  | .RevolvDoor_NW => .RevolvDoor_SW
  | .RevolvDoor_NE => .RevolvDoor_NW
  | .RevolvDoor_SE => .RevolvDoor_NE
  | .Switch_Off => .Switch_On
  | .Switch_On => .Switch_Off
  | ty => ty

/-- The low byte that the `Floor` case of `rotateRight` stores for a low byte `b`. -/
def floorByteRight (b : Nat) : Nat :=
  let wires := rol4 b &&& 0x0f
  (wires ||| (wires <<< 4)) % 2 ^ 8

/-- The low byte that the `Floor` case of `rotateLeft` stores for a low byte `b`. -/
def floorByteLeft (b : Nat) : Nat :=
  let wires := ror4 b &&& 0x0f
  (wires ||| (wires <<< 4)) % 2 ^ 8

/-- The modifier that the `TrainTracks` case stores for the rotated track byte `track`, with
`ns` the value of `Track_NS` and `we` the value of `Track_WE`. -/
def trackExchange (ns we track : Nat) : Nat :=
  (if track &&& ns ≠ 0 then (track &&& not32 ns) ||| we
    else if track &&& we ≠ 0 then (track &&& not32 we) ||| ns
    else track) % 2 ^ 32

/-! ## The renderer

The embedding of `CC2ETileset::drawAt`, `drawArrow` and `drawGlyph` of
`lib/libcc2/Tileset.cpp`.  A call of `QPainter::drawPixmap` is recorded as a `Blit`, and the
drawing functions return the sequence of blits they issue, in order.  Coordinates are
mathematical integers: overflow of the C++ `int` arithmetic on coordinates is not modelled. -/

/-- Modelled from the spec: the enumerators `cc2::G_...` that index the sprite array `m_gfx`,
in the order in which `Tileset.cpp` first names them; their declaration is not among the
sources. -/
inductive Graphic where
  | G_WireFill | G_Floor_Wire4 | G_Floor | G_Wall | G_Ice | G_Ice_NE | G_Ice_SE | G_Ice_SW
  | G_Ice_NW | G_Water | G_Fire | G_Force_N | G_Force_E | G_Force_S | G_Force_W | G_ToggleWall
  | G_ToggleFloor | G_Teleport_Red | G_Teleport_Blue | G_Teleport_Yellow | G_Teleport_Green
  | G_Exit | G_Slime | G_MirrorPlayer_Underlay | G_Player_N | G_Player_E | G_Player_S
  | G_Player_W | G_InvalidBase | G_DirtBlock_Xray | G_DirtBlock | G_Walker | G_Ship_N | G_Ship_E
  | G_Ship_S | G_Ship_W | G_IceBlock_Xray | G_IceBlock | G_Panel_S | G_Panel_E | G_Gravel
  | G_ToggleButton | G_TankButton | G_BlueTank_N | G_BlueTank_E | G_BlueTank_S | G_BlueTank_W
  | G_Door_Red | G_Door_Blue | G_Door_Yellow | G_Door_Green | G_Key_Red | G_Key_Blue
  | G_Key_Yellow | G_Key_Green | G_Chip | G_ExtraChip | G_Socket | G_PopUpWall | G_AppearingWall
  | G_InvisWall | G_BlueWall | G_BlueFloor | G_Dirt | G_Ant_N | G_Ant_E | G_Ant_S | G_Ant_W
  | G_Centipede_N | G_Centipede_E | G_Centipede_S | G_Centipede_W | G_Ball | G_Blob
  | G_AngryTeeth_S | G_AngryTeeth_E | G_AngryTeeth_W | G_FireBox | G_CloneButton | G_TrapButton
  | G_IceCleats | G_MagnoShoes | G_FireShoes | G_Flippers | G_ToolThief | G_RedBomb | G_Trap
  | G_Cloner | G_Clue | G_Force_Rand | G_AreaCtlButton | G_RevolvDoor_SW | G_RevolvDoor_NW
  | G_RevolvDoor_NE | G_RevolvDoor_SE | G_TimeBonus | G_ToggleClock | G_Transformer
  | G_SteelWall_Wire4 | G_SteelWall | G_TimeBomb | G_Helmet | G_Player2_N | G_Player2_E
  | G_Player2_S | G_Player2_W | G_TimidTeeth_S | G_TimidTeeth_E | G_TimidTeeth_W | G_HikingBoots
  | G_MaleOnly | G_FemaleOnly | G_Inverter_N | G_Inverter_E | G_Inverter_S | G_Inverter_W
  | G_AndGate_N | G_AndGate_E | G_AndGate_S | G_AndGate_W | G_OrGate_N | G_OrGate_E | G_OrGate_S
  | G_OrGate_W | G_XorGate_N | G_XorGate_E | G_XorGate_S | G_XorGate_W | G_LatchGateCW_N
  | G_LatchGateCW_E | G_LatchGateCW_S | G_LatchGateCW_W | G_NandGate_N | G_NandGate_E
  | G_NandGate_S | G_NandGate_W | G_CounterGate_0 | G_CounterGate_1 | G_CounterGate_2
  | G_CounterGate_3 | G_CounterGate_4 | G_CounterGate_5 | G_CounterGate_6 | G_CounterGate_7
  | G_CounterGate_8 | G_CounterGate_9 | G_LatchGateCCW_N | G_LatchGateCCW_E | G_LatchGateCCW_S
  | G_LatchGateCCW_W | G_LogicSwitch | G_FlameJet_Off | G_FlameJet_On | G_FlameJetButton
  | G_Lightning | G_YellowTank_N | G_YellowTank_E | G_YellowTank_S | G_YellowTank_W
  | G_YellowTankCtrl | G_BowlingBall | G_Rover_N | G_Rover_E | G_Rover_S | G_Rover_W
  | G_TimePenalty | G_CamoCFloor | G_PinkDotsCFloor | G_YellowBrickCFloor | G_BlueCFloor
  | G_Canopy_Xray | G_Canopy | G_Panel_N | G_Panel_W | G_RRSign | G_CamoCWall | G_PinkDotsCWall
  | G_YellowBrickCWall | G_BlueCWall | G_AsciiGlyphFrame | G_LSwitchFloor | G_LSwitchWall
  | G_Flag10 | G_Flag100 | G_Flag1000 | G_StayUpGWall | G_PopDownGWall | G_Disallow | G_Flag2x
  | G_DirBlock | G_FloorMimic | G_GreenBomb | G_GreenChip | G_RevLogicButton | G_Switch_Off
  | G_Switch_On | G_KeyThief | G_Ghost_N | G_Ghost_E | G_Ghost_S | G_Ghost_W | G_SteelFoil
  | G_Turtle | G_Eye | G_Bribe | G_SpeedShoes | G_Hook | G_GlyphArrows
  deriving DecidableEq, Repr

/-- One call of `QPainter::drawPixmap`.  `full x y g` is `drawPixmap(x, y, m_gfx[g])`, the
blit of a whole sprite; `part x y g k sx sy sw sh` is
`drawPixmap(x, y, m_gfx[g + k], sx, sy, sw, sh)`, the blit of the `sw` by `sh` sub-rectangle
with origin `(sx, sy)` of the sprite whose index is `g + k`. -/
inductive Blit where
  | full (x y : Int) (g : Graphic)
  | part (x y : Int) (g : Graphic) (k : Nat) (sx sy sw sh : Nat)
  deriving DecidableEq, Repr

/-- Modelled from the spec: the panel flag bits `cc2::Tile::Canopy`, `cc2::Tile::PanelNorth`,
`cc2::Tile::PanelEast`, `cc2::Tile::PanelSouth` and `cc2::Tile::PanelWest`, whose declarations
are not among the sources. -/
structure PanelFlags where
  Canopy : Nat
  PanelNorth : Nat
  PanelEast : Nat
  PanelSouth : Nat
  PanelWest : Nat
  deriving DecidableEq, Repr

/-- The values the CC2 map format gives the panel flag bits; used to evaluate the
definitions on concrete tiles. -/
def PanelFlags.cc2Format : PanelFlags :=
  { Canopy := 0x10, PanelNorth := 0x01, PanelEast := 0x02, PanelSouth := 0x04,
    PanelWest := 0x08 }

/-- Modelled from the spec: what the renderer reads of the level-data model, which is
declared outside the sources: the enumerators of `cc2::TileModifier`, the panel flag bits
of `cc2::Tile`, and the predicates `cc2::Tile::needXray()` and `cc2::Tile::haveDirection()`,
the latter as the `default` branch of `drawAt` calls it. -/
structure TileModel where
  modifier : TileModifier
  flags : PanelFlags
  needXray : Tile → Bool
  haveDirection : Tile → Bool

/-- The tile model with the values of the CC2 map format, in which no tile asks for the
x-ray variant and the tiles that have a direction are those of `Tile.haveDirection`; used
to evaluate the definitions on concrete tiles. -/
def TileModel.cc2Format : TileModel :=
  { modifier := TileModifier.cc2Format, flags := PanelFlags.cc2Format,
    needXray := fun _ => false, haveDirection := Tile.haveDirection }

/-- The object `CC2ETileset` as the drawing functions read it: the sprite edge `m_size`,
which `load` reads from one byte.  The sprites `m_gfx` themselves are not modelled; a blit
names its sprite by its index. -/
structure CC2ETileset where
  size : Nat
  deriving DecidableEq, Repr

/-- Modelled from the spec: `cc2::Tile::haveLower()`, whether a lower layer is present. -/
def Tile.haveLower (t : Tile) : Bool := t.lower.isSome

/-- Modelled from the spec: `cc2::Tile::panelFlags()`, the flag byte of a panel tile, which
the rotation code reads and writes as `tileFlags()`. -/
def Tile.panelFlags (t : Tile) : Nat := t.tileFlags

/-- The function `CC2ETileset::drawArrow`. -/
def drawArrow (ts : CC2ETileset) (x y : Int) (direction : Nat) : List Blit :=
  if direction = Tile.North then
    [.part (x + ↑(ts.size / 4)) y .G_GlyphArrows 0 0 0 (ts.size / 2) (ts.size / 2)]
  else if direction = Tile.East then
    [.part (x + ↑(ts.size / 2)) (y + ↑(ts.size / 4)) .G_GlyphArrows 0
      (ts.size / 2) 0 (ts.size / 2) (ts.size / 2)]
  else if direction = Tile.South then
    [.part (x + ↑(ts.size / 4)) (y + ↑(ts.size / 2)) .G_GlyphArrows 0
      0 (ts.size / 2) (ts.size / 2) (ts.size / 2)]
  else if direction = Tile.West then
    [.part x (y + ↑(ts.size / 4)) .G_GlyphArrows 0
      (ts.size / 2) (ts.size / 2) (ts.size / 2) (ts.size / 2)]
  else []

/-- The function `CC2ETileset::drawGlyph`; `glyph` is a `uint32_t`. -/
def drawGlyph (D : TileModel) (ts : CC2ETileset) (x y : Int) (glyph : Nat) : List Blit :=
  if glyph < D.modifier.GlyphMIN ∨ glyph > D.modifier.GlyphMAX then
    [.full x y .G_InvalidBase]
  else
    let id := (glyph - D.modifier.GlyphMIN) / 4
    let sx := (glyph % 2) * (ts.size / 2)
    let sy := ((glyph / 2) % 2) * (ts.size / 2)
    [.part (x + ↑(ts.size / 4)) (y + ↑(ts.size / 4)) .G_GlyphArrows id
      sx sy (ts.size / 2) (ts.size / 2)]

/-- The `switch (tile->type())` of `CC2ETileset::drawAt` ("Draw the base tile"): the blits
of the tile itself, without its lower layer. -/
def drawBase (D : TileModel) (ts : CC2ETileset) (x y : Int) (tile : Tile) : List Blit :=
  match tile.type with
  | .Floor =>
    (if tile.modifier ≠ 0 then [.full x y .G_WireFill, .full x y .G_Floor_Wire4]
        else [.full x y .G_Floor])
  | .Wall =>
    [.full x y .G_Wall]
  | .Ice =>
    [.full x y .G_Ice]
  | .Ice_NE =>
    [.full x y .G_Ice_NE]
  | .Ice_SE =>
    [.full x y .G_Ice_SE]
  | .Ice_SW =>
    [.full x y .G_Ice_SW]
  | .Ice_NW =>
    [.full x y .G_Ice_NW]
  | .Water =>
    [.full x y .G_Water]
  | .Fire =>
    [.full x y .G_Fire]
  | .Force_N =>
    [.full x y .G_Force_N]
  | .Force_E =>
    [.full x y .G_Force_E]
  | .Force_S =>
    [.full x y .G_Force_S]
  | .Force_W =>
    [.full x y .G_Force_W]
  | .ToggleWall =>
    [.full x y .G_ToggleWall]
  | .ToggleFloor =>
    [.full x y .G_ToggleFloor]
  | .Teleport_Red =>
    [.full x y .G_WireFill, .full x y .G_Teleport_Red]
  | .Teleport_Blue =>
    [.full x y .G_WireFill, .full x y .G_Teleport_Blue]
  | .Teleport_Yellow =>
    [.full x y .G_Teleport_Yellow]
  | .Teleport_Green =>
    [.full x y .G_Teleport_Green]
  | .Exit =>
    [.full x y .G_Exit]
  | .Slime =>
    [.full x y .G_Slime]
  | .MirrorPlayer =>
    [.full x y .G_MirrorPlayer_Underlay] ++
      (if tile.direction = Tile.North then [.full x y .G_Player_N]
      else if tile.direction = Tile.East then [.full x y .G_Player_E]
      else if tile.direction = Tile.South then [.full x y .G_Player_S]
      else if tile.direction = Tile.West then [.full x y .G_Player_W]
      else [.full x y .G_Player_S, .full x y .G_InvalidBase])
  | .Player =>
    (if tile.direction = Tile.North then [.full x y .G_Player_N]
      else if tile.direction = Tile.East then [.full x y .G_Player_E]
      else if tile.direction = Tile.South then [.full x y .G_Player_S]
      else if tile.direction = Tile.West then [.full x y .G_Player_W]
      else [.full x y .G_Player_S, .full x y .G_InvalidBase])
  | .DirtBlock =>
    (if (tile.haveLower && tile.lower.any D.needXray) then [.full x y .G_DirtBlock_Xray]
      else [.full x y .G_DirtBlock]) ++
      drawArrow ts x y tile.direction
  | .Walker =>
    [.full x y .G_Walker] ++ drawArrow ts x y tile.direction
  | .Ship =>
    (if tile.direction = Tile.North then [.full x y .G_Ship_N]
      else if tile.direction = Tile.East then [.full x y .G_Ship_E]
      else if tile.direction = Tile.South then [.full x y .G_Ship_S]
      else if tile.direction = Tile.West then [.full x y .G_Ship_W]
      else [.full x y .G_Ship_N, .full x y .G_InvalidBase])
  | .IceBlock =>
    (if (tile.haveLower && tile.lower.any D.needXray) then [.full x y .G_IceBlock_Xray]
      else [.full x y .G_IceBlock]) ++
      drawArrow ts x y tile.direction
  | .UNUSED_Barrier_S =>
    [.full x y .G_Panel_S]
  | .UNUSED_Barrier_E =>
    [.full x y .G_Panel_E]
  | .UNUSED_Barrier_SE =>
    [.full x y .G_Panel_S, .full x y .G_Panel_E]
  | .Gravel =>
    [.full x y .G_Gravel]
  | .ToggleButton =>
    [.full x y .G_ToggleButton]
  | .TankButton =>
    [.full x y .G_TankButton]
  | .BlueTank =>
    (if tile.direction = Tile.North then [.full x y .G_BlueTank_N]
      else if tile.direction = Tile.East then [.full x y .G_BlueTank_E]
      else if tile.direction = Tile.South then [.full x y .G_BlueTank_S]
      else if tile.direction = Tile.West then [.full x y .G_BlueTank_W]
      else [.full x y .G_BlueTank_N, .full x y .G_InvalidBase])
  | .Door_Red =>
    [.full x y .G_Door_Red]
  | .Door_Blue =>
    [.full x y .G_Door_Blue]
  | .Door_Yellow =>
    [.full x y .G_Door_Yellow]
  | .Door_Green =>
    [.full x y .G_Door_Green]
  | .Key_Red =>
    [.full x y .G_Key_Red]
  | .Key_Blue =>
    [.full x y .G_Key_Blue]
  | .Key_Yellow =>
    [.full x y .G_Key_Yellow]
  | .Key_Green =>
    [.full x y .G_Key_Green]
  | .Chip =>
    [.full x y .G_Chip]
  | .ExtraChip =>
    [.full x y .G_ExtraChip]
  | .Socket =>
    [.full x y .G_Socket]
  | .PopUpWall =>
    [.full x y .G_PopUpWall]
  | .AppearingWall =>
    [.full x y .G_AppearingWall]
  | .InvisWall =>
    [.full x y .G_InvisWall]
  | .BlueWall =>
    [.full x y .G_BlueWall]
  | .BlueFloor =>
    [.full x y .G_BlueFloor]
  | .Dirt =>
    [.full x y .G_Dirt]
  | .Ant =>
    (if tile.direction = Tile.North then [.full x y .G_Ant_N]
      else if tile.direction = Tile.East then [.full x y .G_Ant_E]
      else if tile.direction = Tile.South then [.full x y .G_Ant_S]
      else if tile.direction = Tile.West then [.full x y .G_Ant_W]
      else [.full x y .G_Ant_N, .full x y .G_InvalidBase])
  | .Centipede =>
    (if tile.direction = Tile.North then [.full x y .G_Centipede_N]
      else if tile.direction = Tile.East then [.full x y .G_Centipede_E]
      else if tile.direction = Tile.South then [.full x y .G_Centipede_S]
      else if tile.direction = Tile.West then [.full x y .G_Centipede_W]
      else [.full x y .G_Centipede_N, .full x y .G_InvalidBase])
  | .Ball =>
    [.full x y .G_Ball] ++ drawArrow ts x y tile.direction
  | .Blob =>
    [.full x y .G_Blob] ++ drawArrow ts x y tile.direction
  | .AngryTeeth =>
    (if tile.direction = Tile.North ∨ tile.direction = Tile.South then
        [.full x y .G_AngryTeeth_S] ++ drawArrow ts x y tile.direction
      else if tile.direction = Tile.East then [.full x y .G_AngryTeeth_E]
      else if tile.direction = Tile.West then [.full x y .G_AngryTeeth_W]
      else [.full x y .G_AngryTeeth_S, .full x y .G_InvalidBase])
  | .FireBox =>
    [.full x y .G_FireBox] ++ drawArrow ts x y tile.direction
  | .CloneButton =>
    [.full x y .G_CloneButton]
  | .TrapButton =>
    [.full x y .G_TrapButton]
  | .IceCleats =>
    [.full x y .G_IceCleats]
  | .MagnoShoes =>
    [.full x y .G_MagnoShoes]
  | .FireShoes =>
    [.full x y .G_FireShoes]
  | .Flippers =>
    [.full x y .G_Flippers]
  | .ToolThief =>
    [.full x y .G_ToolThief]
  | .RedBomb =>
    [.full x y .G_RedBomb]
  | .Trap =>
    [.full x y .G_Trap]
  | .UNUSED_Cloner =>
    [.full x y .G_Cloner, .full x y .G_InvalidBase]
  | .Cloner =>
    [.full x y .G_Cloner]
  | .Clue =>
    [.full x y .G_Clue]
  | .Force_Rand =>
    [.full x y .G_Force_Rand]
  | .AreaCtlButton =>
    [.full x y .G_AreaCtlButton]
  | .RevolvDoor_SW =>
    [.full x y .G_RevolvDoor_SW]
  | .RevolvDoor_NW =>
    [.full x y .G_RevolvDoor_NW]
  | .RevolvDoor_NE =>
    [.full x y .G_RevolvDoor_NE]
  | .RevolvDoor_SE =>
    [.full x y .G_RevolvDoor_SE]
  | .TimeBonus =>
    [.full x y .G_TimeBonus]
  | .ToggleClock =>
    [.full x y .G_ToggleClock]
  | .Transformer =>
    [.full x y .G_Transformer]
  | .TrainTracks =>
    [.full x y .G_Gravel]
  | .SteelWall =>
    (if tile.modifier ≠ 0 then [.full x y .G_WireFill, .full x y .G_SteelWall_Wire4]
        else [.full x y .G_SteelWall])
  | .TimeBomb =>
    [.full x y .G_TimeBomb]
  | .Helmet =>
    [.full x y .G_Helmet]
  | .MirrorPlayer2 =>
    [.full x y .G_MirrorPlayer_Underlay] ++
      (if tile.direction = Tile.North then [.full x y .G_Player2_N]
      else if tile.direction = Tile.East then [.full x y .G_Player2_E]
      else if tile.direction = Tile.South then [.full x y .G_Player2_S]
      else if tile.direction = Tile.West then [.full x y .G_Player2_W]
      else [.full x y .G_Player2_S, .full x y .G_InvalidBase])
  | .Player2 =>
    (if tile.direction = Tile.North then [.full x y .G_Player2_N]
      else if tile.direction = Tile.East then [.full x y .G_Player2_E]
      else if tile.direction = Tile.South then [.full x y .G_Player2_S]
      else if tile.direction = Tile.West then [.full x y .G_Player2_W]
      else [.full x y .G_Player2_S, .full x y .G_InvalidBase])
  | .TimidTeeth =>
    (if tile.direction = Tile.North ∨ tile.direction = Tile.South then
        [.full x y .G_TimidTeeth_S] ++ drawArrow ts x y tile.direction
      else if tile.direction = Tile.East then [.full x y .G_TimidTeeth_E]
      else if tile.direction = Tile.West then [.full x y .G_TimidTeeth_W]
      else [.full x y .G_TimidTeeth_S, .full x y .G_InvalidBase])
  | .HikingBoots =>
    [.full x y .G_HikingBoots]
  | .MaleOnly =>
    [.full x y .G_MaleOnly]
  | .FemaleOnly =>
    [.full x y .G_FemaleOnly]
  | .LogicGate =>
    [.full x y .G_WireFill] ++
      (if tile.modifier = D.modifier.Inverter_N then [.full x y .G_Inverter_N]
      else if tile.modifier = D.modifier.Inverter_E then [.full x y .G_Inverter_E]
      else if tile.modifier = D.modifier.Inverter_S then [.full x y .G_Inverter_S]
      else if tile.modifier = D.modifier.Inverter_W then [.full x y .G_Inverter_W]
      else if tile.modifier = D.modifier.AndGate_N then [.full x y .G_AndGate_N]
      else if tile.modifier = D.modifier.AndGate_E then [.full x y .G_AndGate_E]
      else if tile.modifier = D.modifier.AndGate_S then [.full x y .G_AndGate_S]
      else if tile.modifier = D.modifier.AndGate_W then [.full x y .G_AndGate_W]
      else if tile.modifier = D.modifier.OrGate_N then [.full x y .G_OrGate_N]
      else if tile.modifier = D.modifier.OrGate_E then [.full x y .G_OrGate_E]
      else if tile.modifier = D.modifier.OrGate_S then [.full x y .G_OrGate_S]
      else if tile.modifier = D.modifier.OrGate_W then [.full x y .G_OrGate_W]
      else if tile.modifier = D.modifier.XorGate_N then [.full x y .G_XorGate_N]
      else if tile.modifier = D.modifier.XorGate_E then [.full x y .G_XorGate_E]
      else if tile.modifier = D.modifier.XorGate_S then [.full x y .G_XorGate_S]
      else if tile.modifier = D.modifier.XorGate_W then [.full x y .G_XorGate_W]
      else if tile.modifier = D.modifier.LatchGateCW_N then [.full x y .G_LatchGateCW_N]
      else if tile.modifier = D.modifier.LatchGateCW_E then [.full x y .G_LatchGateCW_E]
      else if tile.modifier = D.modifier.LatchGateCW_S then [.full x y .G_LatchGateCW_S]
      else if tile.modifier = D.modifier.LatchGateCW_W then [.full x y .G_LatchGateCW_W]
      else if tile.modifier = D.modifier.NandGate_N then [.full x y .G_NandGate_N]
      else if tile.modifier = D.modifier.NandGate_E then [.full x y .G_NandGate_E]
      else if tile.modifier = D.modifier.NandGate_S then [.full x y .G_NandGate_S]
      else if tile.modifier = D.modifier.NandGate_W then [.full x y .G_NandGate_W]
      else if tile.modifier = D.modifier.CounterGate_0 then [.full x y .G_CounterGate_0]
      else if tile.modifier = D.modifier.CounterGate_1 then [.full x y .G_CounterGate_1]
      else if tile.modifier = D.modifier.CounterGate_2 then [.full x y .G_CounterGate_2]
      else if tile.modifier = D.modifier.CounterGate_3 then [.full x y .G_CounterGate_3]
      else if tile.modifier = D.modifier.CounterGate_4 then [.full x y .G_CounterGate_4]
      else if tile.modifier = D.modifier.CounterGate_5 then [.full x y .G_CounterGate_5]
      else if tile.modifier = D.modifier.CounterGate_6 then [.full x y .G_CounterGate_6]
      else if tile.modifier = D.modifier.CounterGate_7 then [.full x y .G_CounterGate_7]
      else if tile.modifier = D.modifier.CounterGate_8 then [.full x y .G_CounterGate_8]
      else if tile.modifier = D.modifier.CounterGate_9 then [.full x y .G_CounterGate_9]
      else if tile.modifier = D.modifier.LatchGateCCW_N then [.full x y .G_LatchGateCCW_N]
      else if tile.modifier = D.modifier.LatchGateCCW_E then [.full x y .G_LatchGateCCW_E]
      else if tile.modifier = D.modifier.LatchGateCCW_S then [.full x y .G_LatchGateCCW_S]
      else if tile.modifier = D.modifier.LatchGateCCW_W then [.full x y .G_LatchGateCCW_W]
      else [.full x y .G_Inverter_N, .full x y .G_InvalidBase])
  | .LogicSwitch =>
    [.full x y .G_WireFill, .full x y .G_LogicSwitch]
  | .FlameJet_Off =>
    [.full x y .G_FlameJet_Off]
  | .FlameJet_On =>
    [.full x y .G_FlameJet_On]
  | .FlameJetButton =>
    [.full x y .G_FlameJetButton]
  | .Lightning =>
    [.full x y .G_Lightning]
  | .YellowTank =>
    (if tile.direction = Tile.North then [.full x y .G_YellowTank_N]
      else if tile.direction = Tile.East then [.full x y .G_YellowTank_E]
      else if tile.direction = Tile.South then [.full x y .G_YellowTank_S]
      else if tile.direction = Tile.West then [.full x y .G_YellowTank_W]
      else [.full x y .G_YellowTank_N, .full x y .G_InvalidBase])
  | .YellowTankCtrl =>
    [.full x y .G_YellowTankCtrl]
  | .BowlingBall =>
    [.full x y .G_BowlingBall]
  | .Rover =>
    (if tile.direction = Tile.North then [.full x y .G_Rover_N]
      else if tile.direction = Tile.East then [.full x y .G_Rover_E]
      else if tile.direction = Tile.South then [.full x y .G_Rover_S]
      else if tile.direction = Tile.West then [.full x y .G_Rover_W]
      else [.full x y .G_Rover_N, .full x y .G_InvalidBase])
  | .TimePenalty =>
    [.full x y .G_TimePenalty]
  | .StyledFloor =>
    (if tile.modifier = D.modifier.CamoTheme then [.full x y .G_CamoCFloor]
      else if tile.modifier = D.modifier.PinkDotsTheme then [.full x y .G_PinkDotsCFloor]
      else if tile.modifier = D.modifier.YellowBrickTheme then [.full x y .G_YellowBrickCFloor]
      else if tile.modifier = D.modifier.BlueTheme then [.full x y .G_BlueCFloor]
      else [.full x y .G_CamoCFloor, .full x y .G_InvalidBase])
  | .PanelCanopy =>
    (if tile.panelFlags &&& D.flags.Canopy ≠ 0 then
        (if (tile.haveLower && tile.lower.any D.needXray) then [.full x y .G_Canopy_Xray]
          else [.full x y .G_Canopy])
      else []) ++
      (if tile.panelFlags &&& D.flags.PanelNorth ≠ 0 then [.full x y .G_Panel_N] else []) ++
      (if tile.panelFlags &&& D.flags.PanelEast ≠ 0 then [.full x y .G_Panel_E] else []) ++
      (if tile.panelFlags &&& D.flags.PanelSouth ≠ 0 then [.full x y .G_Panel_S] else []) ++
      (if tile.panelFlags &&& D.flags.PanelWest ≠ 0 then [.full x y .G_Panel_W] else []) ++
      (if tile.panelFlags = 0 then [.full x y .G_Canopy_Xray, .full x y .G_InvalidBase]
        else [])
  | .RRSign =>
    [.full x y .G_RRSign]
  | .StyledWall =>
    (if tile.modifier = D.modifier.CamoTheme then [.full x y .G_CamoCWall]
      else if tile.modifier = D.modifier.PinkDotsTheme then [.full x y .G_PinkDotsCWall]
      else if tile.modifier = D.modifier.YellowBrickTheme then [.full x y .G_YellowBrickCWall]
      else if tile.modifier = D.modifier.BlueTheme then [.full x y .G_BlueCWall]
      else [.full x y .G_CamoCWall, .full x y .G_InvalidBase])
  | .AsciiGlyph =>
    [.full x y .G_AsciiGlyphFrame] ++ drawGlyph D ts x y tile.modifier
  | .LSwitchFloor =>
    [.full x y .G_LSwitchFloor]
  | .LSwitchWall =>
    [.full x y .G_LSwitchWall]
  | .Flag10 =>
    [.full x y .G_Flag10]
  | .Flag100 =>
    [.full x y .G_Flag100]
  | .Flag1000 =>
    [.full x y .G_Flag1000]
  | .StayUpGWall =>
    [.full x y .G_StayUpGWall]
  | .PopDownGWall =>
    [.full x y .G_PopDownGWall]
  | .Disallow =>
    [.full x y .G_Disallow]
  | .Flag2x =>
    [.full x y .G_Flag2x]
  | .DirBlock =>
    [.full x y .G_DirBlock]
  | .FloorMimic =>
    [.full x y .G_FloorMimic] ++ drawArrow ts x y tile.direction
  | .GreenBomb =>
    [.full x y .G_GreenBomb]
  | .GreenChip =>
    [.full x y .G_GreenChip]
  | .RevLogicButton =>
    [.full x y .G_WireFill, .full x y .G_RevLogicButton]
  | .Switch_Off =>
    [.full x y .G_WireFill, .full x y .G_Switch_Off]
  | .Switch_On =>
    [.full x y .G_WireFill, .full x y .G_Switch_On]
  | .KeyThief =>
    [.full x y .G_KeyThief]
  | .Ghost =>
    (if tile.direction = Tile.North then [.full x y .G_Ghost_N]
      else if tile.direction = Tile.East then [.full x y .G_Ghost_E]
      else if tile.direction = Tile.South then [.full x y .G_Ghost_S]
      else if tile.direction = Tile.West then [.full x y .G_Ghost_W]
      else [.full x y .G_Ghost_S, .full x y .G_InvalidBase])
  | .SteelFoil =>
    [.full x y .G_SteelFoil]
  | .Turtle =>
    [.full x y .G_Water, .full x y .G_Turtle]
  | .Eye =>
    [.full x y .G_Eye]
  | .Bribe =>
    [.full x y .G_Bribe]
  | .SpeedShoes =>
    [.full x y .G_SpeedShoes]
  | .Hook =>
    [.full x y .G_Hook]
  | _ =>
    [.full x y .G_Floor, .full x y .G_InvalidBase] ++
      (if D.haveDirection tile then drawArrow ts x y tile.direction else [])

/-- The function `CC2ETileset::drawAt`: the lower layer, when there is one, is drawn first
by a recursive call, then the tile itself. -/
def drawAt (D : TileModel) (ts : CC2ETileset) (x y : Int) : Tile → List Blit
  | tile@⟨_, _, _, _, some lower⟩ => drawAt D ts x y lower ++ drawBase D ts x y tile
  | tile@⟨_, _, _, _, none⟩ => drawBase D ts x y tile

/-! ## Reference functions for the renderer claims -/

/-- The chain of layers of a tile, top-most first: the tile, then its lower layer, then the
lower layer of that, and so on. -/
def Tile.chain : Tile → List Tile
  | tile@⟨_, _, _, _, some lower⟩ => tile :: lower.chain
  | tile@⟨_, _, _, _, none⟩ => [tile]

/-- The sprite of a direction-bearing type for a direction, as the sprites are named: the
mirror players use the sprites of the players. -/
def facingSprite (ty : TileType) (direction : Nat) : Graphic :=
  match ty, direction with
  | .Player, 0 | .MirrorPlayer, 0 => .G_Player_N
  | .Player, 1 | .MirrorPlayer, 1 => .G_Player_E
  | .Player, 2 | .MirrorPlayer, 2 => .G_Player_S
  | .Player, _ | .MirrorPlayer, _ => .G_Player_W
  | .Player2, 0 | .MirrorPlayer2, 0 => .G_Player2_N
  | .Player2, 1 | .MirrorPlayer2, 1 => .G_Player2_E
  | .Player2, 2 | .MirrorPlayer2, 2 => .G_Player2_S
  | .Player2, _ | .MirrorPlayer2, _ => .G_Player2_W
  | .Ship, 0 => .G_Ship_N
  | .Ship, 1 => .G_Ship_E
  | .Ship, 2 => .G_Ship_S
  | .Ship, _ => .G_Ship_W
  | .BlueTank, 0 => .G_BlueTank_N
  | .BlueTank, 1 => .G_BlueTank_E
  | .BlueTank, 2 => .G_BlueTank_S
  | .BlueTank, _ => .G_BlueTank_W
  | .YellowTank, 0 => .G_YellowTank_N
  | .YellowTank, 1 => .G_YellowTank_E
  | .YellowTank, 2 => .G_YellowTank_S
  | .YellowTank, _ => .G_YellowTank_W
  | .Ant, 0 => .G_Ant_N
  | .Ant, 1 => .G_Ant_E
  | .Ant, 2 => .G_Ant_S
  | .Ant, _ => .G_Ant_W
  | .Centipede, 0 => .G_Centipede_N
  | .Centipede, 1 => .G_Centipede_E
  | .Centipede, 2 => .G_Centipede_S
  | .Centipede, _ => .G_Centipede_W
  | .Rover, 0 => .G_Rover_N
  | .Rover, 1 => .G_Rover_E
  | .Rover, 2 => .G_Rover_S
  | .Rover, _ => .G_Rover_W
  | .Ghost, 0 => .G_Ghost_N
  | .Ghost, 1 => .G_Ghost_E
  | .Ghost, 2 => .G_Ghost_S
  | .Ghost, _ => .G_Ghost_W
  | _, _ => .G_InvalidBase

/-- The default facing of a direction-bearing type: South for the players, the mirror
players and Ghost, North for Ship, the tanks, Ant, Centipede and Rover. -/
def defaultFacing (ty : TileType) : Nat :=
  match ty with
  | .Player | .Player2 | .MirrorPlayer | .MirrorPlayer2 | .Ghost => Tile.South
  | _ => Tile.North

/-- The underlay that the mirror players blit before their sprite. -/
def mirrorUnderlay (x y : Int) (ty : TileType) : List Blit :=
  match ty with
  | .MirrorPlayer | .MirrorPlayer2 => [.full x y .G_MirrorPlayer_Underlay]
  | _ => []

/-- The own sprite of an always-wired type, as the sprites are named. -/
def wiredSprite (ty : TileType) : Option Graphic :=
  match ty with
  | .Teleport_Red => some .G_Teleport_Red
  | .Teleport_Blue => some .G_Teleport_Blue
  | .LogicSwitch => some .G_LogicSwitch
  | .RevLogicButton => some .G_RevLogicButton
  | .Switch_Off => some .G_Switch_Off
  | .Switch_On => some .G_Switch_On
  | _ => none

/-- The case labels of the `switch (tile->modifier())` of the LogicGate case of `drawAt`,
in the order of the source, each with the sprite that its body blits. -/
def gateTable (M : TileModifier) : List (Nat × Graphic) :=
  [(M.Inverter_N, .G_Inverter_N), (M.Inverter_E, .G_Inverter_E),
   (M.Inverter_S, .G_Inverter_S), (M.Inverter_W, .G_Inverter_W),
   (M.AndGate_N, .G_AndGate_N), (M.AndGate_E, .G_AndGate_E),
   (M.AndGate_S, .G_AndGate_S), (M.AndGate_W, .G_AndGate_W),
   (M.OrGate_N, .G_OrGate_N), (M.OrGate_E, .G_OrGate_E),
   (M.OrGate_S, .G_OrGate_S), (M.OrGate_W, .G_OrGate_W),
   (M.XorGate_N, .G_XorGate_N), (M.XorGate_E, .G_XorGate_E),
   (M.XorGate_S, .G_XorGate_S), (M.XorGate_W, .G_XorGate_W),
   (M.LatchGateCW_N, .G_LatchGateCW_N), (M.LatchGateCW_E, .G_LatchGateCW_E),
   (M.LatchGateCW_S, .G_LatchGateCW_S), (M.LatchGateCW_W, .G_LatchGateCW_W),
   (M.NandGate_N, .G_NandGate_N), (M.NandGate_E, .G_NandGate_E),
   (M.NandGate_S, .G_NandGate_S), (M.NandGate_W, .G_NandGate_W),
   (M.CounterGate_0, .G_CounterGate_0), (M.CounterGate_1, .G_CounterGate_1),
   (M.CounterGate_2, .G_CounterGate_2), (M.CounterGate_3, .G_CounterGate_3),
   (M.CounterGate_4, .G_CounterGate_4), (M.CounterGate_5, .G_CounterGate_5),
   (M.CounterGate_6, .G_CounterGate_6), (M.CounterGate_7, .G_CounterGate_7),
   (M.CounterGate_8, .G_CounterGate_8), (M.CounterGate_9, .G_CounterGate_9),
   (M.LatchGateCCW_N, .G_LatchGateCCW_N), (M.LatchGateCCW_E, .G_LatchGateCCW_E),
   (M.LatchGateCCW_S, .G_LatchGateCCW_S), (M.LatchGateCCW_W, .G_LatchGateCCW_W)]

/-- The enumerated gate values: the labels of `gateTable`. -/
def gateValues (M : TileModifier) : List Nat := (gateTable M).map Prod.fst

/-- A `switch` read off a table of case labels and results: the result of the first label
equal to `m`, the default when no label is. -/
def switchTable {α : Type} (tbl : List (Nat × α)) (dflt : α) (m : Nat) : α :=
  match tbl with
  | [] => dflt
  | (k, a) :: rest => if m = k then a else switchTable rest dflt m

/-- The theme values, in the order of the case labels of the StyledFloor and StyledWall
cases of `drawAt`. -/
def themeValues (M : TileModifier) : List Nat :=
  [M.CamoTheme, M.PinkDotsTheme, M.YellowBrickTheme, M.BlueTheme]

/-- The sprite of a themed type for the theme with index `i` (0 Camo, 1 PinkDots,
2 YellowBrick, 3 Blue), as the sprites are named. -/
def themedSprite (ty : TileType) (i : Nat) : Graphic :=
  match ty, i with
  | .StyledFloor, 0 => .G_CamoCFloor
  | .StyledFloor, 1 => .G_PinkDotsCFloor
  | .StyledFloor, 2 => .G_YellowBrickCFloor
  | .StyledFloor, 3 => .G_BlueCFloor
  | .StyledWall, 0 => .G_CamoCWall
  | .StyledWall, 1 => .G_PinkDotsCWall
  | .StyledWall, 2 => .G_YellowBrickCWall
  | .StyledWall, 3 => .G_BlueCWall
  | _, _ => .G_InvalidBase

/-- The base sprite of an arrow-decorated type, as the sprites are named; `xray` selects
the x-ray variant, which only DirtBlock and IceBlock have. -/
def arrowBase (ty : TileType) (xray : Bool) : Graphic :=
  match ty with
  | .DirtBlock => if xray then .G_DirtBlock_Xray else .G_DirtBlock
  | .IceBlock => if xray then .G_IceBlock_Xray else .G_IceBlock
  | .Walker => .G_Walker
  | .Ball => .G_Ball
  | .Blob => .G_Blob
  | .FloorMimic => .G_FloorMimic
  | .FireBox => .G_FireBox
  | _ => .G_InvalidBase

/-- The origin of the source rectangle of a blit; a whole sprite is taken from `(0, 0)`. -/
def Blit.sourceOrigin : Blit → Nat × Nat
  | .full _ _ _ => (0, 0)
  | .part _ _ _ _ sx sy _ _ => (sx, sy)

/-- The types that have no `case` label in the `switch` of `drawAt`: the types whose label
is commented out there. -/
def noDrawCase : List TileType :=
  [.UNUSED_41, .UNUSED_53, .UNUSED_54, .UNUSED_55, .UNUSED_Explosion, .UNUSED_5d,
   .UNUSED_67, .UNUSED_6c, .UNUSED_6e, .UNUSED_74, .UNUSED_75, .UNUSED_79, .UNUSED_85,
   .UNUSED_86, .UNUSED_91]

/-! ## The loader

The embedding of `read8`, `read32` and `CC2ETileset::load` of `lib/libcc2/Tileset.cpp`.
The file is the list of its bytes; a `QFile` that has been read up to some position is the
list of the bytes not yet read.  `load` returns nothing and reports a failure by throwing,
after it may have assigned to members of the object, so its embedding returns the object
as the call leaves it together with the exception thrown, if any.  A failure of `new[]`
to allocate a buffer is not modelled. -/

/-- The magic `"CCTILE02"`, as bytes. -/
def tilesetMagic : List Nat := [0x43, 0x43, 0x54, 0x49, 0x4c, 0x45, 0x30, 0x32]

/-- The exceptions that `load` throws: `ccl::IOException` with the message
"Cannot open tileset file for reading", "Invalid Tileset format" or
"Invalid or corrupt CC2 image". -/
inductive LoadError where
  | cannotOpen
  | invalidFormat
  | corruptImage
  deriving DecidableEq, Repr

/-- A sprite cut from an atlas: the value of `QPixmap::copy(x, y, w, h)`, the `w` by `h`
rectangle of `atlas` whose top-left pixel is `(x, y)`. -/
structure Sprite (Image : Type) where
  atlas : Image
  x : Nat
  y : Nat
  w : Nat
  h : Nat
  deriving DecidableEq, Repr

/-- Modelled from the spec: the object `CC2ETileset` with the members that `load` assigns,
whose class declaration is not among the sources.  `size` is `m_size`; the texts `m_name`
and `m_description` are held as the bytes that `QString::fromUtf8` is given; `m_gfx` is the
array of `NUM_GRAPHICS` sprites, `none` standing for a pixmap that was never assigned. -/
structure TilesetObject (Image : Type) extends CC2ETileset where
  m_name : List Nat
  m_description : List Nat
  m_gfx : List (Option (Sprite Image))
  m_filename : String
  deriving DecidableEq, Repr

/-- Modelled from the spec: what `load` uses of its surroundings, none of which is among
the sources: the constant `cc2::NUM_GRAPHICS`, the PNG decoder
`QPixmap::loadFromData(data, len, "PNG")` (`none` when it returns false),
`QFileInfo(filename).fileName()`, and the content `uninit i` that byte `i` of a buffer
has before anything is read into it (`read8`, `read32` and `load` do not initialise their
buffers and do not check how many bytes a read delivered). -/
structure LoadEnv (Image : Type) where
  NUM_GRAPHICS : Nat
  loadFromData : List Nat → Option Image
  fileName : String → String
  uninit : Nat → Nat

/-- A call `file.read(buffer, n)` of `QFile::read` on a buffer of `n` bytes: the buffer after
the call and the rest of the file.  Byte `i` of the buffer is byte `i` of the unread
part of the file when there is one; after a short read the remaining bytes of the buffer
are what they were before. -/
def readBuffer (uninit : Nat → Nat) (file : List Nat) (n : Nat) : List Nat × List Nat :=
  ((List.range n).map (fun i => file.getD i (uninit i) % 2 ^ 8), file.drop n)

/-- The function `read8`: one byte of the file as a `quint8`, and the rest of the file. -/
def read8 (uninit : Nat → Nat) (file : List Nat) : Nat × List Nat :=
  ((readBuffer uninit file 1).1.foldr (fun b acc => b + 2 ^ 8 * acc) 0,
    (readBuffer uninit file 1).2)

/-- The function `read32`: four bytes of the file as a `quint32`, and the rest of the file.
Modelled from the spec: `SWAP32` of `libcc1/Stream.h`, which is not among the sources,
normalises the byte order, so that the value is the little-endian reading of the four
bytes on every host. -/
def read32 (uninit : Nat → Nat) (file : List Nat) : Nat × List Nat :=
  ((readBuffer uninit file 4).1.foldr (fun b acc => b + 2 ^ 8 * acc) 0,
    (readBuffer uninit file 4).2)

/-- The three statements `len = read32(file); buffer.reset(new char[len]);
file.read(buffer.get(), len);` with which `load` reads a block that follows its length: the
buffer and the rest of the file. -/
def readBlock (uninit : Nat → Nat) (file : List Nat) : List Nat × List Nat :=
  readBuffer uninit (read32 uninit file).2 (read32 uninit file).1

/-- The loop `for (int i = 0; i < cc2::NUM_GRAPHICS; ++i) m_gfx[i] = tempmap.copy((i / 16) *
m_size, (i % 16) * m_size, m_size, m_size);` of `load`. -/
def sliceAtlas {Image : Type} (n : Nat) (tempmap : Image) (m_size : Nat)
    (m_gfx : List (Option (Sprite Image))) : List (Option (Sprite Image)) :=
  (List.range n).foldl
    (fun gfx i =>
      gfx.set i (some ⟨tempmap, (i / 16) * m_size, (i % 16) * m_size, m_size, m_size⟩))
    m_gfx

/-- The function `CC2ETileset::load`.  `contents` is what the file named `filename` holds,
`none` when it cannot be opened for reading.  The result is the object after the call and
the exception thrown, `none` when `load` returns normally. -/
def load {Image : Type} (E : LoadEnv Image) (self : TilesetObject Image) (filename : String)
    (contents : Option (List Nat)) : TilesetObject Image × Option LoadError :=
  match contents with
  | none => (self, some .cannotOpen)
  | some file =>
    let magic := file.take 8
    if magic.length ≠ 8 ∨ magic ≠ tilesetMagic then (self, some .invalidFormat)
    else
      -- Tileset name
      let name := readBlock E.uninit (file.drop 8)
      let self := { self with m_name := name.1 }
      -- Description
      let description := readBlock E.uninit name.2
      let self := { self with m_description := description.1 }
      -- Tile size
      let size := read8 E.uninit description.2
      let self := { self with size := size.1 }
      -- Skip CC1 tilesets
      let cc1 := readBlock E.uninit size.2
      let cc1 := readBlock E.uninit cc1.2
      -- CC2 tiles
      let pixbuffer := readBlock E.uninit cc1.2
      match E.loadFromData pixbuffer.1 with
      | none => (self, some .corruptImage)
      | some tempmap =>
        let self :=
          { self with m_gfx := sliceAtlas E.NUM_GRAPHICS tempmap self.size self.m_gfx }
        ({ self with m_filename := E.fileName filename }, none)

/-- An environment and an object on which the definitions of the loader can be evaluated:
three sprites, a decoder that accepts exactly the one-byte image `[0x89]`, zeroed
buffers, and an object that has not been loaded yet. -/
def LoadEnv.sample : LoadEnv (List Nat) :=
  { NUM_GRAPHICS := 3,
    loadFromData := fun data => if data = [0x89] then some data else none,
    fileName := fun name => name,
    uninit := fun _ => 0 }

/-- An object that has not been loaded yet; see `LoadEnv.sample`. -/
def TilesetObject.sample : TilesetObject (List Nat) :=
  { size := 0, m_name := [], m_description := [], m_gfx := [none, none, none],
    m_filename := "" }

/-- A tileset file on which the loader can be evaluated: the magic, the name "A", the
description "B", the size 32, two empty CC1 blocks, and the block `image`, which is to
have fewer than 256 bytes. -/
def sampleFile (image : List Nat) : List Nat :=
  tilesetMagic ++ [1, 0, 0, 0, 0x41] ++ [1, 0, 0, 0, 0x42] ++ [32] ++ [0, 0, 0, 0] ++
    [0, 0, 0, 0] ++ [image.length, 0, 0, 0] ++ image

/-- The sprite that a blit reads: the enumerator and the offset added to it. -/
def Blit.sprite : Blit → Graphic × Nat
  | .full _ _ g => (g, 0)
  | .part _ _ g k _ _ _ _ => (g, k)

/-- The pixels of the atlas that a sprite is cut from: the pixel `(px, py)` lies in the
rectangle of the sprite. -/
def Sprite.covers {Image : Type} (s : Sprite Image) (px py : Nat) : Prop :=
  s.x ≤ px ∧ px < s.x + s.w ∧ s.y ≤ py ∧ py < s.y + s.h

instance {Image : Type} (s : Sprite Image) (px py : Nat) : Decidable (s.covers px py) := by
  unfold Sprite.covers; infer_instance

/-- A complete PNG image of 71 bytes, one pixel wide and three pixels high with 8-bit grey
pixels: the signature, the IHDR chunk, one IDAT chunk and the IEND chunk. -/
def tinyPng : List Nat :=
  [0x89, 0x50, 0x4e, 0x47, 0x0d, 0x0a, 0x1a, 0x0a, 0x00, 0x00, 0x00, 0x0d, 0x49, 0x48, 0x44,
   0x52, 0x00, 0x00, 0x00, 0x01, 0x00, 0x00, 0x00, 0x03, 0x08, 0x00, 0x00, 0x00, 0x00, 0x77,
   0xb6, 0x3a, 0x5e, 0x00, 0x00, 0x00, 0x0e, 0x49, 0x44, 0x41, 0x54, 0x78, 0xda, 0x63, 0x60,
   0x60, 0x68, 0x60, 0xf8, 0x0f, 0x00, 0x02, 0x85, 0x01, 0x80, 0x33, 0x9d, 0x10, 0xaf, 0x00,
   0x00, 0x00, 0x00, 0x49, 0x45, 0x4e, 0x44, 0xae, 0x42, 0x60, 0x82]

/-- An environment like `LoadEnv.sample` with a decoder for the image `tinyPng`: it accepts
the data that begin with the 71 bytes of `tinyPng`, whatever follows them, and no other
data.  A PNG decoder reads an image chunk by chunk up to the IEND chunk and reads nothing
after it. -/
def LoadEnv.png : LoadEnv (List Nat) :=
  { NUM_GRAPHICS := 3,
    loadFromData := fun data => if data.take 71 = tinyPng then some tinyPng else none,
    fileName := fun name => name,
    uninit := fun _ => 0 }

/-- A tileset file that ends one byte early: the magic, the name "A", the description "B",
the size 1, two empty CC1 blocks, and an image block whose length is given as 72 while only
the 71 bytes of `tinyPng` follow. -/
def shortFile : List Nat :=
  tilesetMagic ++ [1, 0, 0, 0, 0x41] ++ [1, 0, 0, 0, 0x42] ++ [1] ++ [0, 0, 0, 0] ++
    [0, 0, 0, 0] ++ [72, 0, 0, 0] ++ tinyPng

/-! # Theorems -/

/-- Masking a 32-bit value with the complement of `2 ^ k - 1` clears its low `k` bits. -/
theorem land_not32_low (k : Nat) (hk : k ≤ 32) (m : Nat) (hm : m < 2 ^ 32) :
    m &&& not32 (2 ^ k - 1) = 2 ^ k * (m / 2 ^ k) := by
  have hpos : 0 < 2 ^ k := Nat.two_pow_pos k
  have hle : 2 ^ k ≤ 2 ^ 32 := Nat.pow_le_pow_right (by decide) hk
  have hlt : 2 ^ k - 1 < 2 ^ 32 := by omega
  have hmask : not32 (2 ^ k - 1) = 2 ^ 32 - ((2 ^ k - 1) + 1) := by
    unfold not32
    rw [Nat.mod_eq_of_lt hlt]
    omega
  apply Nat.eq_of_testBit_eq
  intro i
  rw [hmask, Nat.testBit_and, Nat.testBit_two_pow_sub_succ hlt, Nat.testBit_two_pow_sub_one,
    Nat.testBit_mul_pow_two, ← Nat.shiftRight_eq_div_pow, Nat.testBit_shiftRight]
  by_cases h1 : i < k
  · have h2 : ¬ (i ≥ k) := by omega
    simp [h1, h2]
  · have h2 : i ≥ k := by omega
    have h3 : k + (i - k) = i := by omega
    by_cases h4 : i < 32
    · simp [h1, h2, h3, h4]
    · have h5 : m.testBit i = false := by
        apply Nat.testBit_lt_two_pow
        calc m < 2 ^ 32 := hm
          _ ≤ 2 ^ i := Nat.pow_le_pow_right (by decide) (by omega)
      simp [h1, h2, h3, h4, h5]

/-- The mask `~0xff` keeps bits 8..31 of a 32-bit value. -/
theorem land_not32_ff (m : Nat) (hm : m < 2 ^ 32) : m &&& not32 0xff = 256 * (m / 256) :=
  land_not32_low 8 (by decide) m hm

/-- The mask `~0x03` keeps bits 2..31 of a 32-bit value. -/
theorem land_not32_three (m : Nat) (hm : m < 2 ^ 32) : m &&& not32 0x03 = 4 * (m / 4) :=
  land_not32_low 2 (by decide) m hm

/-- Bitwise or of a multiple of `2 ^ k` with a value below `2 ^ k` is their sum. -/
theorem lor_low (k a r : Nat) (hr : r < 2 ^ k) : 2 ^ k * a ||| r = 2 ^ k * a + r :=
  (Nat.mul_add_lt_is_or hr a).symm

/-- Or-ing a byte into a multiple of 256 adds it. -/
theorem lor_low_byte (a r : Nat) (hr : r < 2 ^ 8) : 256 * a ||| r = 256 * a + r :=
  lor_low 8 a r hr

/-- Or-ing a two-bit value into a multiple of 4 adds it. -/
theorem lor_low_two (a r : Nat) (hr : r < 4) : r ||| 4 * a = 4 * a + r := by
  rw [Nat.lor_comm]
  exact lor_low 2 a r hr

/-- Masking with a single bit gives that bit or zero. -/
theorem land_two_pow (v i : Nat) : v &&& 2 ^ i = if v.testBit i then 2 ^ i else 0 := by
  apply Nat.eq_of_testBit_eq
  intro k
  rw [Nat.testBit_and, Nat.testBit_two_pow]
  by_cases hk : i = k
  · subst hk
    by_cases hv : v.testBit i = true
    · simp [hv]
    · simp [hv]
  · by_cases hv : v.testBit i = true
    · simp [hv, hk, Nat.testBit_two_pow]
    · simp [hv, hk]

/-- The C++ test `v & bit` is the test of that bit. -/
theorem land_two_pow_ne_zero (v i : Nat) : v &&& 2 ^ i ≠ 0 ↔ v.testBit i = true := by
  rw [land_two_pow]
  by_cases hv : v.testBit i = true
  · simp [hv]
  · simp [hv]

/-- Adding a power of two whose bit is clear is the same as or-ing it in. -/
theorem add_two_pow_eq_lor (v j : Nat) (h : v.testBit j = false) : v + 2 ^ j = v ||| 2 ^ j := by
  have hpos : 0 < 2 ^ j := Nat.two_pow_pos j
  have hdecomp : 2 ^ (j + 1) * (v / 2 ^ (j + 1)) + v % 2 ^ (j + 1) = v := Nat.div_add_mod v _
  have hbit : v / 2 ^ j % 2 = 0 := by
    have h' := h
    rw [Nat.testBit_to_div_mod] at h'
    have := Nat.mod_two_eq_zero_or_one (v / 2 ^ j)
    rcases this with h0 | h1
    · exact h0
    · simp [h1] at h'
  have hlow : v % 2 ^ (j + 1) < 2 ^ j := by
    rw [Nat.mod_pow_succ, hbit, Nat.mul_zero, Nat.add_zero]
    exact Nat.mod_lt _ hpos
  have hpow : 2 ^ (j + 1) = 2 * 2 ^ j := by rw [Nat.pow_succ]; omega
  have hb : v % 2 ^ (j + 1) < 2 ^ (j + 1) := by omega
  have hsum : 2 ^ j + v % 2 ^ (j + 1) < 2 ^ (j + 1) := by omega
  have h1 : 2 ^ j * 1 + v % 2 ^ (j + 1) = 2 ^ j * 1 ||| v % 2 ^ (j + 1) :=
    Nat.mul_add_lt_is_or hlow 1
  rw [Nat.mul_one] at h1
  have h2 := Nat.mul_add_lt_is_or hsum (v / 2 ^ (j + 1))
  have h3 := Nat.mul_add_lt_is_or hb (v / 2 ^ (j + 1))
  calc v + 2 ^ j
      = 2 ^ (j + 1) * (v / 2 ^ (j + 1)) + (2 ^ j + v % 2 ^ (j + 1)) := by omega
    _ = 2 ^ (j + 1) * (v / 2 ^ (j + 1)) ||| (2 ^ j ||| v % 2 ^ (j + 1)) := by rw [h2, h1]
    _ = (2 ^ (j + 1) * (v / 2 ^ (j + 1)) ||| v % 2 ^ (j + 1)) ||| 2 ^ j := by
        rw [Nat.lor_comm (2 ^ j), Nat.lor_assoc]
    _ = v ||| 2 ^ j := by rw [← h3, hdecomp]

/-- Setting a bit, `setBit`, is the bitwise or with that bit. -/
theorem setBit_eq_lor (v j : Nat) : setBit v j = v ||| 2 ^ j := by
  unfold setBit
  by_cases h : v.testBit j = true
  · rw [if_pos h]
    apply Nat.eq_of_testBit_eq
    intro k
    rw [Nat.testBit_or, Nat.testBit_two_pow]
    by_cases hk : j = k
    · subst hk; simp [h]
    · simp [hk]
  · rw [if_neg h]
    exact add_two_pow_eq_lor v j (by simpa using h)

/-- The bits of the 32-bit complement of a single bit. -/
theorem testBit_not32_two_pow (i k : Nat) (hi : i < 32) :
    (not32 (2 ^ i)).testBit k = (decide (k < 32) && !decide (i = k)) := by
  have hlt : 2 ^ i < 2 ^ 32 := Nat.pow_lt_pow_right (by decide) hi
  have hmask : not32 (2 ^ i) = 2 ^ 32 - (2 ^ i + 1) := by
    unfold not32
    rw [Nat.mod_eq_of_lt hlt]
    omega
  rw [hmask, Nat.testBit_two_pow_sub_succ hlt, Nat.testBit_two_pow]

/-- Clearing a bit of a 32-bit value, `clearBit`, is masking with the complement of that bit. -/
theorem clearBit_eq_land (v i : Nat) (hv : v < 2 ^ 32) (hi : i < 32) :
    clearBit v i = v &&& not32 (2 ^ i) := by
  have hhigh : ∀ k, ¬ k < 32 → v.testBit k = false := by
    intro k hk
    apply Nat.testBit_lt_two_pow
    calc v < 2 ^ 32 := hv
      _ ≤ 2 ^ k := Nat.pow_le_pow_right (by decide) (by omega)
  have hclr : (v &&& not32 (2 ^ i)).testBit i = false := by
    rw [Nat.testBit_and, testBit_not32_two_pow i i hi]; simp
  unfold clearBit
  by_cases h : v.testBit i = true
  · rw [if_pos h]
    have hsum : (v &&& not32 (2 ^ i)) + 2 ^ i = v := by
      rw [add_two_pow_eq_lor _ _ hclr]
      apply Nat.eq_of_testBit_eq
      intro k
      rw [Nat.testBit_or, Nat.testBit_and, testBit_not32_two_pow i k hi, Nat.testBit_two_pow]
      by_cases hk : i = k
      · subst hk; simp [h]
      · by_cases hk32 : k < 32
        · simp [hk, hk32]
        · simp [hk, hk32, hhigh k hk32]
    omega
  · rw [if_neg h]
    apply Nat.eq_of_testBit_eq
    intro k
    rw [Nat.testBit_and, testBit_not32_two_pow i k hi]
    by_cases hk : i = k
    · subst hk; simp [h]
    · by_cases hk32 : k < 32
      · simp [hk, hk32]
      · simp [hk, hk32, hhigh k hk32]

set_option maxRecDepth 100000 in
/-- All bytes: `rol4` keeps the high nibble and rotates the low nibble left. -/
theorem rol4_byte_facts : ∀ b, b < 2 ^ 8 →
    (rol4 b / 16 = b / 16 ∧ rol4 b % 16 = nibbleRotl (b % 16) ∧
      ∀ i, i < 4 → (rol4 b).testBit ((i + 1) % 4) = b.testBit i) := by
  decide

set_option maxRecDepth 100000 in
/-- All bytes: `ror4` keeps the high nibble and rotates the low nibble right. -/
theorem ror4_byte_facts : ∀ b, b < 2 ^ 8 →
    (ror4 b / 16 = b / 16 ∧ ror4 b % 16 = nibbleRotr (b % 16) ∧
      ∀ i, i < 4 → (ror4 b).testBit i = b.testBit ((i + 1) % 4)) := by
  decide

/-- C4: for every byte `b`, `rol4 b` keeps the high nibble of `b` and its low nibble is the
low nibble of `b` rotated circularly left by one position (bit 3 wraps to bit 0), and
`ror4 b` keeps the high nibble and rotates the low nibble circularly right by one position
(bit 0 wraps to bit 3). -/
theorem rol4_ror4_rotate_low_nibble (b : Nat) (hb : b < 2 ^ 8) :
    (rol4 b / 16 = b / 16 ∧ rol4 b % 16 = nibbleRotl (b % 16) ∧
      ∀ i, i < 4 → (rol4 b).testBit ((i + 1) % 4) = b.testBit i) ∧
    (ror4 b / 16 = b / 16 ∧ ror4 b % 16 = nibbleRotr (b % 16) ∧
      ∀ i, i < 4 → (ror4 b).testBit i = b.testBit ((i + 1) % 4)) :=
  ⟨rol4_byte_facts b hb, ror4_byte_facts b hb⟩

/-- The byte `0x98` under `rol4` and `ror4`. -/
theorem rol4_ror4_rotate_low_nibble_witness :
    (rol4 0x98 / 16 = 0x98 / 16 ∧ rol4 0x98 % 16 = nibbleRotl (0x98 % 16) ∧
      ∀ i, i < 4 → (rol4 0x98).testBit ((i + 1) % 4) = (0x98 : Nat).testBit i) ∧
    (ror4 0x98 / 16 = 0x98 / 16 ∧ ror4 0x98 % 16 = nibbleRotr (0x98 % 16) ∧
      ∀ i, i < 4 → (ror4 0x98).testBit i = (0x98 : Nat).testBit ((i + 1) % 4)) :=
  rol4_ror4_rotate_low_nibble 0x98 (by decide)

set_option maxRecDepth 100000 in
/-- All bytes: the wire byte computed by the `Floor` case is the rotated low nibble in both
nibbles. -/
theorem floor_wires_byte : ∀ b, b < 2 ^ 8 →
    ((rol4 b &&& 0x0f ||| (rol4 b &&& 0x0f) <<< 4) % 2 ^ 8
        = (nibbleRotl (b % 16) ||| nibbleRotl (b % 16) <<< 4) ∧
      (ror4 b &&& 0x0f ||| (ror4 b &&& 0x0f) <<< 4) % 2 ^ 8
        = (nibbleRotr (b % 16) ||| nibbleRotr (b % 16) <<< 4) ∧
      (nibbleRotl (b % 16) ||| nibbleRotl (b % 16) <<< 4) < 2 ^ 8 ∧
      (nibbleRotr (b % 16) ||| nibbleRotr (b % 16) <<< 4) < 2 ^ 8) := by
  decide

/-- The modifier of a Floor tile after `rotateRight`. -/
theorem floor_modifier_right (M : TileModifier) (t : Tile) (hty : t.type = .Floor)
    (hm : t.modifier < 2 ^ 32) :
    (rotateRightTile M t).modifier
      = 256 * (t.modifier / 256)
        + (nibbleRotl (t.modifier % 16) ||| nibbleRotl (t.modifier % 16) <<< 4) := by
  obtain ⟨ty, d, m, f, l⟩ := t
  simp only at hty hm
  subst hty
  have hb : m % 2 ^ 8 < 2 ^ 8 := Nat.mod_lt _ (by decide)
  obtain ⟨h1, -, h3, -⟩ := floor_wires_byte (m % 2 ^ 8) hb
  have h16 : m % 2 ^ 8 % 16 = m % 16 := by omega
  rw [h16] at h1 h3
  simp only [rotateRightTile, Tile.haveDirection, TileType.haveDirection, Tile.setModifier, Bool.false_eq_true, if_false]
  rw [h1, land_not32_ff m hm, lor_low_byte _ _ h3]
  apply Nat.mod_eq_of_lt
  omega

/-- The modifier of a Floor tile after `rotateLeft`. -/
theorem floor_modifier_left (M : TileModifier) (t : Tile) (hty : t.type = .Floor)
    (hm : t.modifier < 2 ^ 32) :
    (rotateLeftTile M t).modifier
      = 256 * (t.modifier / 256)
        + (nibbleRotr (t.modifier % 16) ||| nibbleRotr (t.modifier % 16) <<< 4) := by
  obtain ⟨ty, d, m, f, l⟩ := t
  simp only at hty hm
  subst hty
  have hb : m % 2 ^ 8 < 2 ^ 8 := Nat.mod_lt _ (by decide)
  obtain ⟨-, h2, -, h4⟩ := floor_wires_byte (m % 2 ^ 8) hb
  have h16 : m % 2 ^ 8 % 16 = m % 16 := by omega
  rw [h16] at h2 h4
  simp only [rotateLeftTile, Tile.haveDirection, TileType.haveDirection, Tile.setModifier, Bool.false_eq_true, if_false]
  rw [h2, land_not32_ff m hm, lor_low_byte _ _ h4]
  apply Nat.mod_eq_of_lt
  omega

/-- A rotation keeps the type and the flags of a Floor tile. -/
theorem floor_frame (M : TileModifier) (t : Tile) (hty : t.type = .Floor) :
    ((rotateRightTile M t).type = t.type ∧ (rotateRightTile M t).tileFlags = t.tileFlags) ∧
    ((rotateLeftTile M t).type = t.type ∧ (rotateLeftTile M t).tileFlags = t.tileFlags) := by
  obtain ⟨ty, d, m, f, l⟩ := t
  simp only at hty
  subst hty
  exact ⟨⟨rfl, rfl⟩, ⟨rfl, rfl⟩⟩

/-- C5: Floor rule.  For every Floor tile with 32-bit modifier `m`, `rotateRight` stores
`m` with its low byte replaced by `n ||| n <<< 4`, where `n` is the low nibble of `m`
rotated circularly left by one, and `rotateLeft` does the same with the low nibble rotated
circularly right by one; bits 8..31 of the modifier, the type and the flags are unchanged.
In particular a low byte `0x01` becomes `0x22` under one right rotation. -/
theorem floor_rule (M : TileModifier) (t : Tile) (hty : t.type = .Floor)
    (hm : t.modifier < 2 ^ 32) :
    ((rotateRightTile M t).modifier
        = 256 * (t.modifier / 256)
          + (nibbleRotl (t.modifier % 16) ||| nibbleRotl (t.modifier % 16) <<< 4) ∧
      (rotateRightTile M t).modifier / 256 = t.modifier / 256 ∧
      (rotateRightTile M t).type = t.type ∧
      (rotateRightTile M t).tileFlags = t.tileFlags) ∧
    ((rotateLeftTile M t).modifier
        = 256 * (t.modifier / 256)
          + (nibbleRotr (t.modifier % 16) ||| nibbleRotr (t.modifier % 16) <<< 4) ∧
      (rotateLeftTile M t).modifier / 256 = t.modifier / 256 ∧
      (rotateLeftTile M t).type = t.type ∧
      (rotateLeftTile M t).tileFlags = t.tileFlags) ∧
    (t.modifier % 256 = 0x01 → (rotateRightTile M t).modifier % 256 = 0x22) := by
  have hR := floor_modifier_right M t hty hm
  have hL := floor_modifier_left M t hty hm
  obtain ⟨⟨fr1, fr2⟩, ⟨fl1, fl2⟩⟩ := floor_frame M t hty
  have hb : t.modifier % 2 ^ 8 < 2 ^ 8 := Nat.mod_lt _ (by decide)
  obtain ⟨-, -, h3, h4⟩ := floor_wires_byte (t.modifier % 2 ^ 8) hb
  have h16 : t.modifier % 2 ^ 8 % 16 = t.modifier % 16 := by omega
  rw [h16] at h3 h4
  refine ⟨⟨hR, ?_, fr1, fr2⟩, ⟨hL, ?_, fl1, fl2⟩, ?_⟩
  · rw [hR]; omega
  · rw [hL]; omega
  · intro h01
    have h1 : t.modifier % 16 = 1 := by omega
    rw [hR, h1]
    have h2 : (nibbleRotl 1 ||| nibbleRotl 1 <<< 4) = 0x22 := by decide
    rw [h2]; omega

/-- A Floor tile with low byte `0x01` has low byte `0x22` after one right rotation. -/
theorem floor_rule_witness :
    (rotateRightTile TileModifier.cc2Format ⟨.Floor, 0, 0x4d01, 0, none⟩).modifier % 256 = 0x22 :=
  (floor_rule TileModifier.cc2Format ⟨.Floor, 0, 0x4d01, 0, none⟩ rfl (by decide)).2.2 (by decide)

/-! ### One rotation step on the types without a field rule -/

/-- One rotation of a tile whose type has no field rule: the type follows its cycle and the
direction steps. -/
theorem plain_step (M : TileModifier) (ty : TileType) (hp : ty.hasFieldRule = false)
    (d m f : Nat) (l : Option Tile) :
    rotateRightTile M ⟨ty, d, m, f, l⟩
        = ⟨ty.rotatedRight, if ty.haveDirection then (d + 1) % 4 else d, m, f, l⟩ ∧
      rotateLeftTile M ⟨ty, d, m, f, l⟩
        = ⟨ty.rotatedLeft, if ty.haveDirection then (d + 3) % 4 else d, m, f, l⟩ := by
  cases ty <;> first | exact ⟨rfl, rfl⟩ | exact absurd hp (by decide)

/-- The type cycles keep the class of a type, are inverse to each other and have period dividing
four. -/
theorem rotated_type_facts (ty : TileType) :
    (ty.rotatedRight.hasFieldRule = ty.hasFieldRule ∧
      ty.rotatedLeft.hasFieldRule = ty.hasFieldRule ∧
      ty.rotatedRight.haveDirection = ty.haveDirection ∧
      ty.rotatedLeft.haveDirection = ty.haveDirection) ∧
    (ty.rotatedRight.rotatedLeft = ty ∧ ty.rotatedLeft.rotatedRight = ty ∧
      ty.rotatedRight.rotatedRight.rotatedRight.rotatedRight = ty ∧
      ty.rotatedLeft.rotatedLeft.rotatedLeft.rotatedLeft = ty) := by
  cases ty <;> exact ⟨⟨rfl, rfl, rfl, rfl⟩, ⟨rfl, rfl, rfl, rfl⟩⟩

/-- Round trips of a tile whose type has no field rule. -/
theorem plain_roundtrip (M : TileModifier) (ty : TileType) (hp : ty.hasFieldRule = false)
    (d m f : Nat) (l : Option Tile) (hd : ty.haveDirection = true → d < 4) :
    rotateLeftTile M (rotateRightTile M ⟨ty, d, m, f, l⟩) = ⟨ty, d, m, f, l⟩ ∧
      rotateRightTile M (rotateLeftTile M ⟨ty, d, m, f, l⟩) = ⟨ty, d, m, f, l⟩ ∧
      (rotateRightTile M)^[4] ⟨ty, d, m, f, l⟩ = ⟨ty, d, m, f, l⟩ ∧
      (rotateLeftTile M)^[4] ⟨ty, d, m, f, l⟩ = ⟨ty, d, m, f, l⟩ := by
  have hpR : ∀ x : TileType, x.hasFieldRule = false → x.rotatedRight.hasFieldRule = false :=
    fun x hx => (rotated_type_facts x).1.1.trans hx
  have hpL : ∀ x : TileType, x.hasFieldRule = false → x.rotatedLeft.hasFieldRule = false :=
    fun x hx => (rotated_type_facts x).1.2.1.trans hx
  have hdR : ∀ x : TileType, x.rotatedRight.haveDirection = x.haveDirection :=
    fun x => (rotated_type_facts x).1.2.2.1
  have hdL : ∀ x : TileType, x.rotatedLeft.haveDirection = x.haveDirection :=
    fun x => (rotated_type_facts x).1.2.2.2
  obtain ⟨-, hRL, hLR, hR4, hL4⟩ := rotated_type_facts ty
  have sR := fun x hx e => (plain_step M x hx e m f l).1
  have sL := fun x hx e => (plain_step M x hx e m f l).2
  refine ⟨?_, ?_, ?_, ?_⟩
  · rw [sR ty hp, sL _ (hpR _ hp), hRL, hdR]
    by_cases h : ty.haveDirection = true
    · have := hd h
      simp only [h, if_true, Tile.mk.injEq, true_and, and_true]
      omega
    · simp only [h, if_false, Bool.false_eq_true]
  · rw [sL ty hp, sR _ (hpL _ hp), hLR, hdL]
    by_cases h : ty.haveDirection = true
    · have := hd h
      simp only [h, if_true, Tile.mk.injEq, true_and, and_true]
      omega
    · simp only [h, if_false, Bool.false_eq_true]
  · simp only [Function.iterate_succ, Function.iterate_zero, Function.comp_apply, id_eq]
    rw [sR ty hp, sR _ (hpR _ hp), sR _ (hpR _ (hpR _ hp)), sR _ (hpR _ (hpR _ (hpR _ hp))),
      hR4, hdR, hdR, hdR]
    by_cases h : ty.haveDirection = true
    · have := hd h
      simp only [h, if_true, Tile.mk.injEq, true_and, and_true]
      omega
    · simp only [h, if_false, Bool.false_eq_true]
  · simp only [Function.iterate_succ, Function.iterate_zero, Function.comp_apply, id_eq]
    rw [sL ty hp, sL _ (hpL _ hp), sL _ (hpL _ (hpL _ hp)), sL _ (hpL _ (hpL _ (hpL _ hp))),
      hL4, hdL, hdL, hdL]
    by_cases h : ty.haveDirection = true
    · have := hd h
      simp only [h, if_true, Tile.mk.injEq, true_and, and_true]
      omega
    · simp only [h, if_false, Bool.false_eq_true]

/-- A type has no field rule or is one of the eight types that have one. -/
theorem hasFieldRule_cases (ty : TileType) :
    ty.hasFieldRule = false ∨ ty = .Floor ∨ ty = .PanelCanopy ∨ ty = .DirBlock ∨
      ty = .StyledFloor ∨ ty = .StyledWall ∨ ty = .Cloner ∨ ty = .TrainTracks ∨
      ty = .LogicGate := by
  cases ty <;> decide

/-- The direction after `rotateRight`, for every tile. -/
theorem direction_rotateRightTile (M : TileModifier) (t : Tile) :
    (rotateRightTile M t).direction
      = if t.haveDirection then (t.direction + 1) % 4 else t.direction := by
  obtain ⟨ty, d, m, f, l⟩ := t
  rcases hasFieldRule_cases ty with hp | rfl | rfl | rfl | rfl | rfl | rfl | rfl | rfl
  · rw [(plain_step M ty hp d m f l).1]
    rfl
  all_goals first | rfl | (simp only [rotateRightTile]; split_ifs <;> rfl)

/-- The direction after `rotateLeft`, for every tile. -/
theorem direction_rotateLeftTile (M : TileModifier) (t : Tile) :
    (rotateLeftTile M t).direction
      = if t.haveDirection then (t.direction + 3) % 4 else t.direction := by
  obtain ⟨ty, d, m, f, l⟩ := t
  rcases hasFieldRule_cases ty with hp | rfl | rfl | rfl | rfl | rfl | rfl | rfl | rfl
  · rw [(plain_step M ty hp d m f l).2]
    rfl
  all_goals first | rfl | (simp only [rotateLeftTile]; split_ifs <;> rfl)

/-- The rule `rotateRight` never changes whether the type has a direction. -/
theorem haveDirection_rotateRightTile (M : TileModifier) (t : Tile) :
    (rotateRightTile M t).haveDirection = t.haveDirection := by
  obtain ⟨ty, d, m, f, l⟩ := t
  rcases hasFieldRule_cases ty with hp | rfl | rfl | rfl | rfl | rfl | rfl | rfl | rfl
  · rw [(plain_step M ty hp d m f l).1]
    exact (rotated_type_facts ty).1.2.2.1
  all_goals first | rfl | (simp only [rotateRightTile]; split_ifs <;> rfl)

/-- The rule `rotateLeft` never changes whether the type has a direction. -/
theorem haveDirection_rotateLeftTile (M : TileModifier) (t : Tile) :
    (rotateLeftTile M t).haveDirection = t.haveDirection := by
  obtain ⟨ty, d, m, f, l⟩ := t
  rcases hasFieldRule_cases ty with hp | rfl | rfl | rfl | rfl | rfl | rfl | rfl | rfl
  · rw [(plain_step M ty hp d m f l).2]
    exact (rotated_type_facts ty).1.2.2.2
  all_goals first | rfl | (simp only [rotateLeftTile]; split_ifs <;> rfl)

/-- C3: direction step.  `rotateRight` sets the direction of a tile that has a direction to
`(d + 1) % 4` and `rotateLeft` sets it to `(d + 3) % 4`; a tile without a direction keeps its
direction; and when the direction is one of North, East, South, West, four consecutive
rotations of the same sign restore it. -/
theorem direction_step (M : TileModifier) (t : Tile)
    (hd : t.haveDirection = true → t.direction < 4) :
    (rotateRightTile M t).direction
        = (if t.haveDirection then (t.direction + 1) % 4 else t.direction) ∧
      (rotateLeftTile M t).direction
        = (if t.haveDirection then (t.direction + 3) % 4 else t.direction) ∧
      ((rotateRightTile M)^[4] t).direction = t.direction ∧
      ((rotateLeftTile M)^[4] t).direction = t.direction := by
  refine ⟨direction_rotateRightTile M t, direction_rotateLeftTile M t, ?_, ?_⟩
  · simp only [Function.iterate_succ, Function.iterate_zero, Function.comp_apply, id_eq,
      direction_rotateRightTile, haveDirection_rotateRightTile]
    by_cases h : t.haveDirection = true
    · have := hd h
      simp only [h, if_true]
      omega
    · simp only [h, if_false, Bool.false_eq_true]
  · simp only [Function.iterate_succ, Function.iterate_zero, Function.comp_apply, id_eq,
      direction_rotateLeftTile, haveDirection_rotateLeftTile]
    by_cases h : t.haveDirection = true
    · have := hd h
      simp only [h, if_true]
      omega
    · simp only [h, if_false, Bool.false_eq_true]

/-- A Player facing South faces West after a right rotation and East after a left rotation. -/
theorem direction_step_witness :
    (rotateRightTile TileModifier.cc2Format ⟨.Player, Tile.South, 0, 0, none⟩).direction
        = Tile.West ∧
      (rotateLeftTile TileModifier.cc2Format ⟨.Player, Tile.South, 0, 0, none⟩).direction
        = Tile.East ∧
      ((rotateRightTile TileModifier.cc2Format)^[4] ⟨.Player, Tile.South, 0, 0, none⟩).direction
        = Tile.South ∧
      ((rotateLeftTile TileModifier.cc2Format)^[4] ⟨.Player, Tile.South, 0, 0, none⟩).direction
        = Tile.South :=
  direction_step TileModifier.cc2Format ⟨.Player, Tile.South, 0, 0, none⟩ (fun _ => by decide)

/-- C6 (as stated, refuted): `rotateRight` maps `RevolvDoor_SW` to `RevolvDoor_NW`, not to
`RevolvDoor_SE`, and `rotateLeft` maps `RevolvDoor_SW` to `RevolvDoor_SE`, not to
`RevolvDoor_NW`. -/
theorem revolvDoor_right_SW_not_SE :
    ((rotateRightTile TileModifier.cc2Format ⟨.RevolvDoor_SW, 0, 0, 0, none⟩).type
        = .RevolvDoor_NW ∧
      (rotateRightTile TileModifier.cc2Format ⟨.RevolvDoor_SW, 0, 0, 0, none⟩).type
        ≠ .RevolvDoor_SE) ∧
    ((rotateLeftTile TileModifier.cc2Format ⟨.RevolvDoor_SW, 0, 0, 0, none⟩).type
        = .RevolvDoor_SE ∧
      (rotateLeftTile TileModifier.cc2Format ⟨.RevolvDoor_SW, 0, 0, 0, none⟩).type
        ≠ .RevolvDoor_NW) := by
  decide

/-- C6 (amended): revolving-door rule.  `rotateRight` maps `RevolvDoor_SW` to `RevolvDoor_NW`,
`RevolvDoor_NW` to `RevolvDoor_NE`, `RevolvDoor_NE` to `RevolvDoor_SE` and `RevolvDoor_SE` to
`RevolvDoor_SW`; `rotateLeft` maps each type along the reverse cycle (SW to SE, SE to NE,
NE to NW, NW to SW). -/
theorem revolvDoor_cycle (M : TileModifier) (t : Tile) :
    ((rotateRightTile M { t with type := .RevolvDoor_SW }).type = .RevolvDoor_NW ∧
      (rotateRightTile M { t with type := .RevolvDoor_NW }).type = .RevolvDoor_NE ∧
      (rotateRightTile M { t with type := .RevolvDoor_NE }).type = .RevolvDoor_SE ∧
      (rotateRightTile M { t with type := .RevolvDoor_SE }).type = .RevolvDoor_SW) ∧
    ((rotateLeftTile M { t with type := .RevolvDoor_SW }).type = .RevolvDoor_SE ∧
      (rotateLeftTile M { t with type := .RevolvDoor_SE }).type = .RevolvDoor_NE ∧
      (rotateLeftTile M { t with type := .RevolvDoor_NE }).type = .RevolvDoor_NW ∧
      (rotateLeftTile M { t with type := .RevolvDoor_NW }).type = .RevolvDoor_SW) :=
  ⟨⟨rfl, rfl, rfl, rfl⟩, ⟨rfl, rfl, rfl, rfl⟩⟩

/-- C7: type-cycle rules for ice corners and force floors.  `rotateRight` maps `Ice_NE` to
`Ice_SE`, `Ice_SE` to `Ice_SW`, `Ice_SW` to `Ice_NW`, `Ice_NW` to `Ice_NE`, and `Force_N` to
`Force_E`, `Force_E` to `Force_S`, `Force_S` to `Force_W`, `Force_W` to `Force_N`;
`rotateLeft` maps each along the reverse cycle.  In particular `Ice_NE` rotated right once is
`Ice_SE`, rotated right twice is `Ice_SW`, and rotated left twice is `Ice_SW`. -/
theorem ice_force_cycles (M : TileModifier) (t : Tile) :
    ((rotateRightTile M { t with type := .Ice_NE }).type = .Ice_SE ∧
      (rotateRightTile M { t with type := .Ice_SE }).type = .Ice_SW ∧
      (rotateRightTile M { t with type := .Ice_SW }).type = .Ice_NW ∧
      (rotateRightTile M { t with type := .Ice_NW }).type = .Ice_NE) ∧
    ((rotateRightTile M { t with type := .Force_N }).type = .Force_E ∧
      (rotateRightTile M { t with type := .Force_E }).type = .Force_S ∧
      (rotateRightTile M { t with type := .Force_S }).type = .Force_W ∧
      (rotateRightTile M { t with type := .Force_W }).type = .Force_N) ∧
    ((rotateLeftTile M { t with type := .Ice_SE }).type = .Ice_NE ∧
      (rotateLeftTile M { t with type := .Ice_SW }).type = .Ice_SE ∧
      (rotateLeftTile M { t with type := .Ice_NW }).type = .Ice_SW ∧
      (rotateLeftTile M { t with type := .Ice_NE }).type = .Ice_NW) ∧
    ((rotateLeftTile M { t with type := .Force_E }).type = .Force_N ∧
      (rotateLeftTile M { t with type := .Force_S }).type = .Force_E ∧
      (rotateLeftTile M { t with type := .Force_W }).type = .Force_S ∧
      (rotateLeftTile M { t with type := .Force_N }).type = .Force_W) ∧
    ((rotateRightTile M { t with type := .Ice_NE }).type = .Ice_SE ∧
      (rotateRightTile M (rotateRightTile M { t with type := .Ice_NE })).type = .Ice_SW ∧
      (rotateLeftTile M (rotateLeftTile M { t with type := .Ice_NE })).type = .Ice_SW) :=
  ⟨⟨rfl, rfl, rfl, rfl⟩, ⟨rfl, rfl, rfl, rfl⟩, ⟨rfl, rfl, rfl, rfl⟩, ⟨rfl, rfl, rfl, rfl⟩,
    ⟨rfl, rfl, rfl⟩⟩

/-- One right rotation of a counter gate. -/
theorem counter_right (M : TileModifier) (t : Tile) (hty : t.type = .LogicGate)
    (hM : M.CounterGate_9 = M.CounterGate_0 + 9) (hlt : M.CounterGate_9 < 2 ^ 32)
    (v : Nat) (hv : v ≤ 9) (hmod : t.modifier = M.CounterGate_0 + v) :
    rotateRightTile M t = { t with modifier := M.CounterGate_0 + (v + 1) % 10 } := by
  obtain ⟨ty, d, m, f, l⟩ := t
  simp only at hty hmod
  subst hty
  subst hmod
  have hin : M.CounterGate_0 ≤ M.CounterGate_0 + v ∧ M.CounterGate_0 + v ≤ M.CounterGate_9 := by
    omega
  simp only [rotateRightTile, Tile.haveDirection, TileType.haveDirection, Tile.setModifier, Bool.false_eq_true, if_false,
    hin, and_self, if_true]
  congr 1
  omega

/-- One left rotation of a counter gate. -/
theorem counter_left (M : TileModifier) (t : Tile) (hty : t.type = .LogicGate)
    (hM : M.CounterGate_9 = M.CounterGate_0 + 9) (hlt : M.CounterGate_9 < 2 ^ 32)
    (v : Nat) (hv : v ≤ 9) (hmod : t.modifier = M.CounterGate_0 + v) :
    rotateLeftTile M t = { t with modifier := M.CounterGate_0 + (v + 9) % 10 } := by
  obtain ⟨ty, d, m, f, l⟩ := t
  simp only at hty hmod
  subst hty
  subst hmod
  have hin : M.CounterGate_0 ≤ M.CounterGate_0 + v ∧ M.CounterGate_0 + v ≤ M.CounterGate_9 := by
    omega
  simp only [rotateLeftTile, Tile.haveDirection, TileType.haveDirection, Tile.setModifier, Bool.false_eq_true, if_false,
    hin, and_self, if_true]
  congr 1
  omega

/-- Any number of right rotations of a counter gate. -/
theorem counter_right_iterate (M : TileModifier) (t : Tile) (hty : t.type = .LogicGate)
    (hM : M.CounterGate_9 = M.CounterGate_0 + 9) (hlt : M.CounterGate_9 < 2 ^ 32)
    (v : Nat) (hv : v ≤ 9) (hmod : t.modifier = M.CounterGate_0 + v) (n : Nat) :
    (rotateRightTile M)^[n] t = { t with modifier := M.CounterGate_0 + (v + n) % 10 } := by
  induction n with
  | zero =>
    obtain ⟨ty, d, m, f, l⟩ := t
    simp only at hmod
    subst hmod
    have : (v + 0) % 10 = v := by omega
    simp only [Function.iterate_zero, id_eq, this]
  | succ n ih =>
    rw [Function.iterate_succ_apply', ih]
    have hlt10 : (v + n) % 10 ≤ 9 := by omega
    rw [counter_right M { t with modifier := M.CounterGate_0 + (v + n) % 10 } hty hM hlt
      ((v + n) % 10) hlt10 rfl]
    have : ((v + n) % 10 + 1) % 10 = (v + (n + 1)) % 10 := by omega
    simp only [this]

/-- C9: counter-gate rule.  For every LogicGate tile with modifier `CounterGate_0 + v`,
`0 ≤ v ≤ 9` (the ten counter values being consecutive 32-bit values), `rotateRight` sets the
modifier to `CounterGate_0 + (v + 1) % 10` and `rotateLeft` sets it to
`CounterGate_0 + (v + 9) % 10`, leaving the type (and every other field) unchanged; from
counter value 0 one right rotation gives 1, one left rotation gives 9, and ten right
rotations give the starting value again. -/
theorem counter_gate_rule (M : TileModifier) (t : Tile) (hty : t.type = .LogicGate)
    (hM : M.CounterGate_9 = M.CounterGate_0 + 9) (hlt : M.CounterGate_9 < 2 ^ 32)
    (v : Nat) (hv : v ≤ 9) (hmod : t.modifier = M.CounterGate_0 + v) :
    rotateRightTile M t = { t with modifier := M.CounterGate_0 + (v + 1) % 10 } ∧
      rotateLeftTile M t = { t with modifier := M.CounterGate_0 + (v + 9) % 10 } ∧
      (rotateRightTile M t).type = .LogicGate ∧
      (rotateLeftTile M t).type = .LogicGate ∧
      (rotateRightTile M)^[10] t = t ∧
      (v = 0 → (rotateRightTile M t).modifier = M.CounterGate_0 + 1 ∧
        (rotateLeftTile M t).modifier = M.CounterGate_0 + 9 ∧
        ((rotateRightTile M)^[10] t).modifier = M.CounterGate_0 + 0) := by
  have hR := counter_right M t hty hM hlt v hv hmod
  have hL := counter_left M t hty hM hlt v hv hmod
  have h10 : (rotateRightTile M)^[10] t = t := by
    rw [counter_right_iterate M t hty hM hlt v hv hmod 10]
    obtain ⟨ty, d, m, f, l⟩ := t
    simp only at hmod
    subst hmod
    have : (v + 10) % 10 = v := by omega
    simp only [this]
  refine ⟨hR, hL, ?_, ?_, h10, ?_⟩
  · rw [hR]; exact hty
  · rw [hL]; exact hty
  · intro hv0
    subst hv0
    refine ⟨?_, ?_, ?_⟩
    · rw [hR]
    · rw [hL]
    · rw [h10]; exact hmod

/-- Counter value 0 under one right, one left and ten right rotations. -/
theorem counter_gate_rule_witness :
    (rotateRightTile TileModifier.cc2Format ⟨.LogicGate, 0, 0x1e, 0, none⟩).modifier = 0x1e + 1 ∧
      (rotateLeftTile TileModifier.cc2Format ⟨.LogicGate, 0, 0x1e, 0, none⟩).modifier = 0x1e + 9 ∧
      ((rotateRightTile TileModifier.cc2Format)^[10] ⟨.LogicGate, 0, 0x1e, 0, none⟩).modifier
        = 0x1e + 0 :=
  (counter_gate_rule TileModifier.cc2Format ⟨.LogicGate, 0, 0x1e, 0, none⟩ rfl rfl (by decide)
    0 (by decide) rfl).2.2.2.2.2 rfl

/-- One right rotation of a LogicGate outside the counter range. -/
theorem gate_modifier_right (M : TileModifier) (t : Tile) (hty : t.type = .LogicGate)
    (hm : t.modifier < 2 ^ 32)
    (hout : ¬ (M.CounterGate_0 ≤ t.modifier ∧ t.modifier ≤ M.CounterGate_9)) :
    rotateRightTile M t
      = { t with modifier := 4 * (t.modifier / 4) + (t.modifier % 4 + 1) % 4 } := by
  obtain ⟨ty, d, m, f, l⟩ := t
  simp only at hty hm hout
  subst hty
  simp only [rotateRightTile, Tile.haveDirection, TileType.haveDirection, Tile.setModifier, Bool.false_eq_true, if_false,
    hout]
  have h4 : (m + 1) % 2 ^ 32 % 4 < 4 := Nat.mod_lt _ (by decide)
  rw [land_not32_three m hm, lor_low_two _ _ h4]
  congr 1
  omega

/-- One left rotation of a LogicGate outside the counter range. -/
theorem gate_modifier_left (M : TileModifier) (t : Tile) (hty : t.type = .LogicGate)
    (hm : t.modifier < 2 ^ 32)
    (hout : ¬ (M.CounterGate_0 ≤ t.modifier ∧ t.modifier ≤ M.CounterGate_9)) :
    rotateLeftTile M t
      = { t with modifier := 4 * (t.modifier / 4) + (t.modifier % 4 + 3) % 4 } := by
  obtain ⟨ty, d, m, f, l⟩ := t
  simp only at hty hm hout
  subst hty
  simp only [rotateLeftTile, Tile.haveDirection, TileType.haveDirection, Tile.setModifier, Bool.false_eq_true, if_false,
    hout]
  have h4 : (m + 3) % 2 ^ 32 % 4 < 4 := Nat.mod_lt _ (by decide)
  rw [land_not32_three m hm, lor_low_two _ _ h4]
  congr 1
  omega

/-- C10: gate-orientation rule.  For every LogicGate tile whose 32-bit modifier `m` lies
outside `[CounterGate_0, CounterGate_9]`, `rotateRight` yields a modifier whose bits 2..31
equal those of `m` and whose low two bits equal `((m % 4) + 1) % 4`, and `rotateLeft` yields
a modifier whose bits 2..31 equal those of `m` and whose low two bits equal
`((m % 4) + 3) % 4`, also where `m + 1` or `m + 3` wraps around `2 ^ 32`. -/
theorem gate_orientation_rule (M : TileModifier) (t : Tile) (hty : t.type = .LogicGate)
    (hm : t.modifier < 2 ^ 32)
    (hout : ¬ (M.CounterGate_0 ≤ t.modifier ∧ t.modifier ≤ M.CounterGate_9)) :
    ((rotateRightTile M t).modifier / 4 = t.modifier / 4 ∧
      (rotateRightTile M t).modifier % 4 = (t.modifier % 4 + 1) % 4) ∧
    ((rotateLeftTile M t).modifier / 4 = t.modifier / 4 ∧
      (rotateLeftTile M t).modifier % 4 = (t.modifier % 4 + 3) % 4) := by
  rw [gate_modifier_right M t hty hm hout, gate_modifier_left M t hty hm hout]
  simp only
  omega

/-- The modifier `0xffffffff`, where `m + 1` and `m + 3` wrap. -/
theorem gate_orientation_rule_witness :
    ((rotateRightTile TileModifier.cc2Format ⟨.LogicGate, 0, 0xffffffff, 0, none⟩).modifier / 4
        = 0xffffffff / 4 ∧
      (rotateRightTile TileModifier.cc2Format ⟨.LogicGate, 0, 0xffffffff, 0, none⟩).modifier % 4
        = (0xffffffff % 4 + 1) % 4) ∧
    ((rotateLeftTile TileModifier.cc2Format ⟨.LogicGate, 0, 0xffffffff, 0, none⟩).modifier / 4
        = 0xffffffff / 4 ∧
      (rotateLeftTile TileModifier.cc2Format ⟨.LogicGate, 0, 0xffffffff, 0, none⟩).modifier % 4
        = (0xffffffff % 4 + 3) % 4) :=
  gate_orientation_rule TileModifier.cc2Format ⟨.LogicGate, 0, 0xffffffff, 0, none⟩ rfl
    (by decide) (by decide)

set_option maxRecDepth 100000 in
/-- All bytes: `rol4` and `ror4` stay within a byte and keep bits 4..7. -/
theorem rol4_ror4_high_bits : ∀ b, b < 2 ^ 8 →
    (rol4 b < 2 ^ 8 ∧ ror4 b < 2 ^ 8 ∧
      ∀ i, i < 8 → 4 ≤ i → ((rol4 b).testBit i = b.testBit i ∧ (ror4 b).testBit i = b.testBit i)) := by
  decide

/-- The exchange computed by the `TrainTracks` case is `trackSwap`. -/
theorem trackExchange_eq (M : TileModifier) (i j : Nat) (hNS : M.Track_NS = 2 ^ i)
    (hWE : M.Track_WE = 2 ^ j) (hi : i < 32) (hj : j < 32) (v : Nat) (hv : v < 2 ^ 8) :
    (if v &&& M.Track_NS ≠ 0 then v &&& not32 M.Track_NS ||| M.Track_WE
      else if v &&& M.Track_WE ≠ 0 then v &&& not32 M.Track_WE ||| M.Track_NS else v) % 2 ^ 32
      = trackSwap i j v := by
  have hv32 : v < 2 ^ 32 := Nat.lt_of_lt_of_le hv (by decide)
  have hpi : 2 ^ i < 2 ^ 32 := Nat.pow_lt_pow_right (by decide) hi
  have hpj : 2 ^ j < 2 ^ 32 := Nat.pow_lt_pow_right (by decide) hj
  have hand : ∀ k, v &&& not32 (2 ^ k) < 2 ^ 32 :=
    fun k => Nat.lt_of_le_of_lt Nat.and_le_left hv32
  rw [hNS, hWE]
  unfold trackSwap
  by_cases h1 : v.testBit i = true
  · rw [if_pos ((land_two_pow_ne_zero v i).2 h1), if_pos h1, setBit_eq_lor,
      clearBit_eq_land v i hv32 hi]
    exact Nat.mod_eq_of_lt (Nat.or_lt_two_pow (hand i) hpj)
  · rw [if_neg (fun h => h1 ((land_two_pow_ne_zero v i).1 h)), if_neg h1]
    by_cases h2 : v.testBit j = true
    · rw [if_pos ((land_two_pow_ne_zero v j).2 h2), if_pos h2, setBit_eq_lor,
        clearBit_eq_land v j hv32 hj]
      exact Nat.mod_eq_of_lt (Nat.or_lt_two_pow (hand j) hpi)
    · rw [if_neg (fun h => h2 ((land_two_pow_ne_zero v j).1 h)), if_neg h2]
      exact Nat.mod_eq_of_lt hv32

/-- After `trackSwap` of a mask with the NS bit, the WE bit is set and the NS bit clear. -/
theorem trackSwap_both (i j v : Nat) (hv : v < 2 ^ 32) (hi : i < 32) (hij : i ≠ j)
    (h1 : v.testBit i = true) :
    (trackSwap i j v).testBit j = true ∧ (trackSwap i j v).testBit i = false := by
  unfold trackSwap
  rw [if_pos h1, setBit_eq_lor, clearBit_eq_land v i hv hi]
  constructor
  · rw [Nat.testBit_or, Nat.testBit_two_pow]; simp
  · rw [Nat.testBit_or, Nat.testBit_and, testBit_not32_two_pow i i hi, Nat.testBit_two_pow]
    simp [Ne.symm hij]

/-- The modifier of a TrainTracks tile after a rotation, as the code computes it. -/
theorem trainTracks_modifier (M : TileModifier) (t : Tile) (hty : t.type = .TrainTracks) :
    (rotateRightTile M t).modifier
        = (if rol4 (t.modifier % 2 ^ 8) &&& M.Track_NS ≠ 0 then
            rol4 (t.modifier % 2 ^ 8) &&& not32 M.Track_NS ||| M.Track_WE
          else if rol4 (t.modifier % 2 ^ 8) &&& M.Track_WE ≠ 0 then
            rol4 (t.modifier % 2 ^ 8) &&& not32 M.Track_WE ||| M.Track_NS
          else rol4 (t.modifier % 2 ^ 8)) % 2 ^ 32 ∧
      (rotateLeftTile M t).modifier
        = (if ror4 (t.modifier % 2 ^ 8) &&& M.Track_NS ≠ 0 then
            ror4 (t.modifier % 2 ^ 8) &&& not32 M.Track_NS ||| M.Track_WE
          else if ror4 (t.modifier % 2 ^ 8) &&& M.Track_WE ≠ 0 then
            ror4 (t.modifier % 2 ^ 8) &&& not32 M.Track_WE ||| M.Track_NS
          else ror4 (t.modifier % 2 ^ 8)) % 2 ^ 32 := by
  obtain ⟨ty, d, m, f, l⟩ := t
  simp only at hty
  subst hty
  exact ⟨rfl, rfl⟩

/-- C8: TrainTracks rule.  With `Track_NS` and `Track_WE` distinct single bits outside the
low nibble, for every TrainTracks tile whose track bitmask fits in one byte `rotateRight`
sets the modifier to `trackSwap (rol4 mask)` and `rotateLeft` to `trackSwap (ror4 mask)`.
Consequently a mask with both `Track_NS` and `Track_WE` set is rotated to a mask with
`Track_WE` set and `Track_NS` clear. -/
theorem trainTracks_rule (M : TileModifier) (t : Tile) (i j : Nat)
    (hNS : M.Track_NS = 2 ^ i) (hWE : M.Track_WE = 2 ^ j)
    (hi : 4 ≤ i ∧ i < 32) (hj : 4 ≤ j ∧ j < 32) (hij : i ≠ j)
    (hty : t.type = .TrainTracks) (hm : t.modifier < 2 ^ 8) :
    (rotateRightTile M t).modifier = trackSwap i j (rol4 t.modifier) ∧
      (rotateLeftTile M t).modifier = trackSwap i j (ror4 t.modifier) ∧
      (t.modifier.testBit i = true → t.modifier.testBit j = true →
        ((rotateRightTile M t).modifier.testBit j = true ∧
          (rotateRightTile M t).modifier.testBit i = false) ∧
        ((rotateLeftTile M t).modifier.testBit j = true ∧
          (rotateLeftTile M t).modifier.testBit i = false)) := by
  obtain ⟨hR, hL⟩ := trainTracks_modifier M t hty
  obtain ⟨hrol, hror, hbits⟩ := rol4_ror4_high_bits t.modifier hm
  rw [Nat.mod_eq_of_lt hm] at hR hL
  rw [trackExchange_eq M i j hNS hWE hi.2 hj.2 _ hrol] at hR
  rw [trackExchange_eq M i j hNS hWE hi.2 hj.2 _ hror] at hL
  refine ⟨hR, hL, ?_⟩
  intro h1 _
  have hi8 : i < 8 := by
    by_contra hge
    have : t.modifier.testBit i = false := by
      apply Nat.testBit_lt_two_pow
      calc t.modifier < 2 ^ 8 := hm
        _ ≤ 2 ^ i := Nat.pow_le_pow_right (by decide) (by omega)
    rw [this] at h1
    exact Bool.false_ne_true h1
  obtain ⟨hbR, hbL⟩ := hbits i hi8 hi.1
  rw [hR, hL]
  exact ⟨trackSwap_both i j _ (Nat.lt_of_lt_of_le hrol (by decide)) hi.2 hij (hbR.trans h1),
    trackSwap_both i j _ (Nat.lt_of_lt_of_le hror (by decide)) hi.2 hij (hbL.trans h1)⟩

/-- The track mask `0x31`, which has both `Track_NS` and `Track_WE`. -/
theorem trainTracks_rule_witness :
    ((rotateRightTile TileModifier.cc2Format ⟨.TrainTracks, 0, 0x31, 0, none⟩).modifier.testBit 4
        = true ∧
      (rotateRightTile TileModifier.cc2Format ⟨.TrainTracks, 0, 0x31, 0, none⟩).modifier.testBit 5
        = false) ∧
    ((rotateLeftTile TileModifier.cc2Format ⟨.TrainTracks, 0, 0x31, 0, none⟩).modifier.testBit 4
        = true ∧
      (rotateLeftTile TileModifier.cc2Format ⟨.TrainTracks, 0, 0x31, 0, none⟩).modifier.testBit 5
        = false) :=
  (trainTracks_rule TileModifier.cc2Format ⟨.TrainTracks, 0, 0x31, 0, none⟩ 5 4 rfl rfl
    (by decide) (by decide) (by decide) rfl (by decide)).2.2 (by decide) (by decide)

/-! ### Byte-level facts used by the round-trip theorems -/

set_option maxRecDepth 100000 in
/-- All bytes: `rol4` and `ror4` are inverse to each other and have period four. -/
theorem rol4_ror4_byte_inverse : ∀ b, b < 2 ^ 8 →
    (rol4 b < 2 ^ 8 ∧ ror4 b < 2 ^ 8 ∧ ror4 (rol4 b) = b ∧ rol4 (ror4 b) = b ∧
      rol4 (rol4 (rol4 (rol4 b))) = b ∧ ror4 (ror4 (ror4 (ror4 b))) = b) := by
  decide

set_option maxRecDepth 100000 in
/-- All bytes: the Floor byte steps are inverse to each other and have period four on bytes with
equal nibbles. -/
theorem floorByte_facts : ∀ b, b < 2 ^ 8 →
    (floorByteRight b < 2 ^ 8 ∧ floorByteLeft b < 2 ^ 8 ∧
      (b / 16 % 16 = b % 16 →
        floorByteLeft (floorByteRight b) = b ∧ floorByteRight (floorByteLeft b) = b ∧
        floorByteRight (floorByteRight (floorByteRight (floorByteRight b))) = b ∧
        floorByteLeft (floorByteLeft (floorByteLeft (floorByteLeft b))) = b)) := by
  decide

set_option maxRecDepth 1000000 in
set_option maxHeartbeats 4000000 in
/-- All track bytes without both exchange bits: the track steps are inverse to each other and have
period four. -/
theorem trackExchange_facts :
    ∀ ns ∈ [0x10, 0x20, 0x40, 0x80], ∀ we ∈ [0x10, 0x20, 0x40, 0x80], ns ≠ we →
      ∀ b, b < 2 ^ 8 → ¬ (b &&& ns ≠ 0 ∧ b &&& we ≠ 0) →
        (trackExchange ns we (ror4 (trackExchange ns we (rol4 b) % 2 ^ 8)) = b ∧
          trackExchange ns we (rol4 (trackExchange ns we (ror4 b) % 2 ^ 8)) = b ∧
          trackExchange ns we (rol4 (trackExchange ns we (rol4 (trackExchange ns we
            (rol4 (trackExchange ns we (rol4 b) % 2 ^ 8)) % 2 ^ 8)) % 2 ^ 8)) = b ∧
          trackExchange ns we (ror4 (trackExchange ns we (ror4 (trackExchange ns we
            (ror4 (trackExchange ns we (ror4 b) % 2 ^ 8)) % 2 ^ 8)) % 2 ^ 8)) = b) := by
  decide

/-! ### One rotation step on the types with a structural rule -/

/-- One rotation of a Floor tile, with the modifier split into its low byte and the rest. -/
theorem floor_step (M : TileModifier) (d a b f : Nat) (l : Option Tile) (hb : b < 2 ^ 8)
    (hm : 256 * a + b < 2 ^ 32) :
    rotateRightTile M ⟨.Floor, d, 256 * a + b, f, l⟩
        = ⟨.Floor, d, 256 * a + floorByteRight b, f, l⟩ ∧
      rotateLeftTile M ⟨.Floor, d, 256 * a + b, f, l⟩
        = ⟨.Floor, d, 256 * a + floorByteLeft b, f, l⟩ ∧
      256 * a + floorByteRight b < 2 ^ 32 ∧ 256 * a + floorByteLeft b < 2 ^ 32 := by
  obtain ⟨hR, hL, -⟩ := floorByte_facts b hb
  have hlow : (256 * a + b) % 2 ^ 8 = b := by omega
  have hhigh : (256 * a + b) / 256 = a := by omega
  have h1 : rotateRightTile M ⟨.Floor, d, 256 * a + b, f, l⟩
      = ⟨.Floor, d, ((256 * a + b) &&& not32 0xff
          ||| floorByteRight ((256 * a + b) % 2 ^ 8)) % 2 ^ 32, f, l⟩ := rfl
  have h2 : rotateLeftTile M ⟨.Floor, d, 256 * a + b, f, l⟩
      = ⟨.Floor, d, ((256 * a + b) &&& not32 0xff
          ||| floorByteLeft ((256 * a + b) % 2 ^ 8)) % 2 ^ 32, f, l⟩ := rfl
  have hbR : 256 * a + floorByteRight b < 2 ^ 32 := by omega
  have hbL : 256 * a + floorByteLeft b < 2 ^ 32 := by omega
  rw [h1, h2, hlow, land_not32_ff _ hm, hhigh, lor_low_byte _ _ hR, lor_low_byte _ _ hL,
    Nat.mod_eq_of_lt hbR, Nat.mod_eq_of_lt hbL]
  exact ⟨rfl, rfl, hbR, hbL⟩

/-- One rotation of a PanelCanopy or DirBlock tile. -/
theorem flags_step (M : TileModifier) (ty : TileType)
    (hty : ty = .PanelCanopy ∨ ty = .DirBlock) (d m f : Nat) (l : Option Tile)
    (hf : f < 2 ^ 8) :
    rotateRightTile M ⟨ty, d, m, f, l⟩ = ⟨ty, d, m, rol4 f, l⟩ ∧
      rotateLeftTile M ⟨ty, d, m, f, l⟩ = ⟨ty, d, m, ror4 f, l⟩ := by
  obtain ⟨hR, hL, -⟩ := rol4_ror4_byte_inverse f hf
  have h1 : rotateRightTile M ⟨ty, d, m, f, l⟩ = ⟨ty, d, m, rol4 (f % 2 ^ 8) % 2 ^ 8, l⟩ := by
    rcases hty with h | h <;> subst h <;> rfl
  have h2 : rotateLeftTile M ⟨ty, d, m, f, l⟩ = ⟨ty, d, m, ror4 (f % 2 ^ 8) % 2 ^ 8, l⟩ := by
    rcases hty with h | h <;> subst h <;> rfl
  rw [h1, h2, Nat.mod_eq_of_lt hf, Nat.mod_eq_of_lt hR, Nat.mod_eq_of_lt hL]
  exact ⟨rfl, rfl⟩

/-- One rotation of a StyledFloor or StyledWall tile. -/
theorem styled_step (M : TileModifier) (ty : TileType)
    (hty : ty = .StyledFloor ∨ ty = .StyledWall) (d m f : Nat) (l : Option Tile) :
    rotateRightTile M ⟨ty, d, m, f, l⟩ = ⟨ty, d, (m + 1) % 2 ^ 32 % 4, f, l⟩ ∧
      rotateLeftTile M ⟨ty, d, m, f, l⟩ = ⟨ty, d, (m + 3) % 2 ^ 32 % 4, f, l⟩ := by
  have h1 : rotateRightTile M ⟨ty, d, m, f, l⟩
      = ⟨ty, d, (m + 1) % 2 ^ 32 % 4 % 2 ^ 32, f, l⟩ := by
    rcases hty with h | h <;> subst h <;> rfl
  have h2 : rotateLeftTile M ⟨ty, d, m, f, l⟩
      = ⟨ty, d, (m + 3) % 2 ^ 32 % 4 % 2 ^ 32, f, l⟩ := by
    rcases hty with h | h <;> subst h <;> rfl
  have e1 : (m + 1) % 2 ^ 32 % 4 % 2 ^ 32 = (m + 1) % 2 ^ 32 % 4 := by omega
  have e2 : (m + 3) % 2 ^ 32 % 4 % 2 ^ 32 = (m + 3) % 2 ^ 32 % 4 := by omega
  rw [h1, h2, e1, e2]
  exact ⟨rfl, rfl⟩

/-- One rotation of a Cloner tile whose mask fits in one byte. -/
theorem cloner_step (M : TileModifier) (d m f : Nat) (l : Option Tile) (hm : m < 2 ^ 8) :
    rotateRightTile M ⟨.Cloner, d, m, f, l⟩ = ⟨.Cloner, d, rol4 m, f, l⟩ ∧
      rotateLeftTile M ⟨.Cloner, d, m, f, l⟩ = ⟨.Cloner, d, ror4 m, f, l⟩ := by
  obtain ⟨hR, hL, -⟩ := rol4_ror4_byte_inverse m hm
  have h1 : rotateRightTile M ⟨.Cloner, d, m, f, l⟩
      = ⟨.Cloner, d, rol4 (m % 2 ^ 8) % 2 ^ 32, f, l⟩ := rfl
  have h2 : rotateLeftTile M ⟨.Cloner, d, m, f, l⟩
      = ⟨.Cloner, d, ror4 (m % 2 ^ 8) % 2 ^ 32, f, l⟩ := rfl
  have e1 : rol4 m % 2 ^ 32 = rol4 m := by omega
  have e2 : ror4 m % 2 ^ 32 = ror4 m := by omega
  rw [h1, h2, Nat.mod_eq_of_lt hm, e1, e2]
  exact ⟨rfl, rfl⟩

/-- One rotation of a TrainTracks tile. -/
theorem tracks_step (M : TileModifier) (d m f : Nat) (l : Option Tile) :
    rotateRightTile M ⟨.TrainTracks, d, m, f, l⟩
        = ⟨.TrainTracks, d, trackExchange M.Track_NS M.Track_WE (rol4 (m % 2 ^ 8)), f, l⟩ ∧
      rotateLeftTile M ⟨.TrainTracks, d, m, f, l⟩
        = ⟨.TrainTracks, d, trackExchange M.Track_NS M.Track_WE (ror4 (m % 2 ^ 8)), f, l⟩ :=
  ⟨rfl, rfl⟩

/-! ### Round trips on the types with a structural rule -/

/-- Round trips of a Floor tile with equal wire and tunnel nibbles. -/
theorem floor_roundtrip (M : TileModifier) (d m f : Nat) (l : Option Tile) (hm : m < 2 ^ 32)
    (hn : m / 16 % 16 = m % 16) :
    rotateLeftTile M (rotateRightTile M ⟨.Floor, d, m, f, l⟩) = ⟨.Floor, d, m, f, l⟩ ∧
      rotateRightTile M (rotateLeftTile M ⟨.Floor, d, m, f, l⟩) = ⟨.Floor, d, m, f, l⟩ ∧
      (rotateRightTile M)^[4] ⟨.Floor, d, m, f, l⟩ = ⟨.Floor, d, m, f, l⟩ ∧
      (rotateLeftTile M)^[4] ⟨.Floor, d, m, f, l⟩ = ⟨.Floor, d, m, f, l⟩ := by
  obtain ⟨a, b, hb, rfl⟩ : ∃ a b, b < 2 ^ 8 ∧ m = 256 * a + b :=
    ⟨m / 256, m % 256, by omega, by omega⟩
  have hnb : b / 16 % 16 = b % 16 := by
    have h1 : (256 * a + b) / 16 = 16 * a + b / 16 := by omega
    have h2 : (256 * a + b) % 16 = b % 16 := by omega
    rw [h1, h2] at hn
    omega
  obtain ⟨hR1, hL1, hRL, hLR, hR4, hL4⟩ :
      floorByteRight b < 2 ^ 8 ∧ floorByteLeft b < 2 ^ 8 ∧
        floorByteLeft (floorByteRight b) = b ∧ floorByteRight (floorByteLeft b) = b ∧
        floorByteRight (floorByteRight (floorByteRight (floorByteRight b))) = b ∧
        floorByteLeft (floorByteLeft (floorByteLeft (floorByteLeft b))) = b := by
    obtain ⟨h1, h2, h3⟩ := floorByte_facts b hb
    exact ⟨h1, h2, h3 hnb⟩
  have hR2 := (floorByte_facts _ hR1).1
  have hR3 := (floorByte_facts _ hR2).1
  have hL2 := (floorByte_facts _ hL1).2.1
  have hL3 := (floorByte_facts _ hL2).2.1
  obtain ⟨sR1, sL1, bR1, bL1⟩ := floor_step M d a b f l hb hm
  obtain ⟨sR2, -, bR2, -⟩ := floor_step M d a _ f l hR1 bR1
  obtain ⟨sR3, -, bR3, -⟩ := floor_step M d a _ f l hR2 bR2
  obtain ⟨sR4, -, -, -⟩ := floor_step M d a _ f l hR3 bR3
  obtain ⟨-, sL2, -, bL2⟩ := floor_step M d a _ f l hL1 bL1
  obtain ⟨-, sL3, -, bL3⟩ := floor_step M d a _ f l hL2 bL2
  obtain ⟨-, sL4, -, -⟩ := floor_step M d a _ f l hL3 bL3
  obtain ⟨-, sRL, -, -⟩ := floor_step M d a _ f l hR1 bR1
  obtain ⟨sLR, -, -, -⟩ := floor_step M d a _ f l hL1 bL1
  refine ⟨?_, ?_, ?_, ?_⟩
  · rw [sR1, sRL, hRL]
  · rw [sL1, sLR, hLR]
  · simp only [Function.iterate_succ, Function.iterate_zero, Function.comp_apply, id_eq]
    rw [sR1, sR2, sR3, sR4, hR4]
  · simp only [Function.iterate_succ, Function.iterate_zero, Function.comp_apply, id_eq]
    rw [sL1, sL2, sL3, sL4, hL4]

/-- Round trips of a PanelCanopy or DirBlock tile. -/
theorem flags_roundtrip (M : TileModifier) (ty : TileType)
    (hty : ty = .PanelCanopy ∨ ty = .DirBlock) (d m f : Nat) (l : Option Tile)
    (hf : f < 2 ^ 8) :
    rotateLeftTile M (rotateRightTile M ⟨ty, d, m, f, l⟩) = ⟨ty, d, m, f, l⟩ ∧
      rotateRightTile M (rotateLeftTile M ⟨ty, d, m, f, l⟩) = ⟨ty, d, m, f, l⟩ ∧
      (rotateRightTile M)^[4] ⟨ty, d, m, f, l⟩ = ⟨ty, d, m, f, l⟩ ∧
      (rotateLeftTile M)^[4] ⟨ty, d, m, f, l⟩ = ⟨ty, d, m, f, l⟩ := by
  obtain ⟨hR1, hL1, hRL, hLR, hR4, hL4⟩ := rol4_ror4_byte_inverse f hf
  have hR2 := (rol4_ror4_byte_inverse _ hR1).1
  have hR3 := (rol4_ror4_byte_inverse _ hR2).1
  have hL2 := (rol4_ror4_byte_inverse _ hL1).2.1
  have hL3 := (rol4_ror4_byte_inverse _ hL2).2.1
  have s := fun g hg => flags_step M ty hty d m g l hg
  refine ⟨?_, ?_, ?_, ?_⟩
  · rw [(s f hf).1, (s _ hR1).2, hRL]
  · rw [(s f hf).2, (s _ hL1).1, hLR]
  · simp only [Function.iterate_succ, Function.iterate_zero, Function.comp_apply, id_eq]
    rw [(s f hf).1, (s _ hR1).1, (s _ hR2).1, (s _ hR3).1, hR4]
  · simp only [Function.iterate_succ, Function.iterate_zero, Function.comp_apply, id_eq]
    rw [(s f hf).2, (s _ hL1).2, (s _ hL2).2, (s _ hL3).2, hL4]

/-- Round trips of a themed tile with a theme in `0..3`. -/
theorem styled_roundtrip (M : TileModifier) (ty : TileType)
    (hty : ty = .StyledFloor ∨ ty = .StyledWall) (d m f : Nat) (l : Option Tile)
    (hn : m < 4) :
    rotateLeftTile M (rotateRightTile M ⟨ty, d, m, f, l⟩) = ⟨ty, d, m, f, l⟩ ∧
      rotateRightTile M (rotateLeftTile M ⟨ty, d, m, f, l⟩) = ⟨ty, d, m, f, l⟩ ∧
      (rotateRightTile M)^[4] ⟨ty, d, m, f, l⟩ = ⟨ty, d, m, f, l⟩ ∧
      (rotateLeftTile M)^[4] ⟨ty, d, m, f, l⟩ = ⟨ty, d, m, f, l⟩ := by
  have s := fun g => styled_step M ty hty d g f l
  refine ⟨?_, ?_, ?_, ?_⟩
  · rw [(s m).1, (s _).2]; congr 1; omega
  · rw [(s m).2, (s _).1]; congr 1; omega
  · simp only [Function.iterate_succ, Function.iterate_zero, Function.comp_apply, id_eq]
    rw [(s m).1, (s _).1, (s _).1, (s _).1]; congr 1; omega
  · simp only [Function.iterate_succ, Function.iterate_zero, Function.comp_apply, id_eq]
    rw [(s m).2, (s _).2, (s _).2, (s _).2]; congr 1; omega

/-- Round trips of a Cloner tile whose mask fits in one byte. -/
theorem cloner_roundtrip (M : TileModifier) (d m f : Nat) (l : Option Tile) (hn : m < 2 ^ 8) :
    rotateLeftTile M (rotateRightTile M ⟨.Cloner, d, m, f, l⟩) = ⟨.Cloner, d, m, f, l⟩ ∧
      rotateRightTile M (rotateLeftTile M ⟨.Cloner, d, m, f, l⟩) = ⟨.Cloner, d, m, f, l⟩ ∧
      (rotateRightTile M)^[4] ⟨.Cloner, d, m, f, l⟩ = ⟨.Cloner, d, m, f, l⟩ ∧
      (rotateLeftTile M)^[4] ⟨.Cloner, d, m, f, l⟩ = ⟨.Cloner, d, m, f, l⟩ := by
  obtain ⟨hR1, hL1, hRL, hLR, hR4, hL4⟩ := rol4_ror4_byte_inverse m hn
  have hR2 := (rol4_ror4_byte_inverse _ hR1).1
  have hR3 := (rol4_ror4_byte_inverse _ hR2).1
  have hL2 := (rol4_ror4_byte_inverse _ hL1).2.1
  have hL3 := (rol4_ror4_byte_inverse _ hL2).2.1
  have s := fun g hg => cloner_step M d g f l hg
  refine ⟨?_, ?_, ?_, ?_⟩
  · rw [(s m hn).1, (s _ hR1).2, hRL]
  · rw [(s m hn).2, (s _ hL1).1, hLR]
  · simp only [Function.iterate_succ, Function.iterate_zero, Function.comp_apply, id_eq]
    rw [(s m hn).1, (s _ hR1).1, (s _ hR2).1, (s _ hR3).1, hR4]
  · simp only [Function.iterate_succ, Function.iterate_zero, Function.comp_apply, id_eq]
    rw [(s m hn).2, (s _ hL1).2, (s _ hL2).2, (s _ hL3).2, hL4]

/-- Round trips of a TrainTracks tile in rotation-normal form. -/
theorem tracks_roundtrip (M : TileModifier) (hM : M.Valid) (d m f : Nat) (l : Option Tile)
    (hn : m < 2 ^ 8 ∧ ¬ (m &&& M.Track_NS ≠ 0 ∧ m &&& M.Track_WE ≠ 0)) :
    rotateLeftTile M (rotateRightTile M ⟨.TrainTracks, d, m, f, l⟩)
        = ⟨.TrainTracks, d, m, f, l⟩ ∧
      rotateRightTile M (rotateLeftTile M ⟨.TrainTracks, d, m, f, l⟩)
        = ⟨.TrainTracks, d, m, f, l⟩ ∧
      (rotateRightTile M)^[4] ⟨.TrainTracks, d, m, f, l⟩ = ⟨.TrainTracks, d, m, f, l⟩ ∧
      (rotateLeftTile M)^[4] ⟨.TrainTracks, d, m, f, l⟩ = ⟨.TrainTracks, d, m, f, l⟩ := by
  obtain ⟨hns, hwe, hne, -, -⟩ := hM
  obtain ⟨hRL, hLR, hR4, hL4⟩ :=
    trackExchange_facts M.Track_NS hns M.Track_WE hwe hne m hn.1 hn.2
  have hm8 : m % 2 ^ 8 = m := Nat.mod_eq_of_lt hn.1
  have s := fun g => tracks_step M d g f l
  refine ⟨?_, ?_, ?_, ?_⟩
  · rw [(s m).1, (s _).2, hm8, hRL]
  · rw [(s m).2, (s _).1, hm8, hLR]
  · simp only [Function.iterate_succ, Function.iterate_zero, Function.comp_apply, id_eq]
    rw [(s m).1, (s _).1, (s _).1, (s _).1, hm8, hR4]
  · simp only [Function.iterate_succ, Function.iterate_zero, Function.comp_apply, id_eq]
    rw [(s m).2, (s _).2, (s _).2, (s _).2, hm8, hL4]

/-- One rotation of a LogicGate whose group of four orientation values has no counter value. -/
theorem gate_step (M : TileModifier) (d f : Nat) (l : Option Tile) (q r : Nat) (hr : r < 4)
    (hlt : 4 * q + r < 2 ^ 32) (hB : ∀ k, k < 4 → ¬ M.isCounter (4 * q + k)) :
    rotateRightTile M ⟨.LogicGate, d, 4 * q + r, f, l⟩
        = ⟨.LogicGate, d, 4 * q + (r + 1) % 4, f, l⟩ ∧
      rotateLeftTile M ⟨.LogicGate, d, 4 * q + r, f, l⟩
        = ⟨.LogicGate, d, 4 * q + (r + 3) % 4, f, l⟩ := by
  have hout : ¬ (M.CounterGate_0 ≤ 4 * q + r ∧ 4 * q + r ≤ M.CounterGate_9) := hB r hr
  have hq : (4 * q + r) / 4 = q := by omega
  have hrm : (4 * q + r) % 4 = r := by omega
  have hR := gate_modifier_right M ⟨.LogicGate, d, 4 * q + r, f, l⟩ rfl hlt hout
  have hL := gate_modifier_left M ⟨.LogicGate, d, 4 * q + r, f, l⟩ rfl hlt hout
  simp only [hq, hrm] at hR hL
  exact ⟨hR, hL⟩

/-- Round trips of a LogicGate whose group of four orientation values has no counter value. -/
theorem gate_roundtrip (M : TileModifier) (d m f : Nat) (l : Option Tile) (hm : m < 2 ^ 32)
    (hB : ∀ k, k < 4 → ¬ M.isCounter (4 * (m / 4) + k)) :
    rotateLeftTile M (rotateRightTile M ⟨.LogicGate, d, m, f, l⟩)
        = ⟨.LogicGate, d, m, f, l⟩ ∧
      rotateRightTile M (rotateLeftTile M ⟨.LogicGate, d, m, f, l⟩)
        = ⟨.LogicGate, d, m, f, l⟩ ∧
      (rotateRightTile M)^[4] ⟨.LogicGate, d, m, f, l⟩ = ⟨.LogicGate, d, m, f, l⟩ ∧
      (rotateLeftTile M)^[4] ⟨.LogicGate, d, m, f, l⟩ = ⟨.LogicGate, d, m, f, l⟩ := by
  obtain ⟨q, r, hr, rfl⟩ : ∃ q r, r < 4 ∧ m = 4 * q + r :=
    ⟨m / 4, m % 4, Nat.mod_lt _ (by decide), by omega⟩
  have hq : (4 * q + r) / 4 = q := by omega
  rw [hq] at hB
  have s := fun x (hx : x < 4) =>
    gate_step M d f l q x hx (by omega) hB
  have h4 : ∀ x, x % 4 < 4 := fun x => Nat.mod_lt _ (by decide)
  refine ⟨?_, ?_, ?_, ?_⟩
  · rw [(s r hr).1, (s _ (h4 _)).2]; congr 2; omega
  · rw [(s r hr).2, (s _ (h4 _)).1]; congr 2; omega
  · simp only [Function.iterate_succ, Function.iterate_zero, Function.comp_apply, id_eq]
    rw [(s r hr).1, (s _ (h4 _)).1, (s _ (h4 _)).1, (s _ (h4 _)).1]; congr 2; omega
  · simp only [Function.iterate_succ, Function.iterate_zero, Function.comp_apply, id_eq]
    rw [(s r hr).2, (s _ (h4 _)).2, (s _ (h4 _)).2, (s _ (h4 _)).2]; congr 2; omega

/-- Opposite rotations of a counter gate cancel. -/
theorem counter_roundtrip (M : TileModifier) (hM : M.Valid) (d m f : Nat) (l : Option Tile)
    (hc : M.isCounter m) :
    rotateLeftTile M (rotateRightTile M ⟨.LogicGate, d, m, f, l⟩)
        = ⟨.LogicGate, d, m, f, l⟩ ∧
      rotateRightTile M (rotateLeftTile M ⟨.LogicGate, d, m, f, l⟩)
        = ⟨.LogicGate, d, m, f, l⟩ := by
  obtain ⟨-, -, -, h9, hlt⟩ := hM
  obtain ⟨hc0, hc9⟩ := hc
  obtain ⟨v, hv, rfl⟩ : ∃ v, v ≤ 9 ∧ m = M.CounterGate_0 + v :=
    ⟨m - M.CounterGate_0, by omega, by omega⟩
  have hR := counter_right M ⟨.LogicGate, d, M.CounterGate_0 + v, f, l⟩ rfl h9 hlt v hv rfl
  have hL := counter_left M ⟨.LogicGate, d, M.CounterGate_0 + v, f, l⟩ rfl h9 hlt v hv rfl
  have hv1 : (v + 1) % 10 ≤ 9 := by omega
  have hv9 : (v + 9) % 10 ≤ 9 := by omega
  have hRL := counter_left M ⟨.LogicGate, d, M.CounterGate_0 + (v + 1) % 10, f, l⟩ rfl h9 hlt
    _ hv1 rfl
  have hLR := counter_right M ⟨.LogicGate, d, M.CounterGate_0 + (v + 9) % 10, f, l⟩ rfl h9 hlt
    _ hv9 rfl
  simp only at hR hL hRL hLR
  constructor
  · rw [hR, hRL]; congr 2; omega
  · rw [hL, hLR]; congr 2; omega

/-- Outside rotation-normal form a rotation loses information: the round trip right-left
changes a themed tile with modifier 7, a Cloner mask `0x100`, a track mask with both
`Track_NS` and `Track_WE`, and a directional tile whose direction value is 4. -/
theorem roundtrip_outside_normal_form :
    (rotateLeftTile TileModifier.cc2Format
        (rotateRightTile TileModifier.cc2Format ⟨.StyledWall, 0, 7, 0, none⟩)).modifier = 3 ∧
      (rotateLeftTile TileModifier.cc2Format
        (rotateRightTile TileModifier.cc2Format ⟨.Cloner, 0, 0x100, 0, none⟩)).modifier = 0 ∧
      (rotateLeftTile TileModifier.cc2Format
        (rotateRightTile TileModifier.cc2Format ⟨.TrainTracks, 0, 0x30, 0, none⟩)).modifier
          = 0x20 ∧
      (rotateLeftTile TileModifier.cc2Format
        (rotateRightTile TileModifier.cc2Format ⟨.Player, 4, 0, 0, none⟩)).direction = 0 := by
  decide

/-- C1 (as stated, refuted): one right rotation followed by one left rotation does not
restore a Floor tile whose modifier is `0x01`: the right rotation stores `0x22` and the left
rotation then stores `0x11`. -/
theorem rotate_right_left_not_inverse :
    (rotateRightTile TileModifier.cc2Format ⟨.Floor, 0, 0x01, 0, none⟩).modifier = 0x22 ∧
      (rotateLeftTile TileModifier.cc2Format
        (rotateRightTile TileModifier.cc2Format ⟨.Floor, 0, 0x01, 0, none⟩)).modifier = 0x11 ∧
      rotateLeftTile TileModifier.cc2Format
        (rotateRightTile TileModifier.cc2Format ⟨.Floor, 0, 0x01, 0, none⟩)
          ≠ ⟨.Floor, 0, 0x01, 0, none⟩ :=
  ⟨by decide, by decide, fun h => absurd (congrArg Tile.modifier h) (by decide)⟩

/-- C1 (amended): for every well-formed tile in rotation-normal form (the enumerators being
valid), one right rotation followed by one left rotation returns exactly the tile, and so
does one left rotation followed by one right rotation. -/
theorem rotate_inverse_of_normal (M : TileModifier) (t : Tile) (hM : M.Valid)
    (hwf : t.WellFormed) (hn : t.RotationNormal M) :
    rotateLeftTile M (rotateRightTile M t) = t ∧ rotateRightTile M (rotateLeftTile M t) = t := by
  obtain ⟨ty, d, m, f, l⟩ := t
  obtain ⟨hm, hf⟩ := hwf
  obtain ⟨hd, hrest⟩ := hn
  simp only at hm hf
  rcases hasFieldRule_cases ty with hp | rfl | rfl | rfl | rfl | rfl | rfl | rfl | rfl
  · have h := plain_roundtrip M ty hp d m f l hd
    exact ⟨h.1, h.2.1⟩
  · have h := floor_roundtrip M d m f l hm hrest
    exact ⟨h.1, h.2.1⟩
  · have h := flags_roundtrip M .PanelCanopy (Or.inl rfl) d m f l hf
    exact ⟨h.1, h.2.1⟩
  · have h := flags_roundtrip M .DirBlock (Or.inr rfl) d m f l hf
    exact ⟨h.1, h.2.1⟩
  · have h := styled_roundtrip M .StyledFloor (Or.inl rfl) d m f l hrest
    exact ⟨h.1, h.2.1⟩
  · have h := styled_roundtrip M .StyledWall (Or.inr rfl) d m f l hrest
    exact ⟨h.1, h.2.1⟩
  · have h := cloner_roundtrip M d m f l hrest
    exact ⟨h.1, h.2.1⟩
  · have h := tracks_roundtrip M hM d m f l hrest
    exact ⟨h.1, h.2.1⟩
  · rcases hrest with hc | hB
    · exact counter_roundtrip M hM d m f l hc
    · have h := gate_roundtrip M d m f l hm hB
      exact ⟨h.1, h.2.1⟩

/-- A Floor tile with modifier `0x4d44` under the two round trips. -/
theorem rotate_inverse_of_normal_witness :
    rotateLeftTile TileModifier.cc2Format
        (rotateRightTile TileModifier.cc2Format ⟨.Floor, 0, 0x4d44, 0, none⟩)
        = ⟨.Floor, 0, 0x4d44, 0, none⟩ ∧
      rotateRightTile TileModifier.cc2Format
        (rotateLeftTile TileModifier.cc2Format ⟨.Floor, 0, 0x4d44, 0, none⟩)
        = ⟨.Floor, 0, 0x4d44, 0, none⟩ :=
  rotate_inverse_of_normal TileModifier.cc2Format ⟨.Floor, 0, 0x4d44, 0, none⟩ (by decide)
    (by decide) ⟨fun h => absurd h (by decide), by decide⟩

/-- A LogicGate counter has period ten, not four: four right rotations add 4 to the counter
value modulo 10, which never gives the value back. -/
theorem counter_four_rotations (M : TileModifier) (t : Tile) (hty : t.type = .LogicGate)
    (hM : M.CounterGate_9 = M.CounterGate_0 + 9) (hlt : M.CounterGate_9 < 2 ^ 32)
    (v : Nat) (hv : v ≤ 9) (hmod : t.modifier = M.CounterGate_0 + v) :
    ((rotateRightTile M)^[4] t).modifier = M.CounterGate_0 + (v + 4) % 10 ∧
      (rotateRightTile M)^[4] t ≠ t := by
  have h4 := counter_right_iterate M t hty hM hlt v hv hmod 4
  constructor
  · rw [h4]
  · intro h
    have hm := congrArg Tile.modifier h
    rw [h4, hmod] at hm
    simp only at hm
    omega

/-- C2 (as stated, refuted): four right rotations do not restore a Floor tile whose modifier
is `0x01`: the modifier runs through `0x22`, `0x44`, `0x88` and ends as `0x11`. -/
theorem rotate_four_not_identity :
    ((rotateRightTile TileModifier.cc2Format)^[1] ⟨.Floor, 0, 0x01, 0, none⟩).modifier = 0x22 ∧
      ((rotateRightTile TileModifier.cc2Format)^[2] ⟨.Floor, 0, 0x01, 0, none⟩).modifier
        = 0x44 ∧
      ((rotateRightTile TileModifier.cc2Format)^[3] ⟨.Floor, 0, 0x01, 0, none⟩).modifier
        = 0x88 ∧
      ((rotateRightTile TileModifier.cc2Format)^[4] ⟨.Floor, 0, 0x01, 0, none⟩).modifier
        = 0x11 ∧
      (rotateRightTile TileModifier.cc2Format)^[4] ⟨.Floor, 0, 0x01, 0, none⟩
        ≠ ⟨.Floor, 0, 0x01, 0, none⟩ :=
  ⟨by decide, by decide, by decide, by decide,
    fun h => absurd (congrArg Tile.modifier h) (by decide)⟩

/-- C2 (amended): for every well-formed tile in rotation-normal form (the enumerators being
valid) whose type is not `Switch_Off` or `Switch_On` and which is not a LogicGate counter,
four right rotations return the tile to its original state, and so do four left rotations. -/
theorem rotate_four_of_normal (M : TileModifier) (t : Tile) (hM : M.Valid)
    (hwf : t.WellFormed) (hn : t.RotationNormal M)
    (_hsw : t.type ≠ .Switch_Off ∧ t.type ≠ .Switch_On)
    (hcnt : t.type = .LogicGate → ¬ M.isCounter t.modifier) :
    (rotateRightTile M)^[4] t = t ∧ (rotateLeftTile M)^[4] t = t := by
  obtain ⟨ty, d, m, f, l⟩ := t
  obtain ⟨hm, hf⟩ := hwf
  obtain ⟨hd, hrest⟩ := hn
  simp only at hm hf hcnt
  rcases hasFieldRule_cases ty with hp | rfl | rfl | rfl | rfl | rfl | rfl | rfl | rfl
  · have h := plain_roundtrip M ty hp d m f l hd
    exact ⟨h.2.2.1, h.2.2.2⟩
  · have h := floor_roundtrip M d m f l hm hrest
    exact ⟨h.2.2.1, h.2.2.2⟩
  · have h := flags_roundtrip M .PanelCanopy (Or.inl rfl) d m f l hf
    exact ⟨h.2.2.1, h.2.2.2⟩
  · have h := flags_roundtrip M .DirBlock (Or.inr rfl) d m f l hf
    exact ⟨h.2.2.1, h.2.2.2⟩
  · have h := styled_roundtrip M .StyledFloor (Or.inl rfl) d m f l hrest
    exact ⟨h.2.2.1, h.2.2.2⟩
  · have h := styled_roundtrip M .StyledWall (Or.inr rfl) d m f l hrest
    exact ⟨h.2.2.1, h.2.2.2⟩
  · have h := cloner_roundtrip M d m f l hrest
    exact ⟨h.2.2.1, h.2.2.2⟩
  · have h := tracks_roundtrip M hM d m f l hrest
    exact ⟨h.2.2.1, h.2.2.2⟩
  · rcases hrest with hc | hB
    · exact absurd hc (hcnt rfl)
    · have h := gate_roundtrip M d m f l hm hB
      exact ⟨h.2.2.1, h.2.2.2⟩

/-- A TrainTracks tile with mask `0x21` under four rotations. -/
theorem rotate_four_of_normal_witness :
    (rotateRightTile TileModifier.cc2Format)^[4] ⟨.TrainTracks, 0, 0x21, 0, none⟩
        = ⟨.TrainTracks, 0, 0x21, 0, none⟩ ∧
      (rotateLeftTile TileModifier.cc2Format)^[4] ⟨.TrainTracks, 0, 0x21, 0, none⟩
        = ⟨.TrainTracks, 0, 0x21, 0, none⟩ :=
  rotate_four_of_normal TileModifier.cc2Format ⟨.TrainTracks, 0, 0x21, 0, none⟩ (by decide)
    (by decide) ⟨fun h => absurd h (by decide), by decide⟩ (by decide)
    (fun h => absurd h (by decide))

/-! ### The remaining rotation rules -/

/-- C11: Switch toggle.  For either rotation sign, rotating a `Switch_Off` tile yields type
`Switch_On` and rotating a `Switch_On` tile yields type `Switch_Off`; so two consecutive
rotations, in any combination of signs, return a switch to its original type, while a
single rotation never does. -/
theorem switch_toggle (M : TileModifier) (t : Tile)
    (hty : t.type = .Switch_Off ∨ t.type = .Switch_On) :
    (t.type = .Switch_Off →
        (rotateRightTile M t).type = .Switch_On ∧ (rotateLeftTile M t).type = .Switch_On) ∧
      (t.type = .Switch_On →
        (rotateRightTile M t).type = .Switch_Off ∧ (rotateLeftTile M t).type = .Switch_Off) ∧
      ((rotateRightTile M (rotateRightTile M t)).type = t.type ∧
        (rotateLeftTile M (rotateRightTile M t)).type = t.type ∧
        (rotateRightTile M (rotateLeftTile M t)).type = t.type ∧
        (rotateLeftTile M (rotateLeftTile M t)).type = t.type) ∧
      ((rotateRightTile M t).type ≠ t.type ∧ (rotateLeftTile M t).type ≠ t.type) := by
  obtain ⟨ty, d, m, f, l⟩ := t
  simp only at hty
  rcases hty with rfl | rfl
  · exact ⟨fun _ => ⟨rfl, rfl⟩, fun h => TileType.noConfusion h, ⟨rfl, rfl, rfl, rfl⟩,
      ⟨fun h => TileType.noConfusion h, fun h => TileType.noConfusion h⟩⟩
  · exact ⟨fun h => TileType.noConfusion h, fun _ => ⟨rfl, rfl⟩, ⟨rfl, rfl, rfl, rfl⟩,
      ⟨fun h => TileType.noConfusion h, fun h => TileType.noConfusion h⟩⟩

/-- A `Switch_Off` tile under one and under two rotations. -/
theorem switch_toggle_witness :
    ((rotateRightTile TileModifier.cc2Format ⟨.Switch_Off, 0, 0, 0, none⟩).type = .Switch_On ∧
        (rotateLeftTile TileModifier.cc2Format ⟨.Switch_Off, 0, 0, 0, none⟩).type
          = .Switch_On) ∧
      (rotateLeftTile TileModifier.cc2Format
        (rotateRightTile TileModifier.cc2Format ⟨.Switch_Off, 0, 0, 0, none⟩)).type
          = .Switch_Off :=
  have h := switch_toggle TileModifier.cc2Format ⟨.Switch_Off, 0, 0, 0, none⟩ (Or.inl rfl)
  ⟨h.1 rfl, h.2.2.1.2.1⟩

/-- C12: flag-nibble rule.  For every PanelCanopy or DirBlock tile with flag byte `f`,
`rotateRight` sets the flags to `rol4 f` and `rotateLeft` sets them to `ror4 f`: the four
directional flag bits are rotated circularly and the high nibble of the flags is preserved;
the type and the modifier are unchanged. -/
theorem flag_nibble_rule (M : TileModifier) (t : Tile)
    (hty : t.type = .PanelCanopy ∨ t.type = .DirBlock) (hf : t.tileFlags < 2 ^ 8) :
    ((rotateRightTile M t).tileFlags = rol4 t.tileFlags ∧
        (∀ i, i < 4 → (rotateRightTile M t).tileFlags.testBit ((i + 1) % 4)
          = t.tileFlags.testBit i) ∧
        (rotateRightTile M t).tileFlags / 16 = t.tileFlags / 16 ∧
        (rotateRightTile M t).type = t.type ∧
        (rotateRightTile M t).modifier = t.modifier) ∧
      ((rotateLeftTile M t).tileFlags = ror4 t.tileFlags ∧
        (∀ i, i < 4 → (rotateLeftTile M t).tileFlags.testBit i
          = t.tileFlags.testBit ((i + 1) % 4)) ∧
        (rotateLeftTile M t).tileFlags / 16 = t.tileFlags / 16 ∧
        (rotateLeftTile M t).type = t.type ∧
        (rotateLeftTile M t).modifier = t.modifier) := by
  obtain ⟨ty, d, m, f, l⟩ := t
  simp only at hty hf
  obtain ⟨hR, hL⟩ := flags_step M ty hty d m f l hf
  obtain ⟨r1, -, r3⟩ := rol4_byte_facts f hf
  obtain ⟨l1, -, l3⟩ := ror4_byte_facts f hf
  rw [hR, hL]
  exact ⟨⟨rfl, r3, r1, rfl, rfl⟩, ⟨rfl, l3, l1, rfl, rfl⟩⟩

/-- A canopy with a north panel, flag byte `0x11`, under the two rotations. -/
theorem flag_nibble_rule_witness :
    (rotateRightTile TileModifier.cc2Format ⟨.PanelCanopy, 0, 0, 0x11, none⟩).tileFlags
        = rol4 0x11 ∧
      (rotateLeftTile TileModifier.cc2Format ⟨.PanelCanopy, 0, 0, 0x11, none⟩).tileFlags
        = ror4 0x11 :=
  have h := flag_nibble_rule TileModifier.cc2Format ⟨.PanelCanopy, 0, 0, 0x11, none⟩
    (Or.inl rfl) (by decide)
  ⟨h.1.1, h.2.1⟩

/-- C13: theme rule.  For every StyledFloor or StyledWall tile with theme modifier `t` in
`0..3`, `rotateRight` sets the modifier to `(t + 1) % 4` and `rotateLeft` sets it to
`(t + 3) % 4`; and for every 32-bit modifier the resulting modifier lies in `0..3`. -/
theorem theme_rule (M : TileModifier) (t : Tile)
    (hty : t.type = .StyledFloor ∨ t.type = .StyledWall) (hm : t.modifier < 2 ^ 32) :
    (t.modifier < 4 →
        (rotateRightTile M t).modifier = (t.modifier + 1) % 4 ∧
        (rotateLeftTile M t).modifier = (t.modifier + 3) % 4) ∧
      (rotateRightTile M t).modifier < 4 ∧ (rotateLeftTile M t).modifier < 4 := by
  obtain ⟨ty, d, m, f, l⟩ := t
  simp only at hty hm
  obtain ⟨hR, hL⟩ := styled_step M ty hty d m f l
  rw [hR, hL]
  simp only
  omega

/-- A StyledWall with theme 3, and a StyledFloor with modifier `0xffffffff`. -/
theorem theme_rule_witness :
    ((rotateRightTile TileModifier.cc2Format ⟨.StyledWall, 0, 3, 0, none⟩).modifier
        = (3 + 1) % 4 ∧
      (rotateLeftTile TileModifier.cc2Format ⟨.StyledWall, 0, 3, 0, none⟩).modifier
        = (3 + 3) % 4) ∧
    (rotateRightTile TileModifier.cc2Format ⟨.StyledFloor, 0, 0xffffffff, 0, none⟩).modifier
      < 4 :=
  ⟨(theme_rule TileModifier.cc2Format ⟨.StyledWall, 0, 3, 0, none⟩ (Or.inr rfl)
      (by decide)).1 (by decide),
    (theme_rule TileModifier.cc2Format ⟨.StyledFloor, 0, 0xffffffff, 0, none⟩ (Or.inl rfl)
      (by decide)).2.1⟩

/-- C14: Cloner rule.  For every Cloner tile whose direction mask `m` fits in one byte,
`rotateRight` sets the modifier to `rol4 m` and `rotateLeft` sets it to `ror4 m` (the four
clone-direction bits rotate circularly, bits 4..7 are preserved), so four rotations of the
same sign restore the tile and rotations of opposite signs cancel. -/
theorem cloner_rule (M : TileModifier) (t : Tile) (hty : t.type = .Cloner)
    (hm : t.modifier < 2 ^ 8) :
    ((rotateRightTile M t).modifier = rol4 t.modifier ∧
        (∀ i, i < 4 → (rotateRightTile M t).modifier.testBit ((i + 1) % 4)
          = t.modifier.testBit i) ∧
        (rotateRightTile M t).modifier / 16 = t.modifier / 16) ∧
      ((rotateLeftTile M t).modifier = ror4 t.modifier ∧
        (∀ i, i < 4 → (rotateLeftTile M t).modifier.testBit i
          = t.modifier.testBit ((i + 1) % 4)) ∧
        (rotateLeftTile M t).modifier / 16 = t.modifier / 16) ∧
      ((rotateRightTile M)^[4] t = t ∧ (rotateLeftTile M)^[4] t = t) ∧
      (rotateLeftTile M (rotateRightTile M t) = t ∧
        rotateRightTile M (rotateLeftTile M t) = t) := by
  obtain ⟨ty, d, m, f, l⟩ := t
  simp only at hty hm
  subst hty
  obtain ⟨hR, hL⟩ := cloner_step M d m f l hm
  obtain ⟨r1, -, r3⟩ := rol4_byte_facts m hm
  obtain ⟨l1, -, l3⟩ := ror4_byte_facts m hm
  obtain ⟨hRL, hLR, hR4, hL4⟩ := cloner_roundtrip M d m f l hm
  rw [hR, hL]
  exact ⟨⟨rfl, r3, r1⟩, ⟨rfl, l3, l1⟩, ⟨hR4, hL4⟩, by rw [← hR]; exact hRL,
    by rw [← hL]; exact hLR⟩

/-- A Cloner with mask `0x08` (west), whose right rotation wraps to `0x01` (north). -/
theorem cloner_rule_witness :
    (rotateRightTile TileModifier.cc2Format ⟨.Cloner, 0, 0x08, 0, none⟩).modifier = rol4 0x08 ∧
      (rotateRightTile TileModifier.cc2Format)^[4] ⟨.Cloner, 0, 0x08, 0, none⟩
        = ⟨.Cloner, 0, 0x08, 0, none⟩ :=
  have h := cloner_rule TileModifier.cc2Format ⟨.Cloner, 0, 0x08, 0, none⟩ rfl (by decide)
  ⟨h.1.1, h.2.2.1.1⟩

/-- C15: for every tile whose type is none of Floor, PanelCanopy, DirBlock, StyledFloor,
StyledWall, Cloner, the four ice corners, the four force floors, the four revolving doors,
TrainTracks, Switch_Off, Switch_On and LogicGate, `rotateLeft` and `rotateRight` leave the
type, the modifier and the flags unchanged: only the direction changes, and only when the
tile has a direction. -/
theorem other_types_keep_state (M : TileModifier) (t : Tile)
    (hty : t.type ∉ [TileType.Floor, .PanelCanopy, .DirBlock, .StyledFloor, .StyledWall,
      .Cloner, .Ice_NE, .Ice_SE, .Ice_SW, .Ice_NW, .Force_N, .Force_E, .Force_S, .Force_W,
      .RevolvDoor_SW, .RevolvDoor_NW, .RevolvDoor_NE, .RevolvDoor_SE, .TrainTracks,
      .Switch_Off, .Switch_On, .LogicGate]) :
    (rotateRightTile M t
        = { t with direction := if t.haveDirection then (t.direction + 1) % 4
                                else t.direction } ∧
      rotateLeftTile M t
        = { t with direction := if t.haveDirection then (t.direction + 3) % 4
                                else t.direction }) ∧
    ((rotateRightTile M t).type = t.type ∧ (rotateRightTile M t).modifier = t.modifier ∧
      (rotateRightTile M t).tileFlags = t.tileFlags) ∧
    ((rotateLeftTile M t).type = t.type ∧ (rotateLeftTile M t).modifier = t.modifier ∧
      (rotateLeftTile M t).tileFlags = t.tileFlags) ∧
    (t.haveDirection = false → rotateRightTile M t = t ∧ rotateLeftTile M t = t) := by
  obtain ⟨ty, d, m, f, l⟩ := t
  simp only at hty
  have key : rotateRightTile M ⟨ty, d, m, f, l⟩
        = ⟨ty, if ty.haveDirection then (d + 1) % 4 else d, m, f, l⟩ ∧
      rotateLeftTile M ⟨ty, d, m, f, l⟩
        = ⟨ty, if ty.haveDirection then (d + 3) % 4 else d, m, f, l⟩ := by
    cases ty <;> first | exact ⟨rfl, rfl⟩ | exact absurd hty (by decide)
  refine ⟨key, ?_, ?_, ?_⟩
  · rw [key.1]; exact ⟨rfl, rfl, rfl⟩
  · rw [key.2]; exact ⟨rfl, rfl, rfl⟩
  · intro h
    have h' : ty.haveDirection = false := h
    rw [key.1, key.2]
    simp only [h', Bool.false_eq_true, if_false, and_self]

/-- A Wall is left as it is, and a Ghost facing West only turns. -/
theorem other_types_keep_state_witness :
    (rotateRightTile TileModifier.cc2Format ⟨.Wall, 0, 5, 6, none⟩ = ⟨.Wall, 0, 5, 6, none⟩ ∧
      rotateLeftTile TileModifier.cc2Format ⟨.Wall, 0, 5, 6, none⟩ = ⟨.Wall, 0, 5, 6, none⟩) ∧
    ((rotateRightTile TileModifier.cc2Format ⟨.Ghost, 3, 5, 6, none⟩).type = .Ghost ∧
      (rotateRightTile TileModifier.cc2Format ⟨.Ghost, 3, 5, 6, none⟩).modifier = 5 ∧
      (rotateRightTile TileModifier.cc2Format ⟨.Ghost, 3, 5, 6, none⟩).tileFlags = 6) :=
  ⟨(other_types_keep_state TileModifier.cc2Format ⟨.Wall, 0, 5, 6, none⟩ (by decide)).2.2.2 rfl,
    (other_types_keep_state TileModifier.cc2Format ⟨.Ghost, 3, 5, 6, none⟩ (by decide)).2.1⟩

/-! ### The renderer -/

/-- The blits of a tile with a lower layer: those of the lower layer, then its own. -/
theorem drawAt_some (D : TileModel) (ts : CC2ETileset) (x y : Int) (tile lower : Tile)
    (h : tile.lower = some lower) :
    drawAt D ts x y tile = drawAt D ts x y lower ++ drawBase D ts x y tile := by
  obtain ⟨ty, d, m, f, l⟩ := tile
  simp only at h
  subst h
  rw [drawAt]

/-- The blits of a tile without a lower layer are its own. -/
theorem drawAt_none (D : TileModel) (ts : CC2ETileset) (x y : Int) (tile : Tile)
    (h : tile.lower = none) :
    drawAt D ts x y tile = drawBase D ts x y tile := by
  obtain ⟨ty, d, m, f, l⟩ := tile
  simp only at h
  subst h
  rw [drawAt]

/-- The chain of a tile with a lower layer. -/
theorem chain_some (tile lower : Tile) (h : tile.lower = some lower) :
    tile.chain = tile :: lower.chain := by
  obtain ⟨ty, d, m, f, l⟩ := tile
  simp only at h
  subst h
  rw [Tile.chain]

/-- The chain of a tile without a lower layer. -/
theorem chain_none (tile : Tile) (h : tile.lower = none) : tile.chain = [tile] := by
  obtain ⟨ty, d, m, f, l⟩ := tile
  simp only at h
  subst h
  rw [Tile.chain]

/-- The renderer draws the chain of layers of a tile from the bottom-most layer up. -/
theorem drawAt_eq_chain (D : TileModel) (ts : CC2ETileset) (x y : Int) :
    ∀ tile : Tile, drawAt D ts x y tile = (tile.chain.reverse.map (drawBase D ts x y)).flatten
  | ⟨ty, d, m, f, some lower⟩ => by
    rw [drawAt_some D ts x y _ lower rfl, chain_some _ lower rfl, drawAt_eq_chain D ts x y lower]
    simp
  | ⟨ty, d, m, f, none⟩ => by
    rw [drawAt_none D ts x y _ rfl, chain_none _ rfl]
    simp

/-- C16: layer order.  For every tile with a lower layer present, the blit sequence of
`drawAt` is exactly the full blit sequence of `drawAt` on the lower layer followed by the
tile's own blits, so every blit of the lower layer comes before any blit of the tile
itself; and for every tile (the chain of lower layers being finite) the layers are drawn
bottom-most first. -/
theorem layer_order (D : TileModel) (ts : CC2ETileset) (x y : Int) (tile lower : Tile)
    (h : tile.lower = some lower) :
    tile.haveLower = true ∧
      drawAt D ts x y tile = drawAt D ts x y lower ++ drawBase D ts x y tile ∧
      (drawAt D ts x y tile).take (drawAt D ts x y lower).length = drawAt D ts x y lower ∧
      (drawAt D ts x y tile).drop (drawAt D ts x y lower).length = drawBase D ts x y tile ∧
      tile.chain = tile :: lower.chain ∧
      drawAt D ts x y tile = (tile.chain.reverse.map (drawBase D ts x y)).flatten := by
  have h1 := drawAt_some D ts x y tile lower h
  refine ⟨?_, h1, ?_, ?_, chain_some tile lower h, drawAt_eq_chain D ts x y tile⟩
  · simp [Tile.haveLower, h]
  · rw [h1]; simp
  · rw [h1]; simp

/-- An ice block on water on a floor: the floor is drawn first, then the water, then the
block and its arrow. -/
theorem layer_order_witness :
    drawAt TileModel.cc2Format ⟨32⟩ 5 7
        ⟨.IceBlock, Tile.North, 0, 0, some ⟨.Water, 0, 0, 0, some ⟨.Floor, 0, 0, 0, none⟩⟩⟩
      = [.full 5 7 .G_Floor, .full 5 7 .G_Water] ++
          [.full 5 7 .G_IceBlock, .part 13 7 .G_GlyphArrows 0 0 0 16 16] :=
  (layer_order TileModel.cc2Format ⟨32⟩ 5 7
    ⟨.IceBlock, Tile.North, 0, 0, some ⟨.Water, 0, 0, 0, some ⟨.Floor, 0, 0, 0, none⟩⟩⟩
    ⟨.Water, 0, 0, 0, some ⟨.Floor, 0, 0, 0, none⟩⟩ rfl).2.1

/-- The own blits of an AsciiGlyph tile are the frame followed by the blits of `drawGlyph`. -/
theorem drawBase_asciiGlyph (D : TileModel) (ts : CC2ETileset) (x y : Int) (tile : Tile)
    (hty : tile.type = .AsciiGlyph) :
    drawBase D ts x y tile
      = .full x y .G_AsciiGlyphFrame :: drawGlyph D ts x y tile.modifier := by
  obtain ⟨ty, d, m, f, l⟩ := tile
  simp only at hty
  subst hty
  rfl

/-- A glyph below `GlyphMIN` or above `GlyphMAX` is drawn as the frame followed by the invalid
marker, with no sub-rectangle blit. -/
theorem glyph_outside_closed_range (D : TileModel) (ts : CC2ETileset) (x y : Int) (tile : Tile)
    (hty : tile.type = .AsciiGlyph)
    (hg : tile.modifier < D.modifier.GlyphMIN ∨ D.modifier.GlyphMAX < tile.modifier) :
    drawBase D ts x y tile = [.full x y .G_AsciiGlyphFrame, .full x y .G_InvalidBase] := by
  rw [drawBase_asciiGlyph D ts x y tile hty, drawGlyph, if_pos hg]

/-- The glyph `GlyphMAX` itself passes the range check of `drawGlyph` whenever
`GlyphMIN ≤ GlyphMAX`: a quadrant is drawn and no invalid marker. -/
theorem glyph_at_max_general (D : TileModel) (ts : CC2ETileset) (x y : Int) (tile : Tile)
    (hty : tile.type = .AsciiGlyph) (hD : D.modifier.GlyphMIN ≤ D.modifier.GlyphMAX)
    (hg : tile.modifier = D.modifier.GlyphMAX) :
    drawBase D ts x y tile
      = [.full x y .G_AsciiGlyphFrame,
          .part (x + ↑(ts.size / 4)) (y + ↑(ts.size / 4)) .G_GlyphArrows
            ((D.modifier.GlyphMAX - D.modifier.GlyphMIN) / 4)
            (D.modifier.GlyphMAX % 2 * (ts.size / 2))
            (D.modifier.GlyphMAX / 2 % 2 * (ts.size / 2)) (ts.size / 2) (ts.size / 2)] := by
  have hin : ¬ (tile.modifier < D.modifier.GlyphMIN ∨ tile.modifier > D.modifier.GlyphMAX) := by
    omega
  rw [drawBase_asciiGlyph D ts x y tile hty, drawGlyph, if_neg hin, hg]

/-- C17, counterexample: an AsciiGlyph tile whose modifier is `GlyphMAX` (`0x5f` with the
values of the CC2 map format), a value outside the half-open range `[GlyphMIN, GlyphMAX)`,
is drawn as the frame followed by a glyph quadrant, not by the invalid marker. -/
theorem glyph_at_max_draws_quadrant :
    drawAt TileModel.cc2Format ⟨32⟩ 0 0
        ⟨.AsciiGlyph, 0, TileModifier.cc2Format.GlyphMAX, 0, none⟩
      = [.full 0 0 .G_AsciiGlyphFrame, .part 8 8 .G_GlyphArrows 16 16 16 16 16] ∧
      Blit.full 0 0 .G_InvalidBase ∉ drawAt TileModel.cc2Format ⟨32⟩ 0 0
        ⟨.AsciiGlyph, 0, TileModifier.cc2Format.GlyphMAX, 0, none⟩ := by
  decide

/-- C17, amended: glyph range check.  For every AsciiGlyph tile whose modifier `g` is
outside the closed range `[GlyphMIN, GlyphMAX]`, that is `g < GlyphMIN` or `g > GlyphMAX`,
the own blits are the frame sprite and then the invalid marker at `(x, y)`, none of them a
sub-rectangle blit, and they are all that `drawAt` blits when there is no lower layer.  For
`GlyphMIN ≤ g ≤ GlyphMAX`, `GlyphMAX` included, the invalid marker is not drawn and the
frame is followed by one sub-rectangle blit. -/
theorem glyph_range_check (D : TileModel) (ts : CC2ETileset) (x y : Int) (tile : Tile)
    (hty : tile.type = .AsciiGlyph) :
    (tile.modifier < D.modifier.GlyphMIN ∨ D.modifier.GlyphMAX < tile.modifier →
      drawBase D ts x y tile = [.full x y .G_AsciiGlyphFrame, .full x y .G_InvalidBase] ∧
        (∀ b ∈ drawBase D ts x y tile, ∃ g, b = .full x y g) ∧
        (tile.lower = none →
          drawAt D ts x y tile
            = [.full x y .G_AsciiGlyphFrame, .full x y .G_InvalidBase])) ∧
    (D.modifier.GlyphMIN ≤ tile.modifier ∧ tile.modifier ≤ D.modifier.GlyphMAX →
      Blit.full x y .G_InvalidBase ∉ drawBase D ts x y tile ∧
        ∃ k sx sy, drawBase D ts x y tile
          = [.full x y .G_AsciiGlyphFrame,
              .part (x + ↑(ts.size / 4)) (y + ↑(ts.size / 4)) .G_GlyphArrows k sx sy
                (ts.size / 2) (ts.size / 2)]) := by
  constructor
  · intro hg
    have h : drawBase D ts x y tile
        = [.full x y .G_AsciiGlyphFrame, .full x y .G_InvalidBase] := by
      rw [drawBase_asciiGlyph D ts x y tile hty, drawGlyph, if_pos hg]
    refine ⟨h, ?_, fun hl => ?_⟩
    · intro b hb
      rw [h] at hb
      simp only [List.mem_cons, List.mem_singleton, List.not_mem_nil, or_false] at hb
      rcases hb with rfl | rfl
      · exact ⟨_, rfl⟩
      · exact ⟨_, rfl⟩
    · rw [drawAt_none D ts x y tile hl, h]
  · intro hg
    have hin : ¬ (tile.modifier < D.modifier.GlyphMIN ∨
        tile.modifier > D.modifier.GlyphMAX) := by
      omega
    have h : drawBase D ts x y tile
        = [.full x y .G_AsciiGlyphFrame,
            .part (x + ↑(ts.size / 4)) (y + ↑(ts.size / 4)) .G_GlyphArrows
              ((tile.modifier - D.modifier.GlyphMIN) / 4)
              (tile.modifier % 2 * (ts.size / 2))
              (tile.modifier / 2 % 2 * (ts.size / 2)) (ts.size / 2) (ts.size / 2)] := by
      rw [drawBase_asciiGlyph D ts x y tile hty, drawGlyph, if_neg hin]
    refine ⟨?_, _, _, _, h⟩
    rw [h]
    intro hmem
    simp only [List.mem_cons, List.mem_singleton, List.not_mem_nil, or_false] at hmem
    rcases hmem with h1 | h1
    · exact absurd (Blit.full.inj h1).2.2 (by decide)
    · exact Blit.noConfusion h1

/-- With the values of the CC2 map format, the glyphs `0x60`, one above `GlyphMAX`, and
`0x1b`, one below `GlyphMIN`. -/
theorem glyph_range_check_witness :
    drawAt TileModel.cc2Format ⟨32⟩ 0 0 ⟨.AsciiGlyph, 0, 0x60, 0, none⟩
        = [.full 0 0 .G_AsciiGlyphFrame, .full 0 0 .G_InvalidBase] ∧
      drawAt TileModel.cc2Format ⟨32⟩ 0 0 ⟨.AsciiGlyph, 0, 0x1b, 0, none⟩
        = [.full 0 0 .G_AsciiGlyphFrame, .full 0 0 .G_InvalidBase] :=
  ⟨((glyph_range_check TileModel.cc2Format ⟨32⟩ 0 0 ⟨.AsciiGlyph, 0, 0x60, 0, none⟩ rfl).1
      (by decide)).2.2 rfl,
    ((glyph_range_check TileModel.cc2Format ⟨32⟩ 0 0 ⟨.AsciiGlyph, 0, 0x1b, 0, none⟩ rfl).1
      (by decide)).2.2 rfl⟩

/-- C18: glyph selection.  For every AsciiGlyph tile whose modifier `g` is inside the glyph
range, the tile's blits are the frame sprite at `(x, y)` and then exactly one sub-rectangle
blit: from sprite id `G_GlyphArrows + (g - GlyphMIN) / 4`, source rectangle with origin
`((g % 2) * (size / 2), ((g / 2) % 2) * (size / 2))` and edge `size / 2`, drawn at
destination `(x + size / 4, y + size / 4)`. -/
theorem glyph_selection (D : TileModel) (ts : CC2ETileset) (x y : Int) (tile : Tile)
    (hty : tile.type = .AsciiGlyph)
    (hg : D.modifier.GlyphMIN ≤ tile.modifier ∧ tile.modifier ≤ D.modifier.GlyphMAX) :
    drawBase D ts x y tile
        = [.full x y .G_AsciiGlyphFrame,
            .part (x + ↑(ts.size / 4)) (y + ↑(ts.size / 4)) .G_GlyphArrows
              ((tile.modifier - D.modifier.GlyphMIN) / 4)
              (tile.modifier % 2 * (ts.size / 2))
              (tile.modifier / 2 % 2 * (ts.size / 2)) (ts.size / 2) (ts.size / 2)] ∧
      (tile.lower = none → drawAt D ts x y tile = drawBase D ts x y tile) := by
  have hin : ¬ (tile.modifier < D.modifier.GlyphMIN ∨ tile.modifier > D.modifier.GlyphMAX) := by
    omega
  refine ⟨?_, drawAt_none D ts x y tile⟩
  rw [drawBase_asciiGlyph D ts x y tile hty, drawGlyph, if_neg hin]

/-- The glyph `A` (`0x41`) with sprites of edge 32. -/
theorem glyph_selection_witness :
    drawBase TileModel.cc2Format ⟨32⟩ 3 4 ⟨.AsciiGlyph, 0, 0x41, 0, none⟩
      = [.full 3 4 .G_AsciiGlyphFrame, .part 11 12 .G_GlyphArrows 9 16 0 16 16] :=
  (glyph_selection TileModel.cc2Format ⟨32⟩ 3 4 ⟨.AsciiGlyph, 0, 0x41, 0, none⟩ rfl
    (by decide)).1

/-- With a direction North, East, South or West a direction-bearing type blits its sprite
for that direction, after the underlay of a mirror player. -/
theorem directional_valid (D : TileModel) (ts : CC2ETileset) (x y : Int)
    (ty : TileType) (d m f : Nat) (l : Option Tile)
    (hty : ty ∈ [TileType.Player, .Player2, .MirrorPlayer, .MirrorPlayer2, .Ship,
      .BlueTank, .YellowTank, .Ant, .Centipede, .Rover, .Ghost]) (hd : d < 4) :
    drawBase D ts x y ⟨ty, d, m, f, l⟩
      = mirrorUnderlay x y ty ++ [.full x y (facingSprite ty d)] := by
  have hd' : d = 0 ∨ d = 1 ∨ d = 2 ∨ d = 3 := by omega
  simp only [List.mem_cons, List.mem_singleton, List.not_mem_nil, or_false] at hty
  rcases hty with rfl | rfl | rfl | rfl | rfl | rfl | rfl | rfl | rfl | rfl | rfl <;>
    rcases hd' with rfl | rfl | rfl | rfl <;> rfl

/-- A chain of tests of a direction value that is none of North, East, South, West ends in
its `default` branch. -/
theorem direction_switch_default {α : Type} (d : Nat) (hd : ¬ d < 4) (n e s w dflt : α) :
    (if d = Tile.North then n else if d = Tile.East then e else if d = Tile.South then s
      else if d = Tile.West then w else dflt) = dflt := by
  have h0 : d ≠ Tile.North := by unfold Tile.North; omega
  have h1 : d ≠ Tile.East := by unfold Tile.East; omega
  have h2 : d ≠ Tile.South := by unfold Tile.South; omega
  have h3 : d ≠ Tile.West := by unfold Tile.West; omega
  rw [if_neg h0, if_neg h1, if_neg h2, if_neg h3]

/-- With any other direction value a direction-bearing type blits its default-facing sprite
and the invalid marker, after the underlay of a mirror player. -/
theorem directional_invalid (D : TileModel) (ts : CC2ETileset) (x y : Int)
    (ty : TileType) (d m f : Nat) (l : Option Tile)
    (hty : ty ∈ [TileType.Player, .Player2, .MirrorPlayer, .MirrorPlayer2, .Ship,
      .BlueTank, .YellowTank, .Ant, .Centipede, .Rover, .Ghost]) (hd : ¬ d < 4) :
    drawBase D ts x y ⟨ty, d, m, f, l⟩
      = mirrorUnderlay x y ty ++
          [.full x y (facingSprite ty (defaultFacing ty)), .full x y .G_InvalidBase] := by
  simp only [List.mem_cons, List.mem_singleton, List.not_mem_nil, or_false] at hty
  rcases hty with rfl | rfl | rfl | rfl | rfl | rfl | rfl | rfl | rfl | rfl | rfl
  · exact direction_switch_default d hd _ _ _ _ _
  · exact direction_switch_default d hd _ _ _ _ _
  · exact congrArg (fun r => Blit.full x y .G_MirrorPlayer_Underlay :: r)
      (direction_switch_default d hd _ _ _ _ _)
  · exact congrArg (fun r => Blit.full x y .G_MirrorPlayer_Underlay :: r)
      (direction_switch_default d hd _ _ _ _ _)
  all_goals exact direction_switch_default d hd _ _ _ _ _

/-- The sprites of the direction-bearing types are not the invalid marker. -/
theorem facingSprite_ne_invalid (ty : TileType) (d : Nat)
    (hty : ty ∈ [TileType.Player, .Player2, .MirrorPlayer, .MirrorPlayer2, .Ship,
      .BlueTank, .YellowTank, .Ant, .Centipede, .Rover, .Ghost]) (hd : d < 4) :
    facingSprite ty d ≠ .G_InvalidBase := by
  have hd' : d = 0 ∨ d = 1 ∨ d = 2 ∨ d = 3 := by omega
  simp only [List.mem_cons, List.mem_singleton, List.not_mem_nil, or_false] at hty
  rcases hty with rfl | rfl | rfl | rfl | rfl | rfl | rfl | rfl | rfl | rfl | rfl <;>
    rcases hd' with rfl | rfl | rfl | rfl <;> decide

/-- The only blit of the mirror underlay is the underlay sprite. -/
theorem mem_mirrorUnderlay (x y : Int) (ty : TileType) (b : Blit)
    (h : b ∈ mirrorUnderlay x y ty) : b = .full x y .G_MirrorPlayer_Underlay := by
  unfold mirrorUnderlay at h
  split at h <;> simp at h <;> exact h

/-- C19: directional sprites.  For every tile of type Player, Player2, MirrorPlayer,
MirrorPlayer2, Ship, BlueTank, YellowTank, Ant, Centipede, Rover or Ghost, if the direction is
North, East, South or West the tile's own blits end with exactly the sprite of that type for
that direction and contain no invalid marker; for any other direction value they end with
the default-facing sprite of the type followed by the invalid marker.  The mirror players
blit the mirror underlay first. -/
theorem directional_sprites (D : TileModel) (ts : CC2ETileset) (x y : Int) (tile : Tile)
    (hty : tile.type ∈ [TileType.Player, .Player2, .MirrorPlayer, .MirrorPlayer2, .Ship,
      .BlueTank, .YellowTank, .Ant, .Centipede, .Rover, .Ghost]) :
    (tile.direction < 4 →
        drawBase D ts x y tile
          = mirrorUnderlay x y tile.type ++ [.full x y (facingSprite tile.type tile.direction)] ∧
        Blit.full x y .G_InvalidBase ∉ drawBase D ts x y tile) ∧
      (¬ tile.direction < 4 →
        drawBase D ts x y tile
          = mirrorUnderlay x y tile.type ++
              [.full x y (facingSprite tile.type (defaultFacing tile.type)),
                .full x y .G_InvalidBase]) := by
  obtain ⟨ty, d, m, f, l⟩ := tile
  simp only at hty
  constructor
  · intro hd
    have h := directional_valid D ts x y ty d m f l hty hd
    refine ⟨h, ?_⟩
    rw [h, List.mem_append, List.mem_singleton]
    rintro (hu | hs)
    · have := mem_mirrorUnderlay x y ty _ hu
      simp at this
    · rw [Blit.full.injEq] at hs
      exact facingSprite_ne_invalid ty d hty hd hs.2.2.symm
  · intro hd
    exact directional_invalid D ts x y ty d m f l hty hd

/-- A MirrorPlayer facing East, and a Ship with the invalid direction value 7. -/
theorem directional_sprites_witness :
    drawBase TileModel.cc2Format ⟨32⟩ 0 0 ⟨.MirrorPlayer, Tile.East, 0, 0, none⟩
        = [.full 0 0 .G_MirrorPlayer_Underlay, .full 0 0 .G_Player_E] ∧
      drawBase TileModel.cc2Format ⟨32⟩ 0 0 ⟨.Ship, 7, 0, 0, none⟩
        = [.full 0 0 .G_Ship_N, .full 0 0 .G_InvalidBase] :=
  ⟨((directional_sprites TileModel.cc2Format ⟨32⟩ 0 0 ⟨.MirrorPlayer, Tile.East, 0, 0, none⟩
      (by decide)).1 (by decide)).1,
    (directional_sprites TileModel.cc2Format ⟨32⟩ 0 0 ⟨.Ship, 7, 0, 0, none⟩
      (by decide)).2 (by decide)⟩

/-- The always-wired types that have a case in `drawAt` (Teleport_Red, Teleport_Blue,
LogicSwitch, RevLogicButton, Switch_Off and Switch_On) blit the wire fill and then their own
sprite. -/
theorem wired_types_with_case (D : TileModel) (ts : CC2ETileset) (x y : Int) (tile : Tile)
    (g : Graphic) (hg : wiredSprite tile.type = some g) :
    drawBase D ts x y tile = [.full x y .G_WireFill, .full x y g] := by
  obtain ⟨ty, d, m, f, l⟩ := tile
  simp only at hg
  cases ty <;> first
    | exact Option.noConfusion hg
    | (simp only [wiredSprite, Option.some.injEq] at hg; subst hg; rfl)

/-- C20: the always-wired types.  The own blits of a tile of type Teleport_Red,
Teleport_Blue, LogicSwitch, LogicButton, RevLogicButton, Switch_Off or Switch_On are exactly
two full-cell blits at `(x, y)`: the wire fill first, then the own sprite of the type, which
is neither the wire fill nor the invalid marker; the invalid marker is not drawn, and
without a lower layer these two blits are all that `drawAt` blits.  `LogicButton` is read
as the enumerator that `drawAt` names `LogicSwitch`. -/
theorem always_wired (D : TileModel) (ts : CC2ETileset) (x y : Int) (tile : Tile)
    (hty : tile.type ∈ [TileType.Teleport_Red, .Teleport_Blue, .LogicSwitch,
      TileType.LogicButton, .RevLogicButton, .Switch_Off, .Switch_On]) :
    ∃ g, wiredSprite tile.type = some g ∧ g ≠ .G_WireFill ∧ g ≠ .G_InvalidBase ∧
      drawBase D ts x y tile = [.full x y .G_WireFill, .full x y g] ∧
      Blit.full x y .G_InvalidBase ∉ drawBase D ts x y tile ∧
      (tile.lower = none →
        drawAt D ts x y tile = [.full x y .G_WireFill, .full x y g]) := by
  have key : ∀ g, wiredSprite tile.type = some g → g ≠ .G_WireFill → g ≠ .G_InvalidBase →
      ∃ g, wiredSprite tile.type = some g ∧ g ≠ .G_WireFill ∧ g ≠ .G_InvalidBase ∧
        drawBase D ts x y tile = [.full x y .G_WireFill, .full x y g] ∧
        Blit.full x y .G_InvalidBase ∉ drawBase D ts x y tile ∧
        (tile.lower = none →
          drawAt D ts x y tile = [.full x y .G_WireFill, .full x y g]) := by
    intro g hg hw hi
    have h := wired_types_with_case D ts x y tile g hg
    refine ⟨g, hg, hw, hi, h, ?_, fun hl => ?_⟩
    · rw [h]
      intro hmem
      simp only [List.mem_cons, List.mem_singleton, List.not_mem_nil, or_false] at hmem
      rcases hmem with h1 | h1
      · exact absurd (Blit.full.inj h1).2.2 (by decide)
      · exact hi (Blit.full.inj h1).2.2.symm
    · rw [drawAt_none D ts x y tile hl, h]
  simp only [List.mem_cons, List.mem_singleton, List.not_mem_nil, or_false] at hty
  rcases hty with h | h | h | h | h | h | h
  · exact key .G_Teleport_Red (by rw [h]; rfl) (by decide) (by decide)
  · exact key .G_Teleport_Blue (by rw [h]; rfl) (by decide) (by decide)
  · exact key .G_LogicSwitch (by rw [h]; rfl) (by decide) (by decide)
  · exact key .G_LogicSwitch (by rw [h]; rfl) (by decide) (by decide)
  · exact key .G_RevLogicButton (by rw [h]; rfl) (by decide) (by decide)
  · exact key .G_Switch_Off (by rw [h]; rfl) (by decide) (by decide)
  · exact key .G_Switch_On (by rw [h]; rfl) (by decide) (by decide)

/-- A RevLogicButton tile and a tile of the type that the palette names LogicButton. -/
theorem always_wired_witness :
    (∃ g, wiredSprite .RevLogicButton = some g ∧
      drawBase TileModel.cc2Format ⟨32⟩ 0 0 ⟨.RevLogicButton, 0, 0, 0, none⟩
        = [.full 0 0 .G_WireFill, .full 0 0 g]) ∧
    (∃ g, wiredSprite TileType.LogicButton = some g ∧
      drawBase TileModel.cc2Format ⟨32⟩ 0 0 ⟨TileType.LogicButton, 0, 0, 0, none⟩
        = [.full 0 0 .G_WireFill, .full 0 0 g]) := by
  obtain ⟨g1, a1, -, -, b1, -⟩ :=
    always_wired TileModel.cc2Format ⟨32⟩ 0 0 ⟨.RevLogicButton, 0, 0, 0, none⟩ (by decide)
  obtain ⟨g2, a2, -, -, b2, -⟩ :=
    always_wired TileModel.cc2Format ⟨32⟩ 0 0 ⟨TileType.LogicButton, 0, 0, 0, none⟩
      (by decide)
  exact ⟨⟨g1, a1, b1⟩, ⟨g2, a2, b2⟩⟩

/-! ### The renderer: wiring, panels, gates, arrows, themes and the fallback -/

/-- C21: Floor and SteelWall wiring.  The own blits of a Floor tile are
`[WireFill, Floor_Wire4]` when the modifier is not zero and `[Floor]` when it is zero; those
of a SteelWall tile are `[WireFill, SteelWall_Wire4]` and `[SteelWall]`.  Two tiles of the
same of these two types whose modifiers are both zero or both nonzero have the same own
blits, whatever their other fields. -/
theorem floor_steelWall_wiring (D : TileModel) (ts : CC2ETileset) (x y : Int) (tile : Tile) :
    (tile.type = .Floor →
      (tile.modifier ≠ 0 →
        drawBase D ts x y tile = [.full x y .G_WireFill, .full x y .G_Floor_Wire4]) ∧
      (tile.modifier = 0 → drawBase D ts x y tile = [.full x y .G_Floor])) ∧
    (tile.type = .SteelWall →
      (tile.modifier ≠ 0 →
        drawBase D ts x y tile = [.full x y .G_WireFill, .full x y .G_SteelWall_Wire4]) ∧
      (tile.modifier = 0 → drawBase D ts x y tile = [.full x y .G_SteelWall])) ∧
    (∀ other : Tile, tile.type = .Floor ∨ tile.type = .SteelWall →
      other.type = tile.type → (other.modifier = 0 ↔ tile.modifier = 0) →
      drawBase D ts x y other = drawBase D ts x y tile) := by
  obtain ⟨ty, d, m, f, l⟩ := tile
  refine ⟨?_, ?_, ?_⟩
  · intro h
    have h : ty = .Floor := h
    subst h
    exact ⟨fun h => if_pos h, fun h => if_neg (not_not.mpr h)⟩
  · intro h
    have h : ty = .SteelWall := h
    subst h
    exact ⟨fun h => if_pos h, fun h => if_neg (not_not.mpr h)⟩
  · rintro ⟨ty2, d2, m2, f2, l2⟩ hty h2 hz
    have h2 : ty2 = ty := h2
    subst h2
    have hz : m2 = 0 ↔ m = 0 := hz
    have hty : ty2 = .Floor ∨ ty2 = .SteelWall := hty
    rcases hty with rfl | rfl
    · show (if m2 ≠ 0 then _ else _) = (if m ≠ 0 then _ else _)
      by_cases h : m = 0
      · rw [if_neg (not_not.mpr h), if_neg (not_not.mpr (hz.mpr h))]
      · rw [if_pos h, if_pos (fun h2 => h (hz.mp h2))]
    · show (if m2 ≠ 0 then _ else _) = (if m ≠ 0 then _ else _)
      by_cases h : m = 0
      · rw [if_neg (not_not.mpr h), if_neg (not_not.mpr (hz.mpr h))]
      · rw [if_pos h, if_pos (fun h2 => h (hz.mp h2))]

/-- A Floor tile with modifier 1 and a SteelWall tile with modifier 0. -/
theorem floor_steelWall_wiring_witness :
    drawBase TileModel.cc2Format ⟨32⟩ 0 0 ⟨.Floor, 0, 1, 0, none⟩
        = [.full 0 0 .G_WireFill, .full 0 0 .G_Floor_Wire4] ∧
      drawBase TileModel.cc2Format ⟨32⟩ 0 0 ⟨.SteelWall, 0, 0, 0, none⟩
        = [.full 0 0 .G_SteelWall] :=
  ⟨((floor_steelWall_wiring TileModel.cc2Format ⟨32⟩ 0 0 ⟨.Floor, 0, 1, 0, none⟩).1 rfl).1
      (by decide),
    ((floor_steelWall_wiring TileModel.cc2Format ⟨32⟩ 0 0
      ⟨.SteelWall, 0, 0, 0, none⟩).2.1 rfl).2 rfl⟩

/-- The arrow sub-renderer blits once for a valid direction and nothing otherwise. -/
theorem drawArrow_length (ts : CC2ETileset) (x y : Int) (d : Nat) :
    (d < 4 → (drawArrow ts x y d).length = 1) ∧ (4 ≤ d → drawArrow ts x y d = []) := by
  constructor
  · intro h
    have h4 : d = 0 ∨ d = 1 ∨ d = 2 ∨ d = 3 := by omega
    rcases h4 with rfl | rfl | rfl | rfl <;> rfl
  · intro h
    unfold drawArrow
    rw [if_neg (by show ¬ d = 0; omega), if_neg (by show ¬ d = 1; omega),
      if_neg (by show ¬ d = 2; omega), if_neg (by show ¬ d = 3; omega)]

/-- C25: arrow-decorated types.  The own blits of a DirtBlock, IceBlock, Walker, Ball, Blob,
FloorMimic or FireBox tile are the base sprite of the type at `(x, y)`, in the x-ray variant
for DirtBlock and IceBlock exactly when there is a lower layer that needs x-ray, followed
by the output of `drawArrow` for the direction of the tile, which is one blit for North,
East, South and West and nothing for any other direction. -/
theorem arrow_decorated (D : TileModel) (ts : CC2ETileset) (x y : Int) (tile : Tile)
    (hty : tile.type ∈ [TileType.DirtBlock, .IceBlock, .Walker, .Ball, .Blob, .FloorMimic,
      .FireBox]) :
    drawBase D ts x y tile
        = .full x y (arrowBase tile.type (tile.lower.any D.needXray))
          :: drawArrow ts x y tile.direction ∧
      (tile.direction < 4 → (drawArrow ts x y tile.direction).length = 1) ∧
      (4 ≤ tile.direction → drawArrow ts x y tile.direction = []) := by
  refine ⟨?_, drawArrow_length ts x y tile.direction⟩
  obtain ⟨ty, d, m, f, l⟩ := tile
  have hx : ∀ a b : Graphic,
      (if ((Tile.mk ty d m f l).haveLower && l.any D.needXray) then [Blit.full x y a]
        else [Blit.full x y b]) = [Blit.full x y (if l.any D.needXray then a else b)] := by
    intro a b
    cases l with
    | none => rfl
    | some lower => cases hn : D.needXray lower <;> simp [Tile.haveLower, hn]
  simp only [List.mem_cons, List.mem_singleton, List.not_mem_nil, or_false] at hty
  rcases hty with h | h | h | h | h | h | h
  all_goals
    have h : ty = _ := h
    subst h
    first
      | rfl
      | exact congrArg (· ++ drawArrow ts x y d) (hx _ _)

/-- An IceBlock facing East, without lower layer, with sprites of edge 32. -/
theorem arrow_decorated_witness :
    drawBase TileModel.cc2Format ⟨32⟩ 0 0 ⟨.IceBlock, 1, 0, 0, none⟩
        = [.full 0 0 .G_IceBlock, .part 16 8 .G_GlyphArrows 0 16 0 16 16] := by
  have h := (arrow_decorated TileModel.cc2Format ⟨32⟩ 0 0 ⟨.IceBlock, 1, 0, 0, none⟩
    (by decide)).1
  exact h

/-- C26: the arrow sub-renderer.  With `h = size / 2` and `q = size / 4`, `drawArrow` blits
one `h` by `h` rectangle of the arrows sprite: for North the one with source origin
`(0, 0)` to `(x + q, y)`, for East `(h, 0)` to `(x + h, y + q)`, for South `(0, h)` to
`(x + q, y + h)`, for West `(h, h)` to `(x, y + q)`; for any other direction it blits
nothing.  When the size is at least 2, different valid directions take different source
origins. -/
theorem drawArrow_quadrants (ts : CC2ETileset) (x y : Int) :
    drawArrow ts x y Tile.North
        = [.part (x + ↑(ts.size / 4)) y .G_GlyphArrows 0 0 0 (ts.size / 2) (ts.size / 2)] ∧
      drawArrow ts x y Tile.East
        = [.part (x + ↑(ts.size / 2)) (y + ↑(ts.size / 4)) .G_GlyphArrows 0
            (ts.size / 2) 0 (ts.size / 2) (ts.size / 2)] ∧
      drawArrow ts x y Tile.South
        = [.part (x + ↑(ts.size / 4)) (y + ↑(ts.size / 2)) .G_GlyphArrows 0
            0 (ts.size / 2) (ts.size / 2) (ts.size / 2)] ∧
      drawArrow ts x y Tile.West
        = [.part x (y + ↑(ts.size / 4)) .G_GlyphArrows 0
            (ts.size / 2) (ts.size / 2) (ts.size / 2) (ts.size / 2)] ∧
      (∀ d : Nat, d ≠ Tile.North → d ≠ Tile.East → d ≠ Tile.South → d ≠ Tile.West →
        drawArrow ts x y d = []) ∧
      (2 ≤ ts.size → ∀ d₁ d₂ : Nat, d₁ < 4 → d₂ < 4 →
        (drawArrow ts x y d₁).map Blit.sourceOrigin
          = (drawArrow ts x y d₂).map Blit.sourceOrigin → d₁ = d₂) := by
  refine ⟨rfl, rfl, rfl, rfl, ?_, ?_⟩
  · intro d hn he hs hw
    unfold drawArrow
    rw [if_neg hn, if_neg he, if_neg hs, if_neg hw]
  · intro hsize d₁ d₂ h₁ h₂ heq
    have hh : 0 < ts.size / 2 := Nat.div_pos hsize (by decide)
    have c₁ : d₁ = 0 ∨ d₁ = 1 ∨ d₁ = 2 ∨ d₁ = 3 := by omega
    have c₂ : d₂ = 0 ∨ d₂ = 1 ∨ d₂ = 2 ∨ d₂ = 3 := by omega
    rcases c₁ with rfl | rfl | rfl | rfl <;> rcases c₂ with rfl | rfl | rfl | rfl <;>
      first
        | rfl
        | (exfalso
           simp only [drawArrow, Tile.North, Tile.East, Tile.South, Tile.West, List.map,
             Blit.sourceOrigin, OfNat.ofNat_ne_zero, OfNat.zero_ne_ofNat, if_true, if_false,
             Nat.reduceEqDiff, List.cons.injEq, Prod.mk.injEq, and_true] at heq
           omega)

/-- With sprites of edge 32, North and West take different source quadrants. -/
theorem drawArrow_quadrants_witness :
    (drawArrow ⟨32⟩ 0 0 0).map Blit.sourceOrigin = (drawArrow ⟨32⟩ 0 0 3).map Blit.sourceOrigin
      → 0 = 3 :=
  (drawArrow_quadrants ⟨32⟩ 0 0).2.2.2.2.2 (by decide) 0 3 (by decide) (by decide)

/-- C28: the fallback for a type without a case.  The own blits of a tile whose type has no
`case` label in `drawAt` are the Floor sprite, then the invalid marker, then the output of
`drawArrow` for the direction of the tile when `haveDirection()` holds of the tile, and
nothing more when it does not. -/
theorem unrecognized_type_fallback (D : TileModel) (ts : CC2ETileset) (x y : Int)
    (tile : Tile) (hty : tile.type ∈ noDrawCase) :
    drawBase D ts x y tile
        = [.full x y .G_Floor, .full x y .G_InvalidBase] ++
          (if D.haveDirection tile then drawArrow ts x y tile.direction else []) ∧
      (D.haveDirection tile = true →
        drawBase D ts x y tile
          = .full x y .G_Floor :: .full x y .G_InvalidBase ::
            drawArrow ts x y tile.direction) ∧
      (D.haveDirection tile = false →
        drawBase D ts x y tile = [.full x y .G_Floor, .full x y .G_InvalidBase]) := by
  obtain ⟨ty, d, m, f, l⟩ := tile
  have key : drawBase D ts x y ⟨ty, d, m, f, l⟩
      = [.full x y .G_Floor, .full x y .G_InvalidBase] ++
        (if D.haveDirection ⟨ty, d, m, f, l⟩ then drawArrow ts x y d else []) := by
    simp only [noDrawCase, List.mem_cons, List.mem_singleton, List.not_mem_nil,
      or_false] at hty
    rcases hty with h | h | h | h | h | h | h | h | h | h | h | h | h | h | h
    all_goals
      have h : ty = _ := h
      subst h
      rfl
  refine ⟨key, fun hd => ?_, fun hd => ?_⟩
  · rw [key, hd]
    rfl
  · rw [key, hd]
    rfl

/-- A tile of type UNUSED_41 facing East, with sprites of edge 32: in a model in which
every tile has a direction the arrow of East follows the invalid marker, and in the model
of the CC2 map format, where this type has no direction, nothing follows it. -/
theorem unrecognized_type_fallback_witness :
    drawBase { TileModel.cc2Format with haveDirection := fun _ => true } ⟨32⟩ 0 0
        ⟨.UNUSED_41, Tile.East, 0, 0, none⟩
        = [.full 0 0 .G_Floor, .full 0 0 .G_InvalidBase,
            .part 16 8 .G_GlyphArrows 0 16 0 16 16] ∧
      drawBase TileModel.cc2Format ⟨32⟩ 0 0 ⟨.UNUSED_41, Tile.East, 0, 0, none⟩
        = [.full 0 0 .G_Floor, .full 0 0 .G_InvalidBase] :=
  ⟨(unrecognized_type_fallback { TileModel.cc2Format with haveDirection := fun _ => true }
      ⟨32⟩ 0 0 ⟨.UNUSED_41, Tile.East, 0, 0, none⟩ (by decide)).2.1 rfl,
    (unrecognized_type_fallback TileModel.cc2Format ⟨32⟩ 0 0
      ⟨.UNUSED_41, Tile.East, 0, 0, none⟩ (by decide)).2.2 rfl⟩

/-- The list `noDrawCase` is complete: a tile of any other type, with all fields zero and no
lower layer, is not drawn as the fallback draws it. -/
theorem drawCase_of_not_mem (ty : TileType) (hty : ty ∉ noDrawCase) :
    drawBase TileModel.cc2Format ⟨32⟩ 0 0 ⟨ty, 0, 0, 0, none⟩
      ≠ [.full 0 0 .G_Floor, .full 0 0 .G_InvalidBase] := by
  cases ty <;> first | (exact absurd (by decide) hty) | decide

/-- The PanelCanopy case of `drawAt`, with the two tests on the lower layer read as one. -/
theorem drawBase_panelCanopy (D : TileModel) (ts : CC2ETileset) (x y : Int) (tile : Tile)
    (hty : tile.type = .PanelCanopy) :
    drawBase D ts x y tile
      = (if tile.panelFlags &&& D.flags.Canopy ≠ 0 then
            [.full x y (if tile.lower.any D.needXray then .G_Canopy_Xray else .G_Canopy)]
          else []) ++
        (if tile.panelFlags &&& D.flags.PanelNorth ≠ 0 then [.full x y .G_Panel_N] else []) ++
        (if tile.panelFlags &&& D.flags.PanelEast ≠ 0 then [.full x y .G_Panel_E] else []) ++
        (if tile.panelFlags &&& D.flags.PanelSouth ≠ 0 then [.full x y .G_Panel_S] else []) ++
        (if tile.panelFlags &&& D.flags.PanelWest ≠ 0 then [.full x y .G_Panel_W] else []) ++
        (if tile.panelFlags = 0 then [.full x y .G_Canopy_Xray, .full x y .G_InvalidBase]
          else []) := by
  obtain ⟨ty, d, m, f, l⟩ := tile
  have hty : ty = .PanelCanopy := hty
  subst hty
  have hx : (if ((Tile.mk .PanelCanopy d m f l).haveLower && l.any D.needXray) then
        [Blit.full x y .G_Canopy_Xray] else [Blit.full x y .G_Canopy])
      = [Blit.full x y (if l.any D.needXray then .G_Canopy_Xray else .G_Canopy)] := by
    cases l with
    | none => rfl
    | some lower => cases hn : D.needXray lower <;> simp [Tile.haveLower, hn]
  show (if _ then (if ((Tile.mk .PanelCanopy d m f l).haveLower && l.any D.needXray) then
        [Blit.full x y .G_Canopy_Xray] else [Blit.full x y .G_Canopy]) else []) ++ _ ++ _ ++ _
        ++ _ ++ _ = _
  rw [hx]

/-- C22: PanelCanopy compositing.  The own blits of a PanelCanopy tile with panel flags `f`
are, in this order: the canopy sprite exactly when the Canopy bit of `f` is set, in the
x-ray variant exactly when there is a lower layer that needs x-ray; then Panel_N, Panel_E,
Panel_S and Panel_W, each exactly when its own bit of `f` is set; then the x-ray canopy
followed by the invalid marker exactly when `f = 0`.  The invalid marker is among the blits
exactly when `f = 0`, each panel sprite exactly when its bit is set, and when `f = 0` the
blits are the x-ray canopy and the invalid marker alone. -/
theorem panelCanopy_compositing (D : TileModel) (ts : CC2ETileset) (x y : Int) (tile : Tile)
    (hty : tile.type = .PanelCanopy) :
    drawBase D ts x y tile
        = (if tile.panelFlags &&& D.flags.Canopy ≠ 0 then
              [.full x y (if tile.lower.any D.needXray then .G_Canopy_Xray else .G_Canopy)]
            else []) ++
          (if tile.panelFlags &&& D.flags.PanelNorth ≠ 0 then [.full x y .G_Panel_N]
            else []) ++
          (if tile.panelFlags &&& D.flags.PanelEast ≠ 0 then [.full x y .G_Panel_E]
            else []) ++
          (if tile.panelFlags &&& D.flags.PanelSouth ≠ 0 then [.full x y .G_Panel_S]
            else []) ++
          (if tile.panelFlags &&& D.flags.PanelWest ≠ 0 then [.full x y .G_Panel_W]
            else []) ++
          (if tile.panelFlags = 0 then [.full x y .G_Canopy_Xray, .full x y .G_InvalidBase]
            else []) ∧
      (Blit.full x y .G_InvalidBase ∈ drawBase D ts x y tile ↔ tile.panelFlags = 0) ∧
      (Blit.full x y .G_Panel_N ∈ drawBase D ts x y tile
        ↔ tile.panelFlags &&& D.flags.PanelNorth ≠ 0) ∧
      (Blit.full x y .G_Panel_E ∈ drawBase D ts x y tile
        ↔ tile.panelFlags &&& D.flags.PanelEast ≠ 0) ∧
      (Blit.full x y .G_Panel_S ∈ drawBase D ts x y tile
        ↔ tile.panelFlags &&& D.flags.PanelSouth ≠ 0) ∧
      (Blit.full x y .G_Panel_W ∈ drawBase D ts x y tile
        ↔ tile.panelFlags &&& D.flags.PanelWest ≠ 0) ∧
      (Blit.full x y .G_Canopy ∈ drawBase D ts x y tile
        ↔ tile.panelFlags &&& D.flags.Canopy ≠ 0 ∧ tile.lower.any D.needXray = false) ∧
      (tile.panelFlags = 0 →
        drawBase D ts x y tile = [.full x y .G_Canopy_Xray, .full x y .G_InvalidBase]) := by
  have key := drawBase_panelCanopy D ts x y tile hty
  refine ⟨key, ?_, ?_, ?_, ?_, ?_, ?_, ?_⟩
  · rw [key]
    cases tile.lower.any D.needXray <;> simp
  · rw [key]
    cases tile.lower.any D.needXray <;> simp
  · rw [key]
    cases tile.lower.any D.needXray <;> simp
  · rw [key]
    cases tile.lower.any D.needXray <;> simp
  · rw [key]
    cases tile.lower.any D.needXray <;> simp
  · rw [key]
    cases tile.lower.any D.needXray <;> simp
  · intro h0
    rw [key, h0]
    simp

/-- With the flag bits of the CC2 map format, the flags `0x15` draw the canopy, Panel_N and
Panel_S. -/
theorem panelCanopy_compositing_witness :
    drawBase TileModel.cc2Format ⟨32⟩ 0 0 ⟨.PanelCanopy, 0, 0, 0x15, none⟩
        = [.full 0 0 .G_Canopy, .full 0 0 .G_Panel_N, .full 0 0 .G_Panel_S] :=
  (panelCanopy_compositing TileModel.cc2Format ⟨32⟩ 0 0 ⟨.PanelCanopy, 0, 0, 0x15, none⟩
    rfl).1

/-- C27: themed rendering.  When the four theme values are pairwise different (they are
the case labels of one `switch`), a StyledFloor or StyledWall tile whose modifier is
CamoTheme, PinkDotsTheme, YellowBrickTheme or BlueTheme has exactly one own blit, the floor
or wall sprite of that theme, and for every other modifier the own blits are the Camo
sprite of the type followed by the invalid marker.  When the theme values are 0, 1, 2
and 3, the single sprite is drawn exactly for the modifiers below 4. -/
theorem themed_rendering (D : TileModel) (ts : CC2ETileset) (x y : Int) (tile : Tile)
    (hty : tile.type = .StyledFloor ∨ tile.type = .StyledWall)
    (hd : (themeValues D.modifier).Nodup) :
    (tile.modifier = D.modifier.CamoTheme →
        drawBase D ts x y tile = [.full x y (themedSprite tile.type 0)]) ∧
      (tile.modifier = D.modifier.PinkDotsTheme →
        drawBase D ts x y tile = [.full x y (themedSprite tile.type 1)]) ∧
      (tile.modifier = D.modifier.YellowBrickTheme →
        drawBase D ts x y tile = [.full x y (themedSprite tile.type 2)]) ∧
      (tile.modifier = D.modifier.BlueTheme →
        drawBase D ts x y tile = [.full x y (themedSprite tile.type 3)]) ∧
      (tile.modifier ∉ themeValues D.modifier →
        drawBase D ts x y tile
          = [.full x y (themedSprite tile.type 0), .full x y .G_InvalidBase]) ∧
      (themeValues D.modifier = [0, 1, 2, 3] →
        (tile.modifier < 4 → ∃ i, i < 4 ∧ tile.modifier = i ∧
          drawBase D ts x y tile = [.full x y (themedSprite tile.type i)]) ∧
        (4 ≤ tile.modifier → drawBase D ts x y tile
          = [.full x y (themedSprite tile.type 0), .full x y .G_InvalidBase])) := by
  obtain ⟨ty, d, m, f, l⟩ := tile
  have hty : ty = .StyledFloor ∨ ty = .StyledWall := hty
  simp only [themeValues, List.nodup_cons, List.mem_cons, List.mem_singleton,
    List.not_mem_nil, or_false, not_or, not_false_eq_true, List.nodup_nil, and_true] at hd
  obtain ⟨⟨h01, h02, h03⟩, ⟨h12, h13⟩, h23⟩ := hd
  have e0 : m = D.modifier.CamoTheme →
      drawBase D ts x y ⟨ty, d, m, f, l⟩ = [.full x y (themedSprite ty 0)] := by
    intro h
    rcases hty with rfl | rfl <;> exact if_pos h
  have e1 : m = D.modifier.PinkDotsTheme →
      drawBase D ts x y ⟨ty, d, m, f, l⟩ = [.full x y (themedSprite ty 1)] := by
    intro h
    have n0 : ¬ m = D.modifier.CamoTheme := fun h0 => h01 (h0.symm.trans h)
    rcases hty with rfl | rfl <;> exact (if_neg n0).trans (if_pos h)
  have e2 : m = D.modifier.YellowBrickTheme →
      drawBase D ts x y ⟨ty, d, m, f, l⟩ = [.full x y (themedSprite ty 2)] := by
    intro h
    have n0 : ¬ m = D.modifier.CamoTheme := fun h0 => h02 (h0.symm.trans h)
    have n1 : ¬ m = D.modifier.PinkDotsTheme := fun h0 => h12 (h0.symm.trans h)
    rcases hty with rfl | rfl <;> exact (if_neg n0).trans ((if_neg n1).trans (if_pos h))
  have e3 : m = D.modifier.BlueTheme →
      drawBase D ts x y ⟨ty, d, m, f, l⟩ = [.full x y (themedSprite ty 3)] := by
    intro h
    have n0 : ¬ m = D.modifier.CamoTheme := fun h0 => h03 (h0.symm.trans h)
    have n1 : ¬ m = D.modifier.PinkDotsTheme := fun h0 => h13 (h0.symm.trans h)
    have n2 : ¬ m = D.modifier.YellowBrickTheme := fun h0 => h23 (h0.symm.trans h)
    rcases hty with rfl | rfl <;>
      exact (if_neg n0).trans ((if_neg n1).trans ((if_neg n2).trans (if_pos h)))
  have e4 : m ∉ themeValues D.modifier →
      drawBase D ts x y ⟨ty, d, m, f, l⟩
        = [.full x y (themedSprite ty 0), .full x y .G_InvalidBase] := by
    intro h
    simp only [themeValues, List.mem_cons, List.mem_singleton, List.not_mem_nil, or_false,
      not_or] at h
    obtain ⟨n0, n1, n2, n3⟩ := h
    rcases hty with rfl | rfl <;>
      exact (if_neg n0).trans ((if_neg n1).trans ((if_neg n2).trans (if_neg n3)))
  refine ⟨e0, e1, e2, e3, e4, ?_⟩
  intro hv
  have hv0 : D.modifier.CamoTheme = 0 := by
    have := congrArg (fun l => l.getD 0 0) hv
    exact this
  have hv1 : D.modifier.PinkDotsTheme = 1 := by
    have := congrArg (fun l => l.getD 1 0) hv
    exact this
  have hv2 : D.modifier.YellowBrickTheme = 2 := by
    have := congrArg (fun l => l.getD 2 0) hv
    exact this
  have hv3 : D.modifier.BlueTheme = 3 := by
    have := congrArg (fun l => l.getD 3 0) hv
    exact this
  constructor
  · intro hlt
    have hm : m < 4 := hlt
    have c : m = 0 ∨ m = 1 ∨ m = 2 ∨ m = 3 := by omega
    rcases c with h | h | h | h
    · exact ⟨0, by decide, h, e0 (h.trans hv0.symm)⟩
    · exact ⟨1, by decide, h, e1 (h.trans hv1.symm)⟩
    · exact ⟨2, by decide, h, e2 (h.trans hv2.symm)⟩
    · exact ⟨3, by decide, h, e3 (h.trans hv3.symm)⟩
  · intro hge
    have hm : 4 ≤ m := hge
    apply e4
    rw [hv]
    simp only [List.mem_cons, List.mem_singleton, List.not_mem_nil, or_false, not_or]
    omega

/-- With the values of the CC2 map format, a StyledWall with modifier 2 draws the
yellow-brick wall, and one with modifier 4 the fallback. -/
theorem themed_rendering_witness :
    drawBase TileModel.cc2Format ⟨32⟩ 0 0 ⟨.StyledWall, 0, 2, 0, none⟩
        = [.full 0 0 .G_YellowBrickCWall] ∧
      drawBase TileModel.cc2Format ⟨32⟩ 0 0 ⟨.StyledWall, 0, 4, 0, none⟩
        = [.full 0 0 .G_CamoCWall, .full 0 0 .G_InvalidBase] :=
  ⟨(themed_rendering TileModel.cc2Format ⟨32⟩ 0 0 ⟨.StyledWall, 0, 2, 0, none⟩
      (Or.inr rfl) (by decide)).2.2.1 rfl,
    (themed_rendering TileModel.cc2Format ⟨32⟩ 0 0 ⟨.StyledWall, 0, 4, 0, none⟩
      (Or.inr rfl) (by decide)).2.2.2.2.1 (by decide)⟩

/-- A table switch on one of its labels gives the result listed with the label, when no
label is listed twice. -/
theorem switchTable_of_mem {α : Type} (dflt : α) :
    ∀ (tbl : List (Nat × α)), (tbl.map Prod.fst).Nodup →
      ∀ p ∈ tbl, switchTable tbl dflt p.1 = p.2
  | [], _, p, hp => absurd hp (List.not_mem_nil p)
  | (k, a) :: rest, hnd, p, hp => by
    rw [List.map_cons, List.nodup_cons] at hnd
    rcases List.mem_cons.mp hp with rfl | hp
    · exact if_pos rfl
    · have hne : p.1 ≠ k := fun h => hnd.1 (by
        rw [← h]
        exact List.mem_map.mpr ⟨p, hp, rfl⟩)
      show (if p.1 = k then a else switchTable rest dflt p.1) = p.2
      rw [if_neg hne]
      exact switchTable_of_mem dflt rest hnd.2 p hp

/-- A table switch on a value that is not a label gives the default. -/
theorem switchTable_of_not_mem {α : Type} (dflt : α) (m : Nat) :
    ∀ (tbl : List (Nat × α)), m ∉ tbl.map Prod.fst → switchTable tbl dflt m = dflt
  | [], _ => rfl
  | (k, a) :: rest, h => by
    rw [List.map_cons, List.mem_cons, not_or] at h
    show (if m = k then a else switchTable rest dflt m) = dflt
    rw [if_neg h.1]
    exact switchTable_of_not_mem dflt m rest h.2

/-- The LogicGate case of `drawAt` is the wire fill followed by the table switch over
`gateTable`. -/
theorem drawBase_logicGate (D : TileModel) (ts : CC2ETileset) (x y : Int) (tile : Tile)
    (hty : tile.type = .LogicGate) :
    drawBase D ts x y tile
      = .full x y .G_WireFill ::
        switchTable ((gateTable D.modifier).map (fun p => (p.1, [Blit.full x y p.2])))
          [.full x y .G_Inverter_N, .full x y .G_InvalidBase] tile.modifier := by
  obtain ⟨ty, d, m, f, l⟩ := tile
  have hty : ty = .LogicGate := hty
  subst hty
  rfl

/-- No sprite of `gateTable` is the invalid marker. -/
theorem gateTable_sprite_ne (M : TileModifier) :
    ∀ p ∈ gateTable M, p.2 ≠ Graphic.G_InvalidBase := by
  simp [gateTable]

/-- The blits of a LogicGate tile whose modifier is a label of `gateTable`. -/
theorem logicGate_enumerated (D : TileModel) (ts : CC2ETileset) (x y : Int) (tile : Tile)
    (hty : tile.type = .LogicGate) (hd : (gateValues D.modifier).Nodup)
    (p : Nat × Graphic) (hp : p ∈ gateTable D.modifier) (hm : tile.modifier = p.1) :
    drawBase D ts x y tile = [.full x y .G_WireFill, .full x y p.2] := by
  rw [drawBase_logicGate D ts x y tile hty, hm]
  have hd2 : (((gateTable D.modifier).map
      (fun p => (p.1, [Blit.full x y p.2]))).map Prod.fst).Nodup := by
    rw [List.map_map]
    exact hd
  have := switchTable_of_mem [Blit.full x y .G_Inverter_N, .full x y .G_InvalidBase] _ hd2
    (p.1, [Blit.full x y p.2]) (List.mem_map_of_mem (fun p => (p.1, [Blit.full x y p.2])) hp)
  rw [this]

/-- The blits of a LogicGate tile whose modifier is no label of `gateTable`. -/
theorem logicGate_other (D : TileModel) (ts : CC2ETileset) (x y : Int) (tile : Tile)
    (hty : tile.type = .LogicGate) (hm : tile.modifier ∉ gateValues D.modifier) :
    drawBase D ts x y tile
      = [.full x y .G_WireFill, .full x y .G_Inverter_N, .full x y .G_InvalidBase] := by
  rw [drawBase_logicGate D ts x y tile hty]
  have hm2 : tile.modifier ∉ ((gateTable D.modifier).map
      (fun p => (p.1, [Blit.full x y p.2]))).map Prod.fst := by
    rw [List.map_map]
    exact hm
  rw [switchTable_of_not_mem _ _ _ hm2]

/-- C23: LogicGate rendering.  The first own blit of a LogicGate tile is the wire fill.
When the enumerated gate values are pairwise different (they are the case labels of one
`switch`) and the modifier is one of them, the wire fill is followed by the sprite of that
gate value and by nothing else, and this sprite is not the invalid marker; for any other
modifier the wire fill is followed by the Inverter_N sprite and then the invalid marker. -/
theorem logicGate_rendering (D : TileModel) (ts : CC2ETileset) (x y : Int) (tile : Tile)
    (hty : tile.type = .LogicGate) (hd : (gateValues D.modifier).Nodup) :
    (drawBase D ts x y tile).head? = some (.full x y .G_WireFill) ∧
      (∀ p ∈ gateTable D.modifier, tile.modifier = p.1 →
        drawBase D ts x y tile = [.full x y .G_WireFill, .full x y p.2] ∧
          p.2 ≠ .G_InvalidBase ∧ Blit.full x y .G_InvalidBase ∉ drawBase D ts x y tile) ∧
      (tile.modifier ∉ gateValues D.modifier →
        drawBase D ts x y tile
          = [.full x y .G_WireFill, .full x y .G_Inverter_N, .full x y .G_InvalidBase]) := by
  refine ⟨?_, ?_, logicGate_other D ts x y tile hty⟩
  · rw [drawBase_logicGate D ts x y tile hty]
    rfl
  · intro p hp hm
    have h := logicGate_enumerated D ts x y tile hty hd p hp hm
    have hne := gateTable_sprite_ne D.modifier p hp
    refine ⟨h, hne, ?_⟩
    rw [h]
    intro hmem
    simp only [List.mem_cons, List.mem_singleton, List.not_mem_nil, or_false,
      Blit.full.injEq, true_and] at hmem
    rcases hmem with h1 | h1
    · exact absurd h1 (by decide)
    · exact hne h1.symm

/-- With the values of the CC2 map format, the modifier `0x42` draws the LatchGateCCW_S
sprite and the modifier `0x18` the fallback. -/
theorem logicGate_rendering_witness :
    drawBase TileModel.cc2Format ⟨32⟩ 0 0 ⟨.LogicGate, 0, 0x42, 0, none⟩
        = [.full 0 0 .G_WireFill, .full 0 0 .G_LatchGateCCW_S] ∧
      drawBase TileModel.cc2Format ⟨32⟩ 0 0 ⟨.LogicGate, 0, 0x18, 0, none⟩
        = [.full 0 0 .G_WireFill, .full 0 0 .G_Inverter_N, .full 0 0 .G_InvalidBase] :=
  ⟨((logicGate_rendering TileModel.cc2Format ⟨32⟩ 0 0 ⟨.LogicGate, 0, 0x42, 0, none⟩ rfl
      (by decide)).2.1 (0x42, .G_LatchGateCCW_S) (by decide) rfl).1,
    (logicGate_rendering TileModel.cc2Format ⟨32⟩ 0 0 ⟨.LogicGate, 0, 0x18, 0, none⟩ rfl
      (by decide)).2.2 (by decide)⟩

set_option maxRecDepth 100000 in
/-- C24, counterexample: with the values of the CC2 map format, 38 of the modifier values
below 256 are drawn on a LogicGate tile without the invalid marker, not 26. -/
theorem logicGate_dedicated_not_26 :
    ((List.range 256).filter (fun m =>
        decide (Blit.full 0 0 .G_InvalidBase
          ∉ drawBase TileModel.cc2Format ⟨32⟩ 0 0 ⟨.LogicGate, 0, m, 0, none⟩))).length = 38 ∧
      ((List.range 256).filter (fun m =>
        decide (Blit.full 0 0 .G_InvalidBase
          ∉ drawBase TileModel.cc2Format ⟨32⟩ 0 0 ⟨.LogicGate, 0, m, 0, none⟩))).length ≠ 26 := by
  decide

/-- C24, amended: when the enumerated gate values are pairwise different, a LogicGate tile
is drawn without the invalid marker exactly when its modifier is one of them, and they are
38 values: four orientations of each of Inverter, AndGate, OrGate, XorGate, LatchGateCW,
NandGate and LatchGateCCW, and the ten counter values. -/
theorem logicGate_dedicated_count (D : TileModel) (ts : CC2ETileset) (x y : Int)
    (hd : (gateValues D.modifier).Nodup) :
    (gateValues D.modifier).toFinset.card = 38 ∧
      ∀ tile : Tile, tile.type = .LogicGate →
        (Blit.full x y .G_InvalidBase ∉ drawBase D ts x y tile
          ↔ tile.modifier ∈ (gateValues D.modifier).toFinset) := by
  refine ⟨?_, ?_⟩
  · rw [List.toFinset_card_of_nodup hd]
    rfl
  · intro tile hty
    rw [List.mem_toFinset]
    constructor
    · intro h
      by_contra hm
      rw [logicGate_other D ts x y tile hty hm] at h
      exact h (by simp)
    · intro hm
      obtain ⟨p, hp, hpm⟩ := List.mem_map.mp hm
      rw [logicGate_enumerated D ts x y tile hty hd p hp hpm.symm]
      have hne := gateTable_sprite_ne D.modifier p hp
      intro hmem
      simp only [List.mem_cons, List.mem_singleton, List.not_mem_nil, or_false,
        Blit.full.injEq, true_and] at hmem
      rcases hmem with h1 | h1
      · exact absurd h1 (by decide)
      · exact hne h1.symm

/-- The gate values of the CC2 map format are pairwise different. -/
theorem logicGate_dedicated_count_witness :
    (gateValues TileModel.cc2Format.modifier).toFinset.card = 38 :=
  (logicGate_dedicated_count TileModel.cc2Format ⟨32⟩ 0 0 (by decide)).1

/-! ### The loader -/

/-- What `load` does to a file whose first 8 bytes are the magic: the body of `load` after
the test of the magic. -/
theorem load_of_magic {Image : Type} (E : LoadEnv Image) (self : TilesetObject Image)
    (filename : String) (file : List Nat) (hmagic : file.take 8 = tilesetMagic) :
    load E self filename (some file)
      = (let name := readBlock E.uninit (file.drop 8)
        let description := readBlock E.uninit name.2
        let size := read8 E.uninit description.2
        let cc1 := readBlock E.uninit (readBlock E.uninit size.2).2
        let header : TilesetObject Image :=
          { self with m_name := name.1, m_description := description.1, size := size.1 }
        match E.loadFromData (readBlock E.uninit cc1.2).1 with
        | none => (header, some .corruptImage)
        | some tempmap =>
          ({ header with
              m_gfx := sliceAtlas E.NUM_GRAPHICS tempmap size.1 self.m_gfx,
              m_filename := E.fileName filename },
            none)) := by
  have hlen : (file.take 8).length = 8 := by rw [hmagic]; rfl
  have hc : ¬ ((file.take 8).length ≠ 8 ∨ file.take 8 ≠ tilesetMagic) :=
    fun h => h.elim (fun h1 => h1 hlen) (fun h2 => h2 hmagic)
  unfold load
  dsimp only
  refine (if_neg hc).trans ?_
  cases E.loadFromData _ <;> rfl

/-- What `load` does to a file whose first 8 bytes are not the magic. -/
theorem load_of_bad_magic {Image : Type} (E : LoadEnv Image) (self : TilesetObject Image)
    (filename : String) (file : List Nat) (hbad : file.take 8 ≠ tilesetMagic) :
    load E self filename (some file) = (self, some .invalidFormat) := by
  unfold load
  dsimp only
  rw [if_pos (Or.inr hbad)]

/-- C30: bad magic.  On a file whose first 8 bytes are not `"CCTILE02"`, `load` throws the
invalid-format exception and leaves the object as it was; a file of fewer than 8 bytes is
such a file; and the outcome is the same for every file with the same first 8 bytes and
for every content of uninitialised memory, so it depends on nothing that a later read
could deliver. -/
theorem load_bad_magic {Image : Type} (E : LoadEnv Image) (self : TilesetObject Image)
    (filename : String) (file : List Nat) (hbad : file.take 8 ≠ tilesetMagic) :
    load E self filename (some file) = (self, some .invalidFormat) ∧
      (∀ short : List Nat, short.length < 8 →
        load E self filename (some short) = (self, some .invalidFormat)) ∧
      (∀ (E2 : LoadEnv Image) (other : List Nat), other.take 8 = file.take 8 →
        load E2 self filename (some other) = load E self filename (some file)) := by
  refine ⟨load_of_bad_magic E self filename file hbad, ?_, ?_⟩
  · intro short hs
    apply load_of_bad_magic
    intro h
    have := congrArg List.length h
    rw [List.length_take] at this
    have h8 : tilesetMagic.length = 8 := rfl
    omega
  · intro E2 other ho
    rw [load_of_bad_magic E self filename file hbad]
    exact load_of_bad_magic E2 self filename other (ho ▸ hbad)

/-- A file that starts with `"CCTILE01"`, and the empty file. -/
theorem load_bad_magic_witness :
    load LoadEnv.sample TilesetObject.sample "tiles.tis"
        (some [0x43, 0x43, 0x54, 0x49, 0x4c, 0x45, 0x30, 0x31, 0, 0, 0, 0])
        = (TilesetObject.sample, some .invalidFormat) ∧
      load LoadEnv.sample TilesetObject.sample "tiles.tis" (some [])
        = (TilesetObject.sample, some .invalidFormat) :=
  ⟨(load_bad_magic LoadEnv.sample TilesetObject.sample "tiles.tis"
      [0x43, 0x43, 0x54, 0x49, 0x4c, 0x45, 0x30, 0x31, 0, 0, 0, 0] (by decide)).1,
    (load_bad_magic LoadEnv.sample TilesetObject.sample "tiles.tis"
      [0x43, 0x43, 0x54, 0x49, 0x4c, 0x45, 0x30, 0x31, 0, 0, 0, 0] (by decide)).2.1 []
      (by decide)⟩

/-- C29, counterexample: a file with the right magic, the name "A", the description "B",
the size 32 and an image block that the decoder rejects makes `load` throw the
corrupt-image exception after it has overwritten the name, the description and the size of
the object. -/
theorem load_failure_not_atomic :
    (load LoadEnv.sample TilesetObject.sample "tiles.tis" (some (sampleFile [0]))).2
        = some .corruptImage ∧
      (load LoadEnv.sample TilesetObject.sample "tiles.tis" (some (sampleFile [0]))).1.size
        = 32 ∧
      TilesetObject.sample.size = 0 ∧
      (load LoadEnv.sample TilesetObject.sample "tiles.tis" (some (sampleFile [0]))).1.m_name
        = [0x41] ∧
      TilesetObject.sample.m_name = [] ∧
      (load LoadEnv.sample TilesetObject.sample "tiles.tis" (some (sampleFile [0]))).1
        ≠ TilesetObject.sample := by
  refine ⟨by decide, by decide, rfl, by decide, rfl, ?_⟩
  intro h
  exact absurd (congrArg (fun o => o.size) h) (by decide)

/-- C29, amended: when `load` fails, the sprites and the file name of the object are as
they were.  When it fails because the file cannot be opened or has a bad magic, the whole
object is as it was.  When it fails because the image cannot be decoded, the file
starts with the magic, and the name, the description and the size of the object are the
ones read from the file. -/
theorem load_failure_state {Image : Type} (E : LoadEnv Image) (self : TilesetObject Image)
    (filename : String) (contents : Option (List Nat))
    (hfail : (load E self filename contents).2 ≠ none) :
    (load E self filename contents).1.m_gfx = self.m_gfx ∧
      (load E self filename contents).1.m_filename = self.m_filename ∧
      ((load E self filename contents).2 ≠ some .corruptImage →
        (load E self filename contents).1 = self) ∧
      ((load E self filename contents).2 = some .corruptImage →
        ∃ file, contents = some file ∧ file.take 8 = tilesetMagic ∧
          (load E self filename contents).1
            = { self with
                m_name := (readBlock E.uninit (file.drop 8)).1,
                m_description :=
                  (readBlock E.uninit (readBlock E.uninit (file.drop 8)).2).1,
                size := (read8 E.uninit
                  (readBlock E.uninit (readBlock E.uninit (file.drop 8)).2).2).1 }) := by
  cases contents with
  | none => exact ⟨rfl, rfl, fun _ => rfl, fun h => Option.noConfusion h LoadError.noConfusion⟩
  | some file =>
    by_cases hmagic : file.take 8 = tilesetMagic
    · rw [load_of_magic E self filename file hmagic] at hfail ⊢
      cases hd : E.loadFromData (readBlock E.uninit (readBlock E.uninit (readBlock E.uninit
          (read8 E.uninit (readBlock E.uninit (readBlock E.uninit
            (file.drop 8)).2).2).2).2).2).1 with
      | none =>
        dsimp only
        rw [hd]
        exact ⟨rfl, rfl, fun h => absurd rfl h, fun _ => ⟨file, rfl, hmagic, rfl⟩⟩
      | some tempmap =>
        dsimp only at hfail
        rw [hd] at hfail
        exact absurd rfl hfail
    · rw [load_of_bad_magic E self filename file hmagic]
      exact ⟨rfl, rfl, fun _ => rfl, fun h => Option.noConfusion h LoadError.noConfusion⟩

/-- The sample file with an image block that the sample decoder rejects: the sprites of
the object are as they were. -/
theorem load_failure_state_witness :
    (load LoadEnv.sample TilesetObject.sample "tiles.tis" (some (sampleFile [0]))).1.m_gfx
        = [none, none, none] :=
  (load_failure_state LoadEnv.sample TilesetObject.sample "tiles.tis" (some (sampleFile [0]))
    (by decide)).1

/-- The sample file with the image that the sample decoder accepts loads. -/
theorem load_sample :
    load LoadEnv.sample TilesetObject.sample "tiles.tis" (some (sampleFile [0x89]))
      = ({ size := 32, m_name := [0x41], m_description := [0x42],
           m_gfx := [some ⟨[0x89], 0, 0, 32, 32⟩, some ⟨[0x89], 0, 32, 32, 32⟩,
             some ⟨[0x89], 0, 64, 32, 32⟩],
           m_filename := "tiles.tis" }, none) := by
  decide

/-! ### The rotation engine: byte rotations, truncation, normal forms and the mirror functions -/

set_option maxRecDepth 100000 in
/-- All bytes: three steps of `rol4` are one step of `ror4`, and three steps of `ror4` are
one step of `rol4`. -/
theorem rol4_ror4_three : ∀ b, b < 2 ^ 8 →
    (rol4 (rol4 (rol4 b)) = ror4 b ∧ ror4 (ror4 (ror4 b)) = rol4 b) := by
  decide

/-- C33: `rol4` and `ror4` are mutually inverse permutations of the bytes, of order four.
For every byte `b`, `rol4 b` and `ror4 b` are bytes, `ror4 (rol4 b) = b`,
`rol4 (ror4 b) = b`, four applications of `rol4` give `b`, four applications of `ror4` give
`b`, and three applications of `rol4` give `ror4 b`; both functions are injective on the
bytes. -/
theorem rol4_ror4_permutations (b : Nat) (hb : b < 2 ^ 8) :
    rol4 b < 2 ^ 8 ∧ ror4 b < 2 ^ 8 ∧ ror4 (rol4 b) = b ∧ rol4 (ror4 b) = b ∧
      rol4^[4] b = b ∧ ror4^[4] b = b ∧ rol4^[3] b = ror4 b ∧ ror4^[3] b = rol4 b ∧
      (∀ c, c < 2 ^ 8 → rol4 b = rol4 c → b = c) ∧
      (∀ c, c < 2 ^ 8 → ror4 b = ror4 c → b = c) := by
  obtain ⟨h1, h2, h3, h4, h5, h6⟩ := rol4_ror4_byte_inverse b hb
  obtain ⟨h7, h8⟩ := rol4_ror4_three b hb
  refine ⟨h1, h2, h3, h4, h5, h6, h7, h8, ?_, ?_⟩
  · intro c hc h
    have hc3 := (rol4_ror4_byte_inverse c hc).2.2.1
    rw [← h3, h, hc3]
  · intro c hc h
    have hc4 := (rol4_ror4_byte_inverse c hc).2.2.2.1
    rw [← h4, h, hc4]

/-- The byte `0x98`: `rol4` gives `0x91`, `ror4` gives `0x94`. -/
theorem rol4_ror4_permutations_witness :
    rol4 0x98 = 0x91 ∧ ror4 0x98 = 0x94 ∧ ror4 (rol4 0x98) = 0x98 ∧
      rol4^[3] 0x98 = ror4 0x98 :=
  ⟨by decide, by decide, (rol4_ror4_permutations 0x98 (by decide)).2.2.1,
    (rol4_ror4_permutations 0x98 (by decide)).2.2.2.2.2.2.1⟩

/-- The track exchange of a byte with byte-sized exchange constants is a byte. -/
theorem trackExchange_lt (ns we track : Nat) (hns : ns < 2 ^ 8) (hwe : we < 2 ^ 8)
    (ht : track < 2 ^ 8) : trackExchange ns we track < 2 ^ 8 := by
  have h1 : track &&& not32 ns < 2 ^ 8 := lt_of_le_of_lt Nat.and_le_left ht
  have h2 : track &&& not32 we < 2 ^ 8 := lt_of_le_of_lt Nat.and_le_left ht
  have h3 : (track &&& not32 ns) ||| we < 2 ^ 8 := Nat.or_lt_two_pow h1 hwe
  have h4 : (track &&& not32 we) ||| ns < 2 ^ 8 := Nat.or_lt_two_pow h2 hns
  unfold trackExchange
  split_ifs
  · exact lt_of_le_of_lt (Nat.mod_le _ _) h3
  · exact lt_of_le_of_lt (Nat.mod_le _ _) h4
  · exact lt_of_le_of_lt (Nat.mod_le _ _) ht

/-- C34: modifier truncation.  When `Track_NS` and `Track_WE` are byte values, the modifier
of a Cloner or TrainTracks tile after `rotateLeft` or `rotateRight` is below 256 and is the
one that the tile with the modifier reduced to its low byte gets, so that bits 8..31 of
the original modifier are discarded; the modifier of a Floor tile with a 32-bit modifier
keeps its bits 8..31. -/
theorem modifier_truncation (M : TileModifier) (t : Tile)
    (hM : M.Track_NS < 2 ^ 8 ∧ M.Track_WE < 2 ^ 8) :
    (t.type = .Cloner ∨ t.type = .TrainTracks →
      (rotateRightTile M t).modifier < 256 ∧ (rotateLeftTile M t).modifier < 256 ∧
        rotateRightTile M t = rotateRightTile M { t with modifier := t.modifier % 2 ^ 8 } ∧
        rotateLeftTile M t = rotateLeftTile M { t with modifier := t.modifier % 2 ^ 8 }) ∧
    (t.type = .Floor → t.modifier < 2 ^ 32 →
      (rotateRightTile M t).modifier / 256 = t.modifier / 256 ∧
        (rotateLeftTile M t).modifier / 256 = t.modifier / 256) := by
  obtain ⟨ty, d, m, f, l⟩ := t
  have hb : m % 2 ^ 8 < 2 ^ 8 := Nat.mod_lt _ (by decide)
  have hbb : m % 2 ^ 8 % 2 ^ 8 = m % 2 ^ 8 := Nat.mod_mod _ _
  obtain ⟨hR, hL, -⟩ := rol4_ror4_byte_inverse (m % 2 ^ 8) hb
  refine ⟨?_, ?_⟩
  · intro hty
    have hty : ty = .Cloner ∨ ty = .TrainTracks := hty
    rcases hty with rfl | rfl
    · have h1 : ∀ n, rotateRightTile M ⟨.Cloner, d, n, f, l⟩
          = ⟨.Cloner, d, rol4 (n % 2 ^ 8) % 2 ^ 32, f, l⟩ := fun _ => rfl
      have h2 : ∀ n, rotateLeftTile M ⟨.Cloner, d, n, f, l⟩
          = ⟨.Cloner, d, ror4 (n % 2 ^ 8) % 2 ^ 32, f, l⟩ := fun _ => rfl
      rw [h1 m, h2 m]
      refine ⟨?_, ?_, ?_, ?_⟩
      · show rol4 (m % 2 ^ 8) % 2 ^ 32 < 256
        omega
      · show ror4 (m % 2 ^ 8) % 2 ^ 32 < 256
        omega
      · show _ = rotateRightTile M ⟨.Cloner, d, m % 2 ^ 8, f, l⟩
        rw [h1 (m % 2 ^ 8), hbb]
      · show _ = rotateLeftTile M ⟨.Cloner, d, m % 2 ^ 8, f, l⟩
        rw [h2 (m % 2 ^ 8), hbb]
    · have s := fun n => tracks_step M d n f l
      rw [(s m).1, (s m).2]
      refine ⟨trackExchange_lt _ _ _ hM.1 hM.2 hR, trackExchange_lt _ _ _ hM.1 hM.2 hL,
        ?_, ?_⟩
      · show _ = rotateRightTile M ⟨.TrainTracks, d, m % 2 ^ 8, f, l⟩
        rw [(s (m % 2 ^ 8)).1, hbb]
      · show _ = rotateLeftTile M ⟨.TrainTracks, d, m % 2 ^ 8, f, l⟩
        rw [(s (m % 2 ^ 8)).2, hbb]
  · intro hty hm
    have hty : ty = .Floor := hty
    have hm : m < 2 ^ 32 := hm
    subst hty
    have hsplit : m = 256 * (m / 256) + m % 2 ^ 8 := by omega
    have hm2 : 256 * (m / 256) + m % 2 ^ 8 < 2 ^ 32 := by omega
    obtain ⟨e1, e2, -, -⟩ := floor_step M d (m / 256) (m % 2 ^ 8) f l hb hm2
    rw [← hsplit] at e1 e2
    obtain ⟨g1, g2, -⟩ := floorByte_facts (m % 2 ^ 8) hb
    rw [e1, e2]
    constructor
    · show (256 * (m / 256) + floorByteRight (m % 2 ^ 8)) / 256 = m / 256
      omega
    · show (256 * (m / 256) + floorByteLeft (m % 2 ^ 8)) / 256 = m / 256
      omega

/-- With the values of the CC2 map format, a Cloner with modifier `0x12345678` is left with
the modifier `0x71`, and a Floor with this modifier keeps `0x123456` above its low byte. -/
theorem modifier_truncation_witness :
    (rotateRightTile TileModifier.cc2Format ⟨.Cloner, 0, 0x12345678, 0, none⟩).modifier < 256 ∧
      (rotateRightTile TileModifier.cc2Format ⟨.Floor, 0, 0x12345678, 0, none⟩).modifier / 256
        = 0x12345678 / 256 :=
  ⟨((modifier_truncation TileModifier.cc2Format ⟨.Cloner, 0, 0x12345678, 0, none⟩
      (by decide)).1 (Or.inl rfl)).1,
    ((modifier_truncation TileModifier.cc2Format ⟨.Floor, 0, 0x12345678, 0, none⟩
      (by decide)).2 rfl (by decide)).1⟩

set_option maxRecDepth 100000 in
/-- All bytes: the Floor byte steps give a byte with equal nibbles, read only the low
nibble, and three steps one way are one step the other way. -/
theorem floorByte_normal : ∀ b, b < 2 ^ 8 →
    (floorByteRight b / 16 % 16 = floorByteRight b % 16 ∧
      floorByteLeft b / 16 % 16 = floorByteLeft b % 16 ∧
      floorByteRight b = floorByteRight (b % 16) ∧
      floorByteLeft b = floorByteLeft (b % 16) ∧
      floorByteRight (floorByteRight (floorByteRight b)) = floorByteLeft b ∧
      floorByteLeft (floorByteLeft (floorByteLeft b)) = floorByteRight b) := by
  decide

/-- C35: Floor normalisation.  After one rotation of a Floor tile with a 32-bit modifier,
in either sense, bits 4..7 of the modifier equal its bits 0..3, and the result is the same
for every modifier with the same bits 0..3 and 8..31; from the rotated tile, and from every
Floor tile with equal nibbles, four rotations of the same sense and two rotations of
opposite senses restore the tile. -/
theorem floor_normalisation (M : TileModifier) (d m f : Nat) (l : Option Tile)
    (hm : m < 2 ^ 32) :
    ((rotateRightTile M ⟨.Floor, d, m, f, l⟩).modifier / 16 % 16
        = (rotateRightTile M ⟨.Floor, d, m, f, l⟩).modifier % 16 ∧
      (rotateLeftTile M ⟨.Floor, d, m, f, l⟩).modifier / 16 % 16
        = (rotateLeftTile M ⟨.Floor, d, m, f, l⟩).modifier % 16) ∧
    (∀ m2, m2 < 2 ^ 32 → m2 % 16 = m % 16 → m2 / 256 = m / 256 →
      rotateRightTile M ⟨.Floor, d, m2, f, l⟩ = rotateRightTile M ⟨.Floor, d, m, f, l⟩ ∧
        rotateLeftTile M ⟨.Floor, d, m2, f, l⟩ = rotateLeftTile M ⟨.Floor, d, m, f, l⟩) ∧
    (∀ n : Tile, (n = rotateRightTile M ⟨.Floor, d, m, f, l⟩ ∨
        n = rotateLeftTile M ⟨.Floor, d, m, f, l⟩ ∨
        (n.type = .Floor ∧ n.modifier < 2 ^ 32 ∧ n.modifier / 16 % 16 = n.modifier % 16)) →
      (rotateRightTile M)^[4] n = n ∧ (rotateLeftTile M)^[4] n = n ∧
        rotateLeftTile M (rotateRightTile M n) = n ∧
        rotateRightTile M (rotateLeftTile M n) = n) := by
  have step : ∀ k, k < 2 ^ 32 →
      rotateRightTile M ⟨.Floor, d, k, f, l⟩
          = ⟨.Floor, d, 256 * (k / 256) + floorByteRight (k % 2 ^ 8), f, l⟩ ∧
        rotateLeftTile M ⟨.Floor, d, k, f, l⟩
          = ⟨.Floor, d, 256 * (k / 256) + floorByteLeft (k % 2 ^ 8), f, l⟩ ∧
        256 * (k / 256) + floorByteRight (k % 2 ^ 8) < 2 ^ 32 ∧
        256 * (k / 256) + floorByteLeft (k % 2 ^ 8) < 2 ^ 32 := by
    intro k hk
    have hb : k % 2 ^ 8 < 2 ^ 8 := Nat.mod_lt _ (by decide)
    have hsplit : k = 256 * (k / 256) + k % 2 ^ 8 := by omega
    have hk2 : 256 * (k / 256) + k % 2 ^ 8 < 2 ^ 32 := by omega
    have h := floor_step M d (k / 256) (k % 2 ^ 8) f l hb hk2
    rw [← hsplit] at h
    exact h
  have nib : ∀ a b, b < 2 ^ 8 → b / 16 % 16 = b % 16 →
      (256 * a + b) / 16 % 16 = (256 * a + b) % 16 := by
    intro a b hb h
    have h1 : (256 * a + b) / 16 = 16 * a + b / 16 := by omega
    have h2 : (256 * a + b) % 16 = b % 16 := by omega
    rw [h1, h2]
    omega
  have hb : m % 2 ^ 8 < 2 ^ 8 := Nat.mod_lt _ (by decide)
  obtain ⟨eR, eL, ltR, ltL⟩ := step m hm
  obtain ⟨bR, bL, -⟩ := floorByte_facts (m % 2 ^ 8) hb
  obtain ⟨nR, nL, lowR, lowL, -, -⟩ := floorByte_normal (m % 2 ^ 8) hb
  have normR : (rotateRightTile M ⟨.Floor, d, m, f, l⟩).modifier / 16 % 16
      = (rotateRightTile M ⟨.Floor, d, m, f, l⟩).modifier % 16 := by
    rw [eR]
    exact nib _ _ bR nR
  have normL : (rotateLeftTile M ⟨.Floor, d, m, f, l⟩).modifier / 16 % 16
      = (rotateLeftTile M ⟨.Floor, d, m, f, l⟩).modifier % 16 := by
    rw [eL]
    exact nib _ _ bL nL
  have round : ∀ n : Tile, n.type = .Floor → n.modifier < 2 ^ 32 →
      n.modifier / 16 % 16 = n.modifier % 16 →
      (rotateRightTile M)^[4] n = n ∧ (rotateLeftTile M)^[4] n = n ∧
        rotateLeftTile M (rotateRightTile M n) = n ∧
        rotateRightTile M (rotateLeftTile M n) = n := by
    rintro ⟨ty, d2, m2, f2, l2⟩ hty hlt hn
    have hty : ty = .Floor := hty
    subst hty
    obtain ⟨h1, h2, h3, h4⟩ := floor_roundtrip M d2 m2 f2 l2 hlt hn
    exact ⟨h3, h4, h1, h2⟩
  refine ⟨⟨normR, normL⟩, ?_, ?_⟩
  · intro m2 hm2 hlow hhigh
    obtain ⟨eR2, eL2, -, -⟩ := step m2 hm2
    have hb2 : m2 % 2 ^ 8 < 2 ^ 8 := Nat.mod_lt _ (by decide)
    obtain ⟨-, -, lowR2, lowL2, -, -⟩ := floorByte_normal (m2 % 2 ^ 8) hb2
    have e16 : m2 % 2 ^ 8 % 16 = m % 2 ^ 8 % 16 := by omega
    rw [eR2, eL2, eR, eL, hhigh, lowR2, lowL2, lowR, lowL, e16]
    exact ⟨rfl, rfl⟩
  · rintro n (rfl | rfl | ⟨hty, hlt, hn⟩)
    · refine round _ ?_ ?_ normR
      · rw [eR]
      · rw [eR]
        exact ltR
    · refine round _ ?_ ?_ normL
      · rw [eL]
      · rw [eL]
        exact ltL
    · exact round n hty hlt hn

/-- A Floor tile with modifier `0x12345678`: after one right rotation the low byte is
`0x11`, the rotation of the low nibble `8` in both nibbles. -/
theorem floor_normalisation_witness :
    (rotateRightTile TileModifier.cc2Format ⟨.Floor, 0, 0x12345678, 0, none⟩).modifier / 16 % 16
        = (rotateRightTile TileModifier.cc2Format ⟨.Floor, 0, 0x12345678, 0, none⟩).modifier
          % 16 :=
  (floor_normalisation TileModifier.cc2Format 0 0x12345678 0 none (by decide)).1.1

set_option maxRecDepth 100000 in
/-- All bytes: three Floor byte steps one way are one step the other way. -/
theorem floorByte_three : ∀ b, b < 2 ^ 8 →
    (floorByteRight b < 2 ^ 8 ∧ floorByteLeft b < 2 ^ 8 ∧
      floorByteRight (floorByteRight (floorByteRight b)) = floorByteLeft b ∧
      floorByteLeft (floorByteLeft (floorByteLeft b)) = floorByteRight b) := by
  decide

set_option maxRecDepth 1000000 in
set_option maxHeartbeats 4000000 in
/-- All track bytes: three track steps one way are one step the other way. -/
theorem trackExchange_three :
    ∀ ns ∈ [0x10, 0x20, 0x40, 0x80], ∀ we ∈ [0x10, 0x20, 0x40, 0x80], ns ≠ we →
      ∀ b, b < 2 ^ 8 →
        (trackExchange ns we (rol4 (trackExchange ns we (rol4 (trackExchange ns we
            (rol4 b) % 2 ^ 8)) % 2 ^ 8)) = trackExchange ns we (ror4 b) ∧
          trackExchange ns we (ror4 (trackExchange ns we (ror4 (trackExchange ns we
            (ror4 b) % 2 ^ 8)) % 2 ^ 8)) = trackExchange ns we (rol4 b)) := by
  decide

/-- The type cycles: three steps one way are one step the other way. -/
theorem rotated_type_three (ty : TileType) :
    ty.rotatedRight.rotatedRight.rotatedRight = ty.rotatedLeft ∧
      ty.rotatedLeft.rotatedLeft.rotatedLeft = ty.rotatedRight := by
  cases ty <;> exact ⟨rfl, rfl⟩

/-- Three rotations one way and one rotation the other way, on the types without a field
rule. -/
theorem plain_three (M : TileModifier) (ty : TileType) (hp : ty.hasFieldRule = false)
    (d m f : Nat) (l : Option Tile) :
    rotateLeftTile M ⟨ty, d, m, f, l⟩
        = rotateRightTile M (rotateRightTile M (rotateRightTile M ⟨ty, d, m, f, l⟩)) ∧
      rotateRightTile M ⟨ty, d, m, f, l⟩
        = rotateLeftTile M (rotateLeftTile M (rotateLeftTile M ⟨ty, d, m, f, l⟩)) := by
  obtain ⟨⟨cR, cL, dR, dL⟩, -⟩ := rotated_type_facts ty
  obtain ⟨⟨cR2, cL2, dR2, dL2⟩, -⟩ := rotated_type_facts ty.rotatedRight
  obtain ⟨⟨cR3, cL3, dR3, dL3⟩, -⟩ := rotated_type_facts ty.rotatedLeft
  obtain ⟨t3R, t3L⟩ := rotated_type_three ty
  have pR : ty.rotatedRight.hasFieldRule = false := cR.trans hp
  have pRR : ty.rotatedRight.rotatedRight.hasFieldRule = false := cR2.trans pR
  have pL : ty.rotatedLeft.hasFieldRule = false := cL.trans hp
  have pLL : ty.rotatedLeft.rotatedLeft.hasFieldRule = false := cL3.trans pL
  constructor
  · rw [(plain_step M ty hp d m f l).1, (plain_step M _ pR _ m f l).1,
      (plain_step M _ pRR _ m f l).1, (plain_step M ty hp d m f l).2, t3R, dR2, dR]
    cases ty.haveDirection
    · rfl
    · simp only [if_true]
      congr 1
      omega
  · rw [(plain_step M ty hp d m f l).2, (plain_step M _ pL _ m f l).2,
      (plain_step M _ pLL _ m f l).2, (plain_step M ty hp d m f l).1, t3L, dL3, dL]
    cases ty.haveDirection
    · rfl
    · simp only [if_true]
      congr 1
      omega

/-- C36: consistency of `rotateLeft` and `rotateRight`.  When `Track_NS` and `Track_WE`
are distinct single bits of the high nibble of the track byte, for every tile whose type
is not LogicGate, with any direction, any 32-bit modifier and any 8-bit flags, one
`rotateLeft` gives the same tile as three `rotateRight`, and one `rotateRight` the same
tile as three `rotateLeft`. -/
theorem rotate_left_eq_three_right (M : TileModifier) (t : Tile)
    (hM : M.Track_NS ∈ [0x10, 0x20, 0x40, 0x80] ∧ M.Track_WE ∈ [0x10, 0x20, 0x40, 0x80] ∧
      M.Track_NS ≠ M.Track_WE)
    (hw : t.WellFormed) (hty : t.type ≠ .LogicGate) :
    rotateLeftTile M t = rotateRightTile M (rotateRightTile M (rotateRightTile M t)) ∧
      rotateRightTile M t = rotateLeftTile M (rotateLeftTile M (rotateLeftTile M t)) := by
  obtain ⟨ty, d, m, f, l⟩ := t
  have hm : m < 2 ^ 32 := hw.1
  have hf : f < 2 ^ 8 := hw.2
  have hty : ty ≠ .LogicGate := hty
  rcases hasFieldRule_cases ty with hp | rfl | rfl | rfl | rfl | rfl | rfl | rfl | rfl
  · exact plain_three M ty hp d m f l
  · -- Floor
    have hb : m % 2 ^ 8 < 2 ^ 8 := Nat.mod_lt _ (by decide)
    have hsplit : m = 256 * (m / 256) + m % 2 ^ 8 := by omega
    have s := fun b hb hlt => floor_step M d (m / 256) b f l hb hlt
    obtain ⟨bR, bL, e3R, e3L⟩ := floorByte_three (m % 2 ^ 8) hb
    obtain ⟨bRR, bLR, -, -⟩ := floorByte_three _ bR
    obtain ⟨bRL, bLL, -, -⟩ := floorByte_three _ bL
    obtain ⟨bRRR, -, -, -⟩ := floorByte_three _ bRR
    obtain ⟨-, bLLL, -, -⟩ := floorByte_three _ bLL
    have lt : ∀ b, b < 2 ^ 8 → 256 * (m / 256) + b < 2 ^ 32 := by
      intro b hb
      omega
    rw [hsplit]
    constructor
    · rw [(s _ hb (lt _ hb)).2.1, (s _ hb (lt _ hb)).1, (s _ bR (lt _ bR)).1,
        (s _ bRR (lt _ bRR)).1, e3R]
    · rw [(s _ hb (lt _ hb)).1, (s _ hb (lt _ hb)).2.1, (s _ bL (lt _ bL)).2.1,
        (s _ bLL (lt _ bLL)).2.1, e3L]
  · -- PanelCanopy
    have s := fun g hg => flags_step M .PanelCanopy (Or.inl rfl) d m g l hg
    obtain ⟨bR, bL, -⟩ := rol4_ror4_byte_inverse f hf
    obtain ⟨bRR, -, -⟩ := rol4_ror4_byte_inverse _ bR
    obtain ⟨-, bLL, -⟩ := rol4_ror4_byte_inverse _ bL
    obtain ⟨e3R, e3L⟩ := rol4_ror4_three f hf
    constructor
    · rw [(s f hf).2, (s f hf).1, (s _ bR).1, (s _ bRR).1, e3R]
    · rw [(s f hf).1, (s f hf).2, (s _ bL).2, (s _ bLL).2, e3L]
  · -- DirBlock
    have s := fun g hg => flags_step M .DirBlock (Or.inr rfl) d m g l hg
    obtain ⟨bR, bL, -⟩ := rol4_ror4_byte_inverse f hf
    obtain ⟨bRR, -, -⟩ := rol4_ror4_byte_inverse _ bR
    obtain ⟨-, bLL, -⟩ := rol4_ror4_byte_inverse _ bL
    obtain ⟨e3R, e3L⟩ := rol4_ror4_three f hf
    constructor
    · rw [(s f hf).2, (s f hf).1, (s _ bR).1, (s _ bRR).1, e3R]
    · rw [(s f hf).1, (s f hf).2, (s _ bL).2, (s _ bLL).2, e3L]
  · -- StyledFloor
    have s := fun n => styled_step M .StyledFloor (Or.inl rfl) d n f l
    constructor
    · rw [(s m).2, (s m).1, (s _).1, (s _).1]
      congr 1
      omega
    · rw [(s m).1, (s m).2, (s _).2, (s _).2]
      congr 1
      omega
  · -- StyledWall
    have s := fun n => styled_step M .StyledWall (Or.inr rfl) d n f l
    constructor
    · rw [(s m).2, (s m).1, (s _).1, (s _).1]
      congr 1
      omega
    · rw [(s m).1, (s m).2, (s _).2, (s _).2]
      congr 1
      omega
  · -- Cloner
    have hb : m % 2 ^ 8 < 2 ^ 8 := Nat.mod_lt _ (by decide)
    have h1 : rotateRightTile M ⟨.Cloner, d, m, f, l⟩
        = ⟨.Cloner, d, rol4 (m % 2 ^ 8) % 2 ^ 32, f, l⟩ := rfl
    have h2 : rotateLeftTile M ⟨.Cloner, d, m, f, l⟩
        = ⟨.Cloner, d, ror4 (m % 2 ^ 8) % 2 ^ 32, f, l⟩ := rfl
    obtain ⟨bR, bL, -⟩ := rol4_ror4_byte_inverse _ hb
    obtain ⟨bRR, -, -⟩ := rol4_ror4_byte_inverse _ bR
    obtain ⟨-, bLL, -⟩ := rol4_ror4_byte_inverse _ bL
    obtain ⟨e3R, e3L⟩ := rol4_ror4_three _ hb
    have e1 : rol4 (m % 2 ^ 8) % 2 ^ 32 = rol4 (m % 2 ^ 8) := by omega
    have e2 : ror4 (m % 2 ^ 8) % 2 ^ 32 = ror4 (m % 2 ^ 8) := by omega
    have s := fun n hn => cloner_step M d n f l hn
    constructor
    · rw [h2, h1, e1, e2, (s _ bR).1, (s _ bRR).1, e3R]
    · rw [h1, h2, e1, e2, (s _ bL).2, (s _ bLL).2, e3L]
  · -- TrainTracks
    have hb : m % 2 ^ 8 < 2 ^ 8 := Nat.mod_lt _ (by decide)
    obtain ⟨e3R, e3L⟩ := trackExchange_three M.Track_NS hM.1 M.Track_WE hM.2.1 hM.2.2 _ hb
    have s := fun n => tracks_step M d n f l
    constructor
    · rw [(s m).2, (s m).1, (s _).1, (s _).1, e3R]
    · rw [(s m).1, (s m).2, (s _).2, (s _).2, e3L]
  · exact absurd rfl hty

/-- With the values of the CC2 map format, a TrainTracks tile with modifier `0x12345678`
and a YellowTank with the direction value 6. -/
theorem rotate_left_eq_three_right_witness :
    rotateLeftTile TileModifier.cc2Format ⟨.TrainTracks, 0, 0x12345678, 0, none⟩
        = rotateRightTile TileModifier.cc2Format (rotateRightTile TileModifier.cc2Format
          (rotateRightTile TileModifier.cc2Format ⟨.TrainTracks, 0, 0x12345678, 0, none⟩)) ∧
      rotateRightTile TileModifier.cc2Format ⟨.YellowTank, 6, 0, 0xff, none⟩
        = rotateLeftTile TileModifier.cc2Format (rotateLeftTile TileModifier.cc2Format
          (rotateLeftTile TileModifier.cc2Format ⟨.YellowTank, 6, 0, 0xff, none⟩)) :=
  ⟨(rotate_left_eq_three_right TileModifier.cc2Format ⟨.TrainTracks, 0, 0x12345678, 0, none⟩
      (by decide) (by decide) (by decide)).1,
    (rotate_left_eq_three_right TileModifier.cc2Format ⟨.YellowTank, 6, 0, 0xff, none⟩
      (by decide) (by decide) (by decide)).2⟩

/-- A counter gate shows why LogicGate is excepted: one left rotation of the counter value 0
gives 9, three right rotations give 3. -/
theorem counter_left_ne_three_right :
    (rotateLeftTile TileModifier.cc2Format ⟨.LogicGate, 0, 0x1e, 0, none⟩).modifier = 0x27 ∧
      (rotateRightTile TileModifier.cc2Format (rotateRightTile TileModifier.cc2Format
        (rotateRightTile TileModifier.cc2Format ⟨.LogicGate, 0, 0x1e, 0, none⟩))).modifier
        = 0x21 := by
  decide

/-- C37, counterexample: with the values of the CC2 map format, the counter range is
`[0x1e, 0x27]`; the LogicGate modifier `0x1d` lies outside it, and one right rotation makes
it `0x1e`, which lies inside. -/
theorem gate_class_not_preserved :
    ¬ TileModifier.cc2Format.isCounter
        (Tile.mk .LogicGate 0 0x1d 0 none).modifier ∧
      TileModifier.cc2Format.isCounter
        (rotateRightTile TileModifier.cc2Format ⟨.LogicGate, 0, 0x1d, 0, none⟩).modifier ∧
      (rotateRightTile TileModifier.cc2Format ⟨.LogicGate, 0, 0x1d, 0, none⟩).modifier
        = 0x1e := by
  decide

/-- Whatever value `CounterGate_0` has, a range of ten consecutive values is not made of
whole groups of four: some 32-bit modifier outside the counter range is rotated into
it. -/
theorem gate_class_escape (M : TileModifier) (hM : M.CounterGate_9 = M.CounterGate_0 + 9)
    (hlt : M.CounterGate_9 + 1 < 2 ^ 32) (d f : Nat) (l : Option Tile) :
    ∃ m, m < 2 ^ 32 ∧ ¬ M.isCounter m ∧
      (M.isCounter (rotateRightTile M ⟨.LogicGate, d, m, f, l⟩).modifier ∨
        M.isCounter (rotateLeftTile M ⟨.LogicGate, d, m, f, l⟩).modifier) := by
  by_cases h4 : M.CounterGate_0 % 4 = 0
  · refine ⟨M.CounterGate_0 + 10, by omega, ?_, Or.inr ?_⟩
    · unfold TileModifier.isCounter
      omega
    · have hout : ¬ (M.CounterGate_0 ≤ M.CounterGate_0 + 10 ∧
          M.CounterGate_0 + 10 ≤ M.CounterGate_9) := by omega
      rw [gate_modifier_left M ⟨.LogicGate, d, M.CounterGate_0 + 10, f, l⟩ rfl
        (by show M.CounterGate_0 + 10 < 2 ^ 32; omega) hout]
      show M.CounterGate_0 ≤ 4 * ((M.CounterGate_0 + 10) / 4)
          + ((M.CounterGate_0 + 10) % 4 + 3) % 4 ∧
        4 * ((M.CounterGate_0 + 10) / 4) + ((M.CounterGate_0 + 10) % 4 + 3) % 4
          ≤ M.CounterGate_9
      omega
  · refine ⟨M.CounterGate_0 - 1, by omega, ?_, Or.inl ?_⟩
    · unfold TileModifier.isCounter
      omega
    · have hout : ¬ (M.CounterGate_0 ≤ M.CounterGate_0 - 1 ∧
          M.CounterGate_0 - 1 ≤ M.CounterGate_9) := by omega
      rw [gate_modifier_right M ⟨.LogicGate, d, M.CounterGate_0 - 1, f, l⟩ rfl
        (by show M.CounterGate_0 - 1 < 2 ^ 32; omega) hout]
      show M.CounterGate_0 ≤ 4 * ((M.CounterGate_0 - 1) / 4)
          + ((M.CounterGate_0 - 1) % 4 + 1) % 4 ∧
        4 * ((M.CounterGate_0 - 1) / 4) + ((M.CounterGate_0 - 1) % 4 + 1) % 4
          ≤ M.CounterGate_9
      omega

/-- C37, amended: gate class under rotation.  With `CounterGate_0 .. CounterGate_9` ten
consecutive 32-bit values, a LogicGate modifier inside the counter range stays inside it
under `rotateRight` and `rotateLeft`; a 32-bit modifier outside the counter range stays
outside it when none of the four values that share its bits 2..31 is a counter value, and in
general it goes to the value of the same four with the low two bits stepped, which is
where the rotation can enter the counter range. -/
theorem gate_class_preserved (M : TileModifier) (t : Tile) (hty : t.type = .LogicGate)
    (hM : M.CounterGate_9 = M.CounterGate_0 + 9) (hlt : M.CounterGate_9 < 2 ^ 32)
    (hm : t.modifier < 2 ^ 32) :
    (M.isCounter t.modifier →
      M.isCounter (rotateRightTile M t).modifier ∧
        M.isCounter (rotateLeftTile M t).modifier) ∧
    (¬ M.isCounter t.modifier →
      (rotateRightTile M t).modifier = 4 * (t.modifier / 4) + (t.modifier % 4 + 1) % 4 ∧
        (rotateLeftTile M t).modifier = 4 * (t.modifier / 4) + (t.modifier % 4 + 3) % 4 ∧
        ((∀ k, k < 4 → ¬ M.isCounter (4 * (t.modifier / 4) + k)) →
          ¬ M.isCounter (rotateRightTile M t).modifier ∧
            ¬ M.isCounter (rotateLeftTile M t).modifier)) := by
  constructor
  · intro hin
    have hin2 : M.CounterGate_0 ≤ t.modifier ∧ t.modifier ≤ M.CounterGate_9 := hin
    have hv : t.modifier - M.CounterGate_0 ≤ 9 := by omega
    have hmod : t.modifier = M.CounterGate_0 + (t.modifier - M.CounterGate_0) := by omega
    rw [counter_right M t hty hM hlt _ hv hmod, counter_left M t hty hM hlt _ hv hmod]
    unfold TileModifier.isCounter
    constructor
    · show M.CounterGate_0 ≤ M.CounterGate_0 + (t.modifier - M.CounterGate_0 + 1) % 10 ∧
        M.CounterGate_0 + (t.modifier - M.CounterGate_0 + 1) % 10 ≤ M.CounterGate_9
      omega
    · show M.CounterGate_0 ≤ M.CounterGate_0 + (t.modifier - M.CounterGate_0 + 9) % 10 ∧
        M.CounterGate_0 + (t.modifier - M.CounterGate_0 + 9) % 10 ≤ M.CounterGate_9
      omega
  · intro hout
    have eR := gate_modifier_right M t hty hm hout
    have eL := gate_modifier_left M t hty hm hout
    have mR : (rotateRightTile M t).modifier
        = 4 * (t.modifier / 4) + (t.modifier % 4 + 1) % 4 := by rw [eR]
    have mL : (rotateLeftTile M t).modifier
        = 4 * (t.modifier / 4) + (t.modifier % 4 + 3) % 4 := by rw [eL]
    refine ⟨mR, mL, fun hB => ?_⟩
    rw [mR, mL]
    exact ⟨hB _ (Nat.mod_lt _ (by decide)), hB _ (Nat.mod_lt _ (by decide))⟩

/-- With the values of the CC2 map format, the counter value 9 (`0x27`) goes to the counter
values 0 and 8, and the AndGate_W modifier `0x07` stays outside the counter range. -/
theorem gate_class_preserved_witness :
    (TileModifier.cc2Format.isCounter
        (rotateRightTile TileModifier.cc2Format ⟨.LogicGate, 0, 0x27, 0, none⟩).modifier ∧
      TileModifier.cc2Format.isCounter
        (rotateLeftTile TileModifier.cc2Format ⟨.LogicGate, 0, 0x27, 0, none⟩).modifier) ∧
    (¬ TileModifier.cc2Format.isCounter
        (rotateRightTile TileModifier.cc2Format ⟨.LogicGate, 0, 0x07, 0, none⟩).modifier ∧
      ¬ TileModifier.cc2Format.isCounter
        (rotateLeftTile TileModifier.cc2Format ⟨.LogicGate, 0, 0x07, 0, none⟩).modifier) :=
  ⟨(gate_class_preserved TileModifier.cc2Format ⟨.LogicGate, 0, 0x27, 0, none⟩ rfl
      (by decide) (by decide) (by decide)).1 (by decide),
    ((gate_class_preserved TileModifier.cc2Format ⟨.LogicGate, 0, 0x07, 0, none⟩ rfl
      (by decide) (by decide) (by decide)).2 (by decide)).2.2 (by decide)⟩

/-! ### Glyph addressing -/

/-- The sprite and the source origin of the blit of an accepted glyph. -/
theorem drawGlyph_source (D : TileModel) (ts : CC2ETileset) (x y : Int) (g : Nat)
    (hg : D.modifier.GlyphMIN ≤ g ∧ g ≤ D.modifier.GlyphMAX) :
    (drawGlyph D ts x y g).map (fun b => (b.sprite, b.sourceOrigin))
      = [((Graphic.G_GlyphArrows, (g - D.modifier.GlyphMIN) / 4),
          ((g % 2) * (ts.size / 2), ((g / 2) % 2) * (ts.size / 2)))] := by
  have hin : ¬ (g < D.modifier.GlyphMIN ∨ g > D.modifier.GlyphMAX) := by omega
  rw [drawGlyph, if_neg hin]
  rfl

/-- C38: glyph addressing is injective.  Two codepoints that `drawGlyph` accepts and that
select the same sprite index and the same quadrant indices are equal; with sprites of
edge at least 2, two accepted codepoints whose blits read the same sprite at the same
source origin are equal, so the codepoints that share a sprite index read different
quadrants of it.  When `GlyphMIN` is a multiple of 4, the codepoint `GlyphMIN + 4 * k + r`
with `r < 4` reads the sprite with offset `k` at the quadrant `(r % 2, r / 2)`.  The
injectivity does not need `GlyphMIN` to be a multiple of 4. -/
theorem glyph_addressing_injective (D : TileModel) (ts : CC2ETileset) (x y : Int)
    (g₁ g₂ : Nat)
    (h₁ : D.modifier.GlyphMIN ≤ g₁ ∧ g₁ ≤ D.modifier.GlyphMAX)
    (h₂ : D.modifier.GlyphMIN ≤ g₂ ∧ g₂ ≤ D.modifier.GlyphMAX) :
    (((g₁ - D.modifier.GlyphMIN) / 4, g₁ % 2, (g₁ / 2) % 2)
        = ((g₂ - D.modifier.GlyphMIN) / 4, g₂ % 2, (g₂ / 2) % 2) → g₁ = g₂) ∧
      (2 ≤ ts.size →
        (drawGlyph D ts x y g₁).map (fun b => (b.sprite, b.sourceOrigin))
          = (drawGlyph D ts x y g₂).map (fun b => (b.sprite, b.sourceOrigin)) → g₁ = g₂) ∧
      (D.modifier.GlyphMIN % 4 = 0 → ∀ k r, r < 4 → g₁ = D.modifier.GlyphMIN + 4 * k + r →
        (drawGlyph D ts x y g₁).map (fun b => (b.sprite, b.sourceOrigin))
          = [((Graphic.G_GlyphArrows, k), ((r % 2) * (ts.size / 2), (r / 2) * (ts.size / 2)))])
    := by
  have key : ((g₁ - D.modifier.GlyphMIN) / 4, g₁ % 2, (g₁ / 2) % 2)
      = ((g₂ - D.modifier.GlyphMIN) / 4, g₂ % 2, (g₂ / 2) % 2) → g₁ = g₂ := by
    intro h
    simp only [Prod.mk.injEq] at h
    obtain ⟨hid, hx, hy⟩ := h
    omega
  refine ⟨key, ?_, ?_⟩
  · intro hsize h
    have hh : 0 < ts.size / 2 := Nat.div_pos hsize (by decide)
    rw [drawGlyph_source D ts x y g₁ h₁, drawGlyph_source D ts x y g₂ h₂] at h
    simp only [List.cons.injEq, Prod.mk.injEq, and_true, true_and] at h
    obtain ⟨hid, hx, hy⟩ := h
    have hx2 : g₁ % 2 = g₂ % 2 := Nat.eq_of_mul_eq_mul_right hh hx
    have hy2 : (g₁ / 2) % 2 = (g₂ / 2) % 2 := Nat.eq_of_mul_eq_mul_right hh hy
    apply key
    rw [hid, hx2, hy2]
  · intro hmin k r hr hg
    rw [drawGlyph_source D ts x y g₁ h₁]
    have e1 : (g₁ - D.modifier.GlyphMIN) / 4 = k := by omega
    have e2 : g₁ % 2 = r % 2 := by omega
    have e3 : (g₁ / 2) % 2 = r / 2 := by omega
    rw [e1, e2, e3]

/-- With the values of the CC2 map format and sprites of edge 32, the glyphs `A` (`0x41`)
and `C` (`0x43`), which share the sprite with offset 9, are read from different quadrants of
it, `C` from the one with origin `(16, 16)`. -/
theorem glyph_addressing_injective_witness :
    ((drawGlyph TileModel.cc2Format ⟨32⟩ 0 0 0x41).map (fun b => (b.sprite, b.sourceOrigin))
        = (drawGlyph TileModel.cc2Format ⟨32⟩ 0 0 0x43).map
          (fun b => (b.sprite, b.sourceOrigin)) → 0x41 = 0x43) ∧
      (drawGlyph TileModel.cc2Format ⟨32⟩ 0 0 0x43).map (fun b => (b.sprite, b.sourceOrigin))
        = [((Graphic.G_GlyphArrows, 9), (16, 16))] :=
  ⟨(glyph_addressing_injective TileModel.cc2Format ⟨32⟩ 0 0 0x41 0x43 (by decide)
      (by decide)).2.1 (by decide),
    (glyph_addressing_injective TileModel.cc2Format ⟨32⟩ 0 0 0x43 0x41 (by decide)
      (by decide)).2.2 (by decide) 9 3 (by decide) (by decide)⟩

/-! ### The loader: slicing and short reads -/

/-- The loop of `sliceAtlas` assigns the entries below `n` and keeps the length and the
other entries of the array. -/
theorem sliceAtlas_get {Image : Type} (tempmap : Image) (s : Nat)
    (gfx : List (Option (Sprite Image))) (n : Nat) :
    (sliceAtlas n tempmap s gfx).length = gfx.length ∧
      ∀ i, (sliceAtlas n tempmap s gfx)[i]?
        = if i < n ∧ i < gfx.length then
            some (some ⟨tempmap, (i / 16) * s, (i % 16) * s, s, s⟩)
          else gfx[i]? := by
  induction n with
  | zero =>
    refine ⟨rfl, fun i => ?_⟩
    simp [sliceAtlas]
  | succ n ih =>
    obtain ⟨ihlen, ihget⟩ := ih
    have hstep : sliceAtlas (n + 1) tempmap s gfx
        = (sliceAtlas n tempmap s gfx).set n
          (some ⟨tempmap, (n / 16) * s, (n % 16) * s, s, s⟩) := by
      simp only [sliceAtlas, List.range_succ, List.foldl_append, List.foldl_cons,
        List.foldl_nil]
    rw [hstep]
    refine ⟨by rw [List.length_set, ihlen], fun i => ?_⟩
    rw [List.getElem?_set, ihlen, ihget]
    by_cases hin : n = i
    · subst hin
      by_cases hl : n < gfx.length
      · simp [hl]
      · have hnone : gfx[n]? = none := List.getElem?_eq_none (by omega)
        simp [hl, hnone]
    · have : (i < n + 1 ∧ i < gfx.length) ↔ (i < n ∧ i < gfx.length) := by omega
      simp only [hin, if_false, this]

/-- Two squares of edge `s` cut at different grid positions have no pixel in common. -/
theorem grid_squares_disjoint {Image : Type} (a₁ a₂ : Image) (s i j : Nat)
    (hi : i ≠ j) (px py : Nat) :
    ¬ ((Sprite.mk a₁ ((i / 16) * s) ((i % 16) * s) s s).covers px py ∧
        (Sprite.mk a₂ ((j / 16) * s) ((j % 16) * s) s s).covers px py) := by
  rintro ⟨⟨h1, h2, h3, h4⟩, ⟨k1, k2, k3, k4⟩⟩
  have h1 : (i / 16) * s ≤ px := h1
  have h2 : px < (i / 16) * s + s := h2
  have h3 : (i % 16) * s ≤ py := h3
  have h4 : py < (i % 16) * s + s := h4
  have k1 : (j / 16) * s ≤ px := k1
  have k2 : px < (j / 16) * s + s := k2
  have k3 : (j % 16) * s ≤ py := k3
  have k4 : py < (j % 16) * s + s := k4
  have cell : ∀ a b p : Nat, a * s ≤ p → p < a * s + s → b * s ≤ p → p < b * s + s →
      a = b := by
    intro a b p ha1 ha2 hb1 hb2
    by_contra hne
    rcases Nat.lt_or_gt_of_ne hne with hlt | hgt
    · have : (a + 1) * s ≤ b * s := Nat.mul_le_mul_right s hlt
      rw [Nat.add_mul, Nat.one_mul] at this
      omega
    · have : (b + 1) * s ≤ a * s := Nat.mul_le_mul_right s hgt
      rw [Nat.add_mul, Nat.one_mul] at this
      omega
  have hc := cell _ _ px h1 h2 k1 k2
  have hr := cell _ _ py h3 h4 k3 k4
  omega

/-- A load that returns normally: the file starts with the magic, its image block has been
decoded, and every member of the object has been assigned. -/
theorem load_success {Image : Type} (E : LoadEnv Image) (self : TilesetObject Image)
    (filename : String) (contents : Option (List Nat))
    (hok : (load E self filename contents).2 = none) :
    ∃ file atlas, contents = some file ∧ file.take 8 = tilesetMagic ∧
      E.loadFromData (readBlock E.uninit (readBlock E.uninit (readBlock E.uninit
        (read8 E.uninit (readBlock E.uninit (readBlock E.uninit
          (file.drop 8)).2).2).2).2).2).1 = some atlas ∧
      load E self filename contents
        = ({ self with
            m_name := (readBlock E.uninit (file.drop 8)).1,
            m_description := (readBlock E.uninit (readBlock E.uninit (file.drop 8)).2).1,
            size := (read8 E.uninit
              (readBlock E.uninit (readBlock E.uninit (file.drop 8)).2).2).1,
            m_gfx := sliceAtlas E.NUM_GRAPHICS atlas
              (read8 E.uninit
                (readBlock E.uninit (readBlock E.uninit (file.drop 8)).2).2).1
              self.m_gfx,
            m_filename := E.fileName filename }, none) := by
  cases contents with
  | none => exact Option.noConfusion hok
  | some file =>
    by_cases hmagic : file.take 8 = tilesetMagic
    · rw [load_of_magic E self filename file hmagic] at hok ⊢
      cases hd : E.loadFromData (readBlock E.uninit (readBlock E.uninit (readBlock E.uninit
          (read8 E.uninit (readBlock E.uninit (readBlock E.uninit
            (file.drop 8)).2).2).2).2).2).1 with
      | none =>
        dsimp only at hok
        rw [hd] at hok
        exact Option.noConfusion hok
      | some atlas =>
        dsimp only
        rw [hd]
        exact ⟨file, atlas, rfl, hmagic, hd, rfl⟩
    · rw [load_of_bad_magic E self filename file hmagic] at hok
      exact Option.noConfusion hok

/-- C32: atlas slicing.  After a load that returns normally on an object whose sprite
array has `NUM_GRAPHICS` entries, the image block of the file has been decoded to an
atlas, and for every `id` below `NUM_GRAPHICS` the sprite `id` is the rectangle of this
atlas with top-left pixel `((id / 16) * s, (id % 16) * s)`, width `s` and height `s`, where
`s` is the sprite size of the object.  The sprites of different ids have no pixel in
common, and when `s > 0` they are different rectangles. -/
theorem atlas_slicing {Image : Type} (E : LoadEnv Image) (self : TilesetObject Image)
    (filename : String) (contents : Option (List Nat))
    (hlen : self.m_gfx.length = E.NUM_GRAPHICS)
    (hok : (load E self filename contents).2 = none) :
    ∃ atlas : Image,
      (∃ file, contents = some file ∧
        E.loadFromData (readBlock E.uninit (readBlock E.uninit (readBlock E.uninit
          (read8 E.uninit (readBlock E.uninit (readBlock E.uninit
            (file.drop 8)).2).2).2).2).2).1 = some atlas) ∧
      (load E self filename contents).1.m_gfx.length = E.NUM_GRAPHICS ∧
      (∀ id, id < E.NUM_GRAPHICS →
        (load E self filename contents).1.m_gfx[id]?
          = some (some ⟨atlas, (id / 16) * (load E self filename contents).1.size,
              (id % 16) * (load E self filename contents).1.size,
              (load E self filename contents).1.size,
              (load E self filename contents).1.size⟩)) ∧
      (∀ (id₁ id₂ : Nat) (sp₁ sp₂ : Sprite Image), id₁ ≠ id₂ →
        (load E self filename contents).1.m_gfx[id₁]? = some (some sp₁) →
        (load E self filename contents).1.m_gfx[id₂]? = some (some sp₂) →
        (∀ px py, ¬ (sp₁.covers px py ∧ sp₂.covers px py)) ∧
          (0 < (load E self filename contents).1.size → sp₁ ≠ sp₂)) := by
  obtain ⟨file, atlas, hc, -, hd, hload⟩ := load_success E self filename contents hok
  rw [hload]
  obtain ⟨slen, sget⟩ := sliceAtlas_get atlas
    (read8 E.uninit (readBlock E.uninit (readBlock E.uninit (file.drop 8)).2).2).1
    self.m_gfx E.NUM_GRAPHICS
  have hget : ∀ id, id < E.NUM_GRAPHICS →
      (sliceAtlas E.NUM_GRAPHICS atlas
        (read8 E.uninit (readBlock E.uninit (readBlock E.uninit
          (file.drop 8)).2).2).1 self.m_gfx)[id]?
        = some (some ⟨atlas,
          (id / 16) * (read8 E.uninit (readBlock E.uninit (readBlock E.uninit
            (file.drop 8)).2).2).1,
          (id % 16) * (read8 E.uninit (readBlock E.uninit (readBlock E.uninit
            (file.drop 8)).2).2).1,
          (read8 E.uninit (readBlock E.uninit (readBlock E.uninit
            (file.drop 8)).2).2).1,
          (read8 E.uninit (readBlock E.uninit (readBlock E.uninit
            (file.drop 8)).2).2).1⟩) := by
    intro id hid
    rw [sget id, if_pos ⟨hid, by omega⟩]
  have hsome : ∀ id (sp : Sprite Image),
      (sliceAtlas E.NUM_GRAPHICS atlas
        (read8 E.uninit (readBlock E.uninit (readBlock E.uninit
          (file.drop 8)).2).2).1 self.m_gfx)[id]? = some (some sp) →
      id < E.NUM_GRAPHICS := by
    intro id sp h
    by_contra hge
    have : (sliceAtlas E.NUM_GRAPHICS atlas
        (read8 E.uninit (readBlock E.uninit (readBlock E.uninit
          (file.drop 8)).2).2).1 self.m_gfx)[id]? = none :=
      List.getElem?_eq_none (by omega)
    rw [this] at h
    exact Option.noConfusion h
  refine ⟨atlas, ⟨file, hc, hd⟩, slen.trans hlen, hget, ?_⟩
  intro id₁ id₂ sp₁ sp₂ hne h₁ h₂
  have hid₁ := hsome id₁ sp₁ h₁
  have hid₂ := hsome id₂ sp₂ h₂
  have e₁ := (hget id₁ hid₁).symm.trans h₁
  have e₂ := (hget id₂ hid₂).symm.trans h₂
  simp only [Option.some.injEq] at e₁ e₂
  subst e₁
  subst e₂
  refine ⟨grid_squares_disjoint atlas atlas _ id₁ id₂ hne, ?_⟩
  intro hs heq
  have hs : 0 < (read8 E.uninit (readBlock E.uninit (readBlock E.uninit
      (file.drop 8)).2).2).1 := hs
  have hx := congrArg Sprite.x heq
  have hy := congrArg Sprite.y heq
  have hx : (id₁ / 16) * _ = (id₂ / 16) * _ := hx
  have hy : (id₁ % 16) * _ = (id₂ % 16) * _ := hy
  have hc := Nat.eq_of_mul_eq_mul_right hs hx
  have hr := Nat.eq_of_mul_eq_mul_right hs hy
  omega

/-- The sample file with the image that the sample decoder accepts: the three sprites are
cut at `(0, 0)`, `(0, 32)` and `(0, 64)`, with edge 32. -/
theorem atlas_slicing_witness :
    ∃ atlas : List Nat,
      (load LoadEnv.sample TilesetObject.sample "tiles.tis"
          (some (sampleFile [0x89]))).1.m_gfx.length = 3 ∧
      (load LoadEnv.sample TilesetObject.sample "tiles.tis"
          (some (sampleFile [0x89]))).1.m_gfx[2]? = some (some ⟨atlas, 0, 64, 32, 32⟩) := by
  obtain ⟨atlas, -, h2, h3, -⟩ := atlas_slicing LoadEnv.sample TilesetObject.sample
    "tiles.tis" (some (sampleFile [0x89])) rfl (by decide)
  refine ⟨atlas, h2, ?_⟩
  have h := h3 2 (by decide)
  have hsize : (load LoadEnv.sample TilesetObject.sample "tiles.tis"
      (some (sampleFile [0x89]))).1.size = 32 := by decide
  rw [hsize] at h
  exact h

/-- What `load` reads from the file that ends one byte early: the name, the description,
the size, and an image buffer of 72 bytes that holds the 71 bytes of the image followed by
one byte that was never written. -/
theorem shortFile_blocks (uninit : Nat → Nat) :
    shortFile.take 8 = tilesetMagic ∧
      (readBlock uninit (shortFile.drop 8)).1 = [0x41] ∧
      (readBlock uninit (readBlock uninit (shortFile.drop 8)).2).1 = [0x42] ∧
      (read8 uninit (readBlock uninit (readBlock uninit (shortFile.drop 8)).2).2).1 = 1 ∧
      (readBlock uninit (readBlock uninit (readBlock uninit
        (read8 uninit (readBlock uninit (readBlock uninit
          (shortFile.drop 8)).2).2).2).2).2).1 = tinyPng ++ [uninit 71 % 2 ^ 8] := by
  have h1 : readBlock uninit (shortFile.drop 8)
      = ([0x41], [1, 0, 0, 0, 0x42, 1, 0, 0, 0, 0, 0, 0, 0, 0, 72, 0, 0, 0] ++ tinyPng) := rfl
  have h2 : readBlock uninit
      ([1, 0, 0, 0, 0x42, 1, 0, 0, 0, 0, 0, 0, 0, 0, 72, 0, 0, 0] ++ tinyPng)
      = ([0x42], [1, 0, 0, 0, 0, 0, 0, 0, 0, 72, 0, 0, 0] ++ tinyPng) := rfl
  have h3 : read8 uninit ([1, 0, 0, 0, 0, 0, 0, 0, 0, 72, 0, 0, 0] ++ tinyPng)
      = (1, [0, 0, 0, 0, 0, 0, 0, 0, 72, 0, 0, 0] ++ tinyPng) := rfl
  have h4 : readBlock uninit ([0, 0, 0, 0, 0, 0, 0, 0, 72, 0, 0, 0] ++ tinyPng)
      = ([], [0, 0, 0, 0, 72, 0, 0, 0] ++ tinyPng) := rfl
  have h5 : readBlock uninit ([0, 0, 0, 0, 72, 0, 0, 0] ++ tinyPng)
      = ([], [72, 0, 0, 0] ++ tinyPng) := rfl
  have h6 : readBlock uninit ([72, 0, 0, 0] ++ tinyPng)
      = (tinyPng ++ [uninit 71 % 2 ^ 8], []) := rfl
  rw [h1, h2, h3, h4, h5, h6]
  exact ⟨rfl, rfl, rfl, rfl, rfl⟩

/-- C31 (the code at the failing input): on the file that ends one byte before its image
block is complete, `load` hands the decoder a buffer that holds the whole image followed by
one byte that was never written.  When the decoder accepts this buffer, `load` returns
normally, with the name, the description, the size and every sprite of the object
assigned; when it does not, `load` throws the corrupt-image exception after it has
overwritten the name, the description and the size.  It never throws the invalid-format
exception. -/
theorem load_short_read {Image : Type} (E : LoadEnv Image) (self : TilesetObject Image)
    (filename : String) :
    (∀ atlas, E.loadFromData (tinyPng ++ [E.uninit 71 % 2 ^ 8]) = some atlas →
      load E self filename (some shortFile)
        = ({ self with
            m_name := [0x41], m_description := [0x42], size := 1,
            m_gfx := sliceAtlas E.NUM_GRAPHICS atlas 1 self.m_gfx,
            m_filename := E.fileName filename }, none)) ∧
      (E.loadFromData (tinyPng ++ [E.uninit 71 % 2 ^ 8]) = none →
        load E self filename (some shortFile)
          = ({ self with m_name := [0x41], m_description := [0x42], size := 1 },
              some .corruptImage)) ∧
      (load E self filename (some shortFile)).2 ≠ some .invalidFormat := by
  obtain ⟨hmagic, hname, hdesc, hsize, hpix⟩ := shortFile_blocks E.uninit
  rw [load_of_magic E self filename shortFile hmagic]
  dsimp only
  rw [hname, hdesc, hsize, hpix]
  cases E.loadFromData (tinyPng ++ [E.uninit 71 % 2 ^ 8]) with
  | none =>
    refine ⟨fun atlas h => Option.noConfusion h, fun _ => rfl, fun h => ?_⟩
    exact LoadError.noConfusion (Option.some.inj h)
  | some atlas =>
    refine ⟨fun a h => ?_, fun h => Option.noConfusion h, fun h => Option.noConfusion h⟩
    rw [Option.some.inj h]

/-- The file that ends one byte early, loaded with the decoder that reads the image
`tinyPng` and nothing after it: `load` returns normally and the three sprites are cut. -/
theorem load_short_read_sample :
    load LoadEnv.png TilesetObject.sample "tiles.tis" (some shortFile)
      = ({ size := 1, m_name := [0x41], m_description := [0x42],
           m_gfx := [some ⟨tinyPng, 0, 0, 1, 1⟩, some ⟨tinyPng, 0, 1, 1, 1⟩,
             some ⟨tinyPng, 0, 2, 1, 1⟩],
           m_filename := "tiles.tis" }, none) := by
  decide

/-- The file that ends one byte early starts with the magic; from offset 27 on it holds the
length 72 of the image block, and then only the 71 bytes of the image. -/
theorem shortFile_short :
    shortFile.take 8 = tilesetMagic ∧ (shortFile.drop 27).take 4 = [72, 0, 0, 0] ∧
      shortFile.drop 31 = tinyPng ∧ (shortFile.drop 31).length = 71 := by
  decide

end cc2
